import Mathlib

/-!
# Scan Tailor output generation: shallow embedding and verified properties

The definitions below embed parts of `filters/output/OutputGenerator.cpp`,
`filters/output/OutputImageParams.cpp` and `filters/output/SplittingOptions.cpp`.
Machine integers are natural numbers or integers with explicit wrap-around
where the source relies on it.  Pixel buffers are functions from a flat
index to a pixel value, updated in place by the loops of the source.
-/

/-! ## Definitions -/

namespace output

/-- Unsigned 32-bit wrap-around. -/
def wrapU32 (v : Nat) : Nat := v % 4294967296

/-! ### RaiseAboveBackground (OutputGenerator.cpp, lines 63-75) -/

namespace RaiseAboveBackground

/-- The value of `(orig * 255 + background / 2) / background`, computed in
`unsigned` arithmetic, before the cast to `uint8_t`. -/
def quotient (src dst : Nat) : Nat :=
  wrapU32 (wrapU32 (src * 255) + dst / 2) / dst

/-- The function `RaiseAboveBackground::transform`.  The comparison
`dst - src < 1` is made on promoted (signed) integers.  A division by zero,
undefined in the source, is reported as `none`. -/
def transform (src dst : Nat) : Option Nat :=
  if (dst : Int) - (src : Int) < 1 then some 0xff
  else if dst = 0 then none
  else some (quotient src dst % 256)

end RaiseAboveBackground

/-! ### reserveBlackAndWhite (OutputGenerator.cpp, lines 87-119) -/

/-- The specialisation `reserveBlackAndWhite<uint32_t>`. -/
def reserveBlackAndWhite_uint32 (color : Nat) : Nat :=
  if color &&& 0x00FFFFFF = 0x00000000 then 0xFF010101
  else if color &&& 0x00FFFFFF = 0x00FFFFFF then 0xFFFEFEFE
  else color

/-- The specialisation `reserveBlackAndWhite<uint8_t>`. -/
def reserveBlackAndWhite_uint8 (color : Nat) : Nat :=
  if color = 0x00 then 0x01
  else if color = 0xFF then 0xFE
  else color

/-- The two pixel types `combineMixed` is instantiated with. -/
inductive MixedPixel where
  | uint8
  | uint32
  deriving DecidableEq, Repr

/-- The conversion `static_cast<MixedPixel>` of a 32-bit value. -/
def MixedPixel.cast : MixedPixel → Nat → Nat
  | .uint8, v => v % 256
  | .uint32, v => v % 4294967296

/-- The template `reserveBlackAndWhite<PixelType>`, by pixel type. -/
def reserveBlackAndWhite : MixedPixel → Nat → Nat
  | .uint8, c => reserveBlackAndWhite_uint8 c
  | .uint32, c => reserveBlackAndWhite_uint32 c

/-! ### combineMixed (OutputGenerator.cpp, lines 148-193) -/

/-- A binary image: 32-bit words, `wordsPerLine` words per row, the leftmost
pixel of a word in its most significant bit; a set bit is a black pixel. -/
structure BinaryImage where
  width : Nat
  height : Nat
  wordsPerLine : Nat
  data : Nat → Nat

/-- A raster of `MixedPixel` values: `stride` is `bytesPerLine()` divided by
the pixel size, `bits` the pixel buffer by flat index. -/
structure QImage where
  width : Nat
  height : Nat
  stride : Nat
  bits : Nat → Nat

/-- The constant `uint32_t(1) << 31`. -/
def msb : Nat := wrapU32 (1 <<< 31)

/-- One iteration of the inner loop of `combineMixed`, at column `x`; the
three line arguments are the offsets of the current row in each buffer. -/
def combineMixedPixel (T : MixedPixel) (bw_content bw_mask : BinaryImage)
    (needReserveBlackAndWhite : Bool) (mixed_line bw_content_line bw_mask_line : Nat)
    (bits : Nat → Nat) (x : Nat) : Nat → Nat :=
  if bw_mask.data (bw_mask_line + (x >>> 5)) &&& (msb >>> (x &&& 31)) ≠ 0 then
    let tmp := bw_content.data (bw_content_line + (x >>> 5))
    let tmp := tmp >>> (31 - (x &&& 31))
    let tmp := tmp &&& 1
    let tmp := wrapU32 (tmp + 4294967295)
    let tmp := tmp ||| 0xff000000
    Function.update bits (mixed_line + x) (T.cast tmp)
  else if needReserveBlackAndWhite then
    Function.update bits (mixed_line + x) (reserveBlackAndWhite T (bits (mixed_line + x)))
  else bits

/-- The inner loop of `combineMixed`: columns `0 .. width - 1` of one row. -/
def combineMixedLine (T : MixedPixel) (bw_content bw_mask : BinaryImage)
    (needReserveBlackAndWhite : Bool) (width mixed_line bw_content_line bw_mask_line : Nat)
    (bits : Nat → Nat) : Nat → Nat :=
  (List.range width).foldl
    (combineMixedPixel T bw_content bw_mask needReserveBlackAndWhite
      mixed_line bw_content_line bw_mask_line) bits

/-- The outer loop of `combineMixed`: `rows` remaining rows, each followed by
the advance of the three line pointers by their strides. -/
def combineMixedRows (T : MixedPixel) (bw_content bw_mask : BinaryImage)
    (needReserveBlackAndWhite : Bool) (width mixed_stride : Nat) :
    Nat → Nat → Nat → Nat → (Nat → Nat) → (Nat → Nat)
  | 0, _, _, _, bits => bits
  | rows + 1, mixed_line, bw_content_line, bw_mask_line, bits =>
    combineMixedRows T bw_content bw_mask needReserveBlackAndWhite width mixed_stride rows
      (mixed_line + mixed_stride) (bw_content_line + bw_content.wordsPerLine)
      (bw_mask_line + bw_mask.wordsPerLine)
      (combineMixedLine T bw_content bw_mask needReserveBlackAndWhite width
        mixed_line bw_content_line bw_mask_line bits)

/-- The function `combineMixed<MixedPixel>`: the image `mixed` after the call. -/
def combineMixed (T : MixedPixel) (mixed : QImage) (bw_content bw_mask : BinaryImage)
    (needReserveBlackAndWhite : Bool) : QImage :=
  { mixed with
    bits := combineMixedRows T bw_content bw_mask needReserveBlackAndWhite
      mixed.width mixed.stride mixed.height 0 0 0 mixed.bits }

/-- Pixel `(x, y)` of a binary image is black: its bit is set. -/
def BinaryImage.isBlack (img : BinaryImage) (x y : Nat) : Bool :=
  (img.data (y * img.wordsPerLine + x / 32)).testBit (31 - x % 32)

/-- Pixel `(x, y)` of a raster. -/
def QImage.pixel (img : QImage) (x y : Nat) : Nat :=
  img.bits (y * img.stride + x)

/-- Fully opaque pure black, by pixel type. -/
def MixedPixel.opaqueBlack : MixedPixel → Nat
  | .uint8 => 0x00
  | .uint32 => 0xFF000000

/-- Fully opaque pure white, by pixel type. -/
def MixedPixel.opaqueWhite : MixedPixel → Nat
  | .uint8 => 0xFF
  | .uint32 => 0xFFFFFFFF

/-- The value a pixel of a row receives, in terms of the bits of the two
binary rows at offsets `bw_content_line` and `bw_mask_line`. -/
def combineMixedValue (T : MixedPixel) (bw_content bw_mask : BinaryImage) (need : Bool)
    (bw_content_line bw_mask_line x old : Nat) : Nat :=
  if (bw_mask.data (bw_mask_line + x / 32)).testBit (31 - x % 32) then
    (if (bw_content.data (bw_content_line + x / 32)).testBit (31 - x % 32)
      then T.opaqueBlack else T.opaqueWhite)
  else if need then reserveBlackAndWhite T old else old

/-! ### adjustThreshold (OutputGenerator.cpp, lines 1941-1948) -/

/-- Signed 32-bit wrap-around (two's complement `int`). -/
def wrapI32 (v : Int) : Int := (v + 2147483648) % 4294967296 - 2147483648

/-- Qt's `qMin`: `(a < b) ? a : b`. -/
def qMin (a b : Int) : Int := if a < b then a else b

/-- Qt's `qMax`: `(a < b) ? b : a`. -/
def qMax (a b : Int) : Int := if a < b then b else a

/-- Qt's `qBound(min, val, max)`: `qMax(min, qMin(max, val))`. -/
def qBound (min val max : Int) : Int := qMax min (qMin max val)

/-- The method `OutputGenerator::adjustThreshold`; `thresholdAdjustment` is
`m_colorParams.blackWhiteOptions().thresholdAdjustment()`.  The sum is an
`int`. -/
def adjustThreshold (thresholdAdjustment threshold : Int) : Int :=
  let adjusted := wrapI32 (threshold + thresholdAdjustment)
  qBound 30 adjusted 225

/-! ### Rectangles and sizes -/

/-- Qt's `QSize`. -/
structure QSize where
  wd : Int
  ht : Int
  deriving DecidableEq, Repr

/-- Qt's `QSize::expandedTo`. -/
def QSize.expandedTo (s other : QSize) : QSize :=
  { wd := qMax s.wd other.wd, ht := qMax s.ht other.ht }

/-- Qt's `QRect`: the corner coordinates, both inclusive. -/
structure QRect where
  x1 : Int
  y1 : Int
  x2 : Int
  y2 : Int
  deriving DecidableEq, Repr

/-- The default-constructed `QRect()`. -/
def QRect.null : QRect := { x1 := 0, y1 := 0, x2 := -1, y2 := -1 }

/-- Qt's `QRect::isNull`. -/
def QRect.isNull (r : QRect) : Bool := r.x2 == r.x1 - 1 && r.y2 == r.y1 - 1

/-- Qt's `QRect::isEmpty`. -/
def QRect.isEmpty (r : QRect) : Bool := decide (r.x1 > r.x2) || decide (r.y1 > r.y2)

/-- Qt's `QRect::width`. -/
def QRect.width (r : QRect) : Int := r.x2 - r.x1 + 1

/-- Qt's `QRect::height`. -/
def QRect.height (r : QRect) : Int := r.y2 - r.y1 + 1

/-- Qt's `QRect::size`. -/
def QRect.size (r : QRect) : QSize := { wd := r.width, ht := r.height }

/-- Qt's `QRect::intersected` (`QRect::operator&`). -/
def QRect.intersected (a r : QRect) : QRect :=
  if a.isNull || r.isNull then QRect.null
  else
    let l1 := if a.x2 - a.x1 + 1 < 0 then a.x2 else a.x1
    let r1 := if a.x2 - a.x1 + 1 < 0 then a.x1 else a.x2
    let l2 := if r.x2 - r.x1 + 1 < 0 then r.x2 else r.x1
    let r2 := if r.x2 - r.x1 + 1 < 0 then r.x1 else r.x2
    if l1 > r2 ∨ l2 > r1 then QRect.null
    else
      let t1 := if a.y2 - a.y1 + 1 < 0 then a.y2 else a.y1
      let b1 := if a.y2 - a.y1 + 1 < 0 then a.y1 else a.y2
      let t2 := if r.y2 - r.y1 + 1 < 0 then r.y2 else r.y1
      let b2 := if r.y2 - r.y1 + 1 < 0 then r.y1 else r.y2
      if t1 > b2 ∨ t2 > b1 then QRect.null
      else { x1 := qMax l1 l2, x2 := qMin r1 r2, y1 := qMax t1 t2, y2 := qMin b1 b2 }

/-- The pixel `(px, py)` belongs to the rectangle. -/
def QRect.hasPixel (r : QRect) (px py : Int) : Prop :=
  r.x1 ≤ px ∧ px ≤ r.x2 ∧ r.y1 ≤ py ∧ py ≤ r.y2

/-- The pixel `(px, py)` lies in the rectangle at the origin of size `s`. -/
def QSize.hasPixel (s : QSize) (px py : Int) : Prop :=
  0 ≤ px ∧ px < s.wd ∧ 0 ≤ py ∧ py < s.ht

/-! ### OutputGenerator: construction and entry selection -/

/-- The enumeration `DewarpingOptions` modes. -/
inductive DewarpingMode where
  | OFF
  | AUTO
  | MANUAL
  | MARGINAL
  deriving DecidableEq, Repr

/-- The enumeration `ColorParams::ColorMode`. -/
inductive ColorMode where
  | BLACK_AND_WHITE
  | COLOR_GRAYSCALE
  | MIXED
  deriving DecidableEq, Repr

/-- The enumeration `ColorCommonOptions::FillingColor`. -/
inductive FillingColor where
  | BACKGROUND
  | WHITE
  deriving DecidableEq, Repr

/-- The fields of `OutputGenerator` read by the code embedded here. -/
structure OutputGenerator where
  m_colorMode : ColorMode
  m_fillingColor : FillingColor
  m_dewarpingMode : DewarpingMode
  m_outRect : QRect
  m_contentRect : QRect
  deriving DecidableEq, Repr

/-- The constructor `OutputGenerator::OutputGenerator` (lines 242-270).  The
arguments `outRect` and `contentRect` are the values of
`xform.resultingRect().toRect()` and
`xform.transform().map(content_rect_phys).boundingRect().toRect()`. -/
def OutputGenerator.construct (colorMode : ColorMode) (fillingColor : FillingColor)
    (dewarpingMode : DewarpingMode) (outRect contentRect : QRect) : OutputGenerator :=
  { m_colorMode := colorMode
    m_fillingColor := fillingColor
    m_dewarpingMode := dewarpingMode
    m_outRect := outRect
    m_contentRect :=
      if !contentRect.isEmpty then contentRect.intersected outRect else contentRect }

/-- The method `OutputGenerator::outputImageSize`. -/
def OutputGenerator.outputImageSize (g : OutputGenerator) : QSize := g.m_outRect.size

/-- The method `OutputGenerator::outputContentRect`. -/
def OutputGenerator.outputContentRect (g : OutputGenerator) : QRect := g.m_contentRect

/-- The two bodies `processImpl` chooses between. -/
inductive ProcessPath where
  | processWithDewarping
  | processWithoutDewarping
  deriving DecidableEq, Repr

/-- The branch taken by `OutputGenerator::processImpl` (lines 473-490);
`modelValid` is `distortion_model.isValid()`. -/
def processImplPath (mode : DewarpingMode) (modelValid : Bool) : ProcessPath :=
  if mode = DewarpingMode.AUTO ∨ mode = DewarpingMode.MARGINAL
      ∨ (mode = DewarpingMode.MANUAL ∧ modelValid = true) then
    ProcessPath.processWithDewarping
  else
    ProcessPath.processWithoutDewarping

/-! ### The empty-content branch of the two process functions -/

/-- The enumeration `imageproc::BWColor`. -/
inductive BWColor where
  | WHITE
  | BLACK
  deriving DecidableEq, Repr

/-- Modelled from the spec: the constructor `BinaryImage(size, color)` of
`imageproc/BinaryImage`, which is not among the given sources; a binary image
of the given size with every pixel of the given colour. -/
def BinaryImage.filled (size : QSize) (color : BWColor) : BinaryImage :=
  { width := size.wd.toNat
    height := size.ht.toNat
    wordsPerLine := (size.wd.toNat + 31) / 32
    data := fun _ => match color with
      | BWColor.WHITE => 0
      | BWColor.BLACK => 0xFFFFFFFF }

/-- An image as seen through its pixel colours (ARGB), with its bit depth. -/
structure ColorImage where
  width : Nat
  height : Nat
  depth : Nat
  pixelColor : Nat → Nat → Nat

/-- The colour `Qt::white` as ARGB. -/
def Qt_white : Nat := 0xFFFFFFFF

/-- The colour `Qt::black` as ARGB. -/
def Qt_black : Nat := 0xFF000000

/-- Modelled from the spec: `BinaryImage::toQImage` of `imageproc/BinaryImage`,
which is not among the given sources; a 1-bit image showing set bits black and
clear bits white. -/
def BinaryImage.toQImage (img : BinaryImage) : ColorImage :=
  { width := img.width
    height := img.height
    depth := 1
    pixelColor := fun x y => if img.isBlack x y then Qt_black else Qt_white }

/-- Qt's `QImage::convertToFormat(QImage::Format_Indexed8)`: same pixel colours
at 8 bits per pixel. -/
def ColorImage.convertToIndexed8 (img : ColorImage) : ColorImage :=
  { img with depth := 8 }

/-- What a process function hands back: the returned image, or, for split
output, a null returned image and the two layers stored in `splitImage`. -/
inductive ProcessResult where
  | image (img : ColorImage)
  | splitLayers (foreground background : ColorImage)

/-- The opening of `processWithoutDewarping` (lines 503-515): the guard on an
empty content rect.  `splitOutput` is `render_params.splitOutput()`; `rest`
is the outcome of the remainder of the function. -/
def processWithoutDewarping (g : OutputGenerator) (splitOutput : Bool)
    (rest : ProcessResult) : ProcessResult :=
  let target_size := g.m_outRect.size.expandedTo { wd := 1, ht := 1 }
  if g.m_contentRect.isEmpty then
    let emptyImage := (BinaryImage.filled target_size BWColor.WHITE).toQImage
    if !splitOutput then ProcessResult.image emptyImage
    else ProcessResult.splitLayers emptyImage emptyImage.convertToIndexed8
  else rest

/-- The opening of `processWithDewarping` (lines 909-921): the same guard. -/
def processWithDewarping (g : OutputGenerator) (splitOutput : Bool)
    (rest : ProcessResult) : ProcessResult :=
  let target_size := g.m_outRect.size.expandedTo { wd := 1, ht := 1 }
  if g.m_contentRect.isEmpty then
    let emptyImage := (BinaryImage.filled target_size BWColor.WHITE).toQImage
    if !splitOutput then ProcessResult.image emptyImage
    else ProcessResult.splitLayers emptyImage emptyImage.convertToIndexed8
  else rest

/-- The method `OutputGenerator::processImpl` (lines 461-491). -/
def processImpl (g : OutputGenerator) (modelValid splitOutput : Bool)
    (restWithDewarping restWithoutDewarping : ProcessResult) : ProcessResult :=
  match processImplPath g.m_dewarpingMode modelValid with
  | ProcessPath.processWithDewarping => processWithDewarping g splitOutput restWithDewarping
  | ProcessPath.processWithoutDewarping =>
    processWithoutDewarping g splitOutput restWithoutDewarping

/-- The colour the canvas outside the content is filled with on the ordinary
path (lines 864-870 and 1643-1649): `outsideBackgroundColor` after the
adjustment for the fill option. -/
def canvasFillColor (fillingColor : FillingColor) (needBinarization : Bool)
    (outsideBackgroundColor outsideBackgroundColorBW : Nat) : Nat :=
  if fillingColor = FillingColor.WHITE then Qt_white
  else if needBinarization then outsideBackgroundColorBW
  else outsideBackgroundColor

/-- Every pixel of the image has the colour `c`. -/
def ColorImage.uniformly (img : ColorImage) (c : Nat) : Prop :=
  ∀ x y, x < img.width → y < img.height → img.pixelColor x y = c

/-- Every image of the result has every pixel of colour `c`. -/
def ProcessResult.uniformly (r : ProcessResult) (c : Nat) : Prop :=
  match r with
  | ProcessResult.image img => img.uniformly c
  | ProcessResult.splitLayers fg bg => fg.uniformly c ∧ bg.uniformly c


/-- An example generator: colour mode, fill option BACKGROUND, no dewarping, a
10x10 output rect and an empty content rect. -/
def emptyContentExample : OutputGenerator :=
  OutputGenerator.construct ColorMode.COLOR_GRAYSCALE FillingColor.BACKGROUND
    DewarpingMode.OFF { x1 := 0, y1 := 0, x2 := 9, y2 := 9 } QRect.null

/-- An example remainder outcome: an empty image. -/
def noImage : ProcessResult :=
  ProcessResult.image { width := 0, height := 0, depth := 0, pixelColor := fun _ _ => 0 }


/-! ### Binary images by pixel, raster operations -/

/-- A binary image of `imageproc` seen through its pixels: `black x y` tells
whether the pixel in column `x` of row `y` is black. -/
structure Bitmap where
  width : Int
  height : Int
  black : Int → Int → Bool

/-- Qt's `QPoint`. -/
structure QPoint where
  x : Int
  y : Int
  deriving DecidableEq, Repr

/-- Qt's `QRect::topLeft`. -/
def QRect.topLeft (r : QRect) : QPoint := { x := r.x1, y := r.y1 }

/-- Qt's `QRect::translated` by the point `(dx, dy)`. -/
def QRect.translated (r : QRect) (dx dy : Int) : QRect :=
  { x1 := r.x1 + dx, y1 := r.y1 + dy, x2 := r.x2 + dx, y2 := r.y2 + dy }

/-- Modelled from the spec: the constructor `BinaryImage(size, color)` of
`imageproc/BinaryImage`, which is not among the given sources, seen by pixel. -/
def Bitmap.filled (size : QSize) (color : BWColor) : Bitmap :=
  { width := size.wd, height := size.ht, black := fun _ _ => decide (color = BWColor.BLACK) }

/-- A raster operation on one pixel: the new destination bit from the source
bit and the old destination bit (a set bit is black). -/
abbrev Rop := Bool → Bool → Bool

/-- Modelled from the spec: `RopSrc` of `imageproc/RasterOp`, which is not
among the given sources; the source bit. -/
def RopSrc : Rop := fun src _ => src

/-- Modelled from the spec: `RopDst` of `imageproc/RasterOp`, which is not
among the given sources; the destination bit. -/
def RopDst : Rop := fun _ dst => dst

/-- Modelled from the spec: `RopAnd<A, B>` of `imageproc/RasterOp`, which is not
among the given sources; the bitwise and of the two operands. -/
def RopAnd (a b : Rop) : Rop := fun src dst => a src dst && b src dst

/-- Modelled from the spec: `RopSubtract<Minuend, Subtrahend>` of
`imageproc/RasterOp`, which is not among the given sources; the bits of the
minuend that are not in the subtrahend. -/
def RopSubtract (minuend subtrahend : Rop) : Rop :=
  fun src dst => minuend src dst && !(subtrahend src dst)

/-- Modelled from the spec: `rasterOp<Rop>(dst, dr, src, sp)` of
`imageproc/RasterOp`, which is not among the given sources; every pixel of
`dst` inside the rectangle `dr` is combined with the pixel of `src` at the
same offset from the point `sp`. -/
def rasterOp (rop : Rop) (dst : Bitmap) (dr : QRect) (src : Bitmap) (sp : QPoint) : Bitmap :=
  { dst with
    black := fun x y =>
      if dr.x1 ≤ x ∧ x ≤ dr.x2 ∧ dr.y1 ≤ y ∧ y ≤ dr.y2 then
        rop (src.black (x - dr.x1 + sp.x) (y - dr.y1 + sp.y)) (dst.black x y)
      else dst.black x y }

/-- Modelled from the spec: `rasterOp<Rop>(dst, src)` of `imageproc/RasterOp`,
which is not among the given sources; the operation over the whole of `dst`. -/
def rasterOpFull (rop : Rop) (dst src : Bitmap) : Bitmap :=
  rasterOp rop dst { x1 := 0, y1 := 0, x2 := dst.width - 1, y2 := dst.height - 1 } src
    { x := 0, y := 0 }

/-! ### maybeDespeckleInPlace (OutputGenerator.cpp, lines 2068-2140) -/

/-- The enumeration `DespeckleLevel`. -/
inductive DespeckleLevel where
  | DESPECKLE_OFF
  | DESPECKLE_CAUTIOUS
  | DESPECKLE_NORMAL
  | DESPECKLE_AGGRESSIVE
  deriving DecidableEq, Repr

/-- The enumeration `Despeckle::Level`. -/
inductive Despeckle.Level where
  | CAUTIOUS
  | NORMAL
  | AGGRESSIVE
  deriving DecidableEq, Repr

/-- The `switch` of `maybeDespeckleInPlace` choosing the collaborator's level. -/
def despeckleLevelFor (level : DespeckleLevel) : Despeckle.Level :=
  match level with
  | DespeckleLevel.DESPECKLE_CAUTIOUS => Despeckle.Level.CAUTIOUS
  | DespeckleLevel.DESPECKLE_NORMAL => Despeckle.Level.NORMAL
  | DespeckleLevel.DESPECKLE_AGGRESSIVE => Despeckle.Level.AGGRESSIVE
  | DespeckleLevel.DESPECKLE_OFF => Despeckle.Level.NORMAL

/-- The method `OutputGenerator::maybeDespeckleInPlace`.  The collaborator
`Despeckle::despeckleInPlace` is the argument `despeckleInPlace`; the argument
`speckles_img` is `none` for a null pointer.  The result is the image after
the call and the speckles image after the call. -/
def maybeDespeckleInPlace (g : OutputGenerator)
    (despeckleInPlace : Bitmap → Despeckle.Level → Bitmap)
    (image : Bitmap) (image_rect mask_rect : QRect) (level : DespeckleLevel)
    (speckles_img : Option Bitmap) : Bitmap × Option Bitmap :=
  let src_rect := mask_rect.translated (-image_rect.topLeft.x) (-image_rect.topLeft.y)
  let dst_rect := mask_rect
  let speckles1 := speckles_img.map fun _ =>
    let fresh := Bitmap.filled g.m_outRect.size BWColor.WHITE
    if !mask_rect.isEmpty then rasterOp RopSrc fresh dst_rect image src_rect.topLeft
    else fresh
  let image1 :=
    if level ≠ DespeckleLevel.DESPECKLE_OFF then despeckleInPlace image (despeckleLevelFor level)
    else image
  let speckles2 := speckles1.map fun s =>
    if !mask_rect.isEmpty then
      rasterOp (RopSubtract RopDst RopSrc) s dst_rect image1 src_rect.topLeft
    else s
  (image1, speckles2)

/-! ### modifyBinarizationMask (OutputGenerator.cpp, lines 428-459) -/

/-- The enumeration `PictureLayerProperty::Layer`. -/
inductive PictureLayer where
  | NO_OP
  | ERASER1
  | PAINTER2
  | ERASER3
  deriving DecidableEq, Repr

/-- The enumeration `ZoneCategoryProperty::ZoneCategory`. -/
inductive ZoneCategory where
  | MANUAL
  | RECTANGULAR_OUTLINE
  deriving DecidableEq, Repr

/-- A zone as `modifyBinarizationMask` reads it: `layer` is
`zone.properties().locateOrDefault<PictureLayerProperty>()->layer()`, and
`covers x y` tells whether the pixel `(x, y)` of the mask lies inside the
polygon `xform.map(zone.spline().toPolygon())`. -/
structure Zone where
  layer : PictureLayer
  category : ZoneCategory
  covers : Int → Int → Bool

/-- Modelled from the spec: `PolygonRasterizer::fill(image, color, poly,
Qt::WindingFill)` of `imageproc/PolygonRasterizer`, which is not among the given
sources; every pixel inside the polygon takes the given colour. -/
def PolygonRasterizer.fill (image : Bitmap) (color : BWColor) (covers : Int → Int → Bool) :
    Bitmap :=
  { image with
    black := fun x y => if covers x y then decide (color = BWColor.BLACK) else image.black x y }

/-- One pass of `modifyBinarizationMask`: the loop over the zones that fills the
zones of one layer with one colour. -/
def modifyBinarizationMaskPass (layer : PictureLayer) (color : BWColor) (zones : List Zone)
    (bw_mask : Bitmap) : Bitmap :=
  zones.foldl
    (fun mask zone =>
      if zone.layer = layer then PolygonRasterizer.fill mask color zone.covers else mask)
    bw_mask

/-- The method `OutputGenerator::modifyBinarizationMask`: the mask after the
three passes. -/
def modifyBinarizationMask (bw_mask : Bitmap) (zones : List Zone) : Bitmap :=
  let pass1 := modifyBinarizationMaskPass PictureLayer.ERASER1 BWColor.BLACK zones bw_mask
  let pass2 := modifyBinarizationMaskPass PictureLayer.PAINTER2 BWColor.WHITE zones pass1
  modifyBinarizationMaskPass PictureLayer.ERASER3 BWColor.BLACK zones pass2

/-- Some zone of the given layer covers the pixel `(x, y)`. -/
def coveredBy (zones : List Zone) (layer : PictureLayer) (x y : Int) : Bool :=
  zones.any fun zone => decide (zone.layer = layer) && zone.covers x y

/-- The pixels of a rectangle, as a coverage predicate. -/
def QRect.covers (r : QRect) (x y : Int) : Bool :=
  decide (r.x1 ≤ x ∧ x ≤ r.x2 ∧ r.y1 ≤ y ∧ y ≤ r.y2)

/-- Modelled from the spec: the zone built by `Zone(QPolygonF)` for an
auto-detected rectangular picture area (`Zone zone1(area)`, lines 729 and
1098); the constructor is not among the given sources.  A picture zone is
painted into the all-black mask as picture, so its layer is PAINTER2, and its
category is RECTANGULAR_OUTLINE. -/
def autoPictureZone (area : QRect) : Zone :=
  { layer := PictureLayer.PAINTER2
    category := ZoneCategory.RECTANGULAR_OUTLINE
    covers := area.covers }

/-- A zone drawn by the user over a rectangle, with a given layer. -/
def userZone (layer : PictureLayer) (area : QRect) : Zone :=
  { layer := layer, category := ZoneCategory.MANUAL, covers := area.covers }


/-- An example despeckle collaborator: it removes every black pixel. -/
def removeAllBlack : Bitmap → Despeckle.Level → Bitmap :=
  fun img _ => { img with black := fun _ _ => false }

/-- An example image: 10x10, all black. -/
def allBlackExample : Bitmap := { width := 10, height := 10, black := fun _ _ => true }

/-- An example zone set: an auto-detected picture zone over the rectangle
(2,2)-(5,5) and an ERASER1 zone over the rectangle (0,0)-(9,9) covering it. -/
def eraser1OverPictureExample : List Zone :=
  [autoPictureZone { x1 := 2, y1 := 2, x2 := 5, y2 := 5 },
   userZone PictureLayer.ERASER1 { x1 := 0, y1 := 0, x2 := 9, y2 := 9 }]


/-! ### The dewarp call and its fallback (OutputGenerator.cpp, lines 1381-1394) -/

/-- The exceptions told apart by the handler: `std::runtime_error` (with its
subclasses) and everything else. -/
inductive Exception where
  | runtime_error
  | other
  deriving DecidableEq, Repr

/-- A call of `dewarp`: the outcome of the collaborator, and the model passed
appended to the log of calls. -/
def dewarpLogged {Model Img : Type} (dewarp : Model → Except Exception Img)
    (distortion_model : Model) (log : List Model) : Except Exception Img × List Model :=
  (dewarp distortion_model, log ++ [distortion_model])

/-- The `try`/`catch` block of `processWithDewarping` that dewarps the normalized
original.  The result is the outcome (the image, or the exception leaving the
block), the distortion model after the block (it is a reference parameter) and
the log of the calls of `dewarp`. -/
def dewarpWithFallback {Model Img : Type} (dewarp : Model → Except Exception Img)
    (setupTrivialDistortionModel : Model → Model) (distortion_model : Model)
    (log : List Model) : Except Exception Img × Model × List Model :=
  match dewarpLogged dewarp distortion_model log with
  | (Except.ok dewarped, log1) => (Except.ok dewarped, distortion_model, log1)
  | (Except.error Exception.runtime_error, log1) =>
    let trivial := setupTrivialDistortionModel distortion_model
    let second := dewarpLogged dewarp trivial log1
    (second.1, trivial, second.2)
  | (Except.error e, log1) => (Except.error e, distortion_model, log1)

/-- An example dewarp collaborator on models numbered by naturals: model 0 is
impossible and raises a runtime error, any other model dewarps to an image. -/
def dewarpExample : Nat → Except Exception Nat :=
  fun model => if model = 0 then Except.error Exception.runtime_error else Except.ok (model + 100)

/-! ### deskew and maybe_deskew (OutputGenerator.cpp, lines 2490-2527) -/

/-- The class `DewarpingOptions`, as read here: `mode()` and `needPostDeskew()`. -/
structure DewarpingOptions where
  mode : DewarpingMode
  needPostDeskew : Bool
  deriving DecidableEq, Repr

/-- The class `Skew`, as read here: `angle()` and `confidence()`; the `double`
values are taken as rationals. -/
structure Skew where
  angle : ℚ
  confidence : ℚ
  deriving DecidableEq

/-- The method `OutputGenerator::deskew`.  The argument `transform image angle
outside_color` is the collaborator call `imageproc::transform(*image, rot,
image->rect(), OutsidePixels::assumeWeakColor(outside_color))` with `rot` the
rotation by `-angle` about the centre of the image. -/
def deskew {Img : Type} (transform : Img → ℚ → Nat → Img) (image : Img) (angle : ℚ)
    (outside_color : Nat) : Img :=
  if angle = 0 then image
  else transform image angle outside_color

/-- The method `OutputGenerator::maybe_deskew`: the returned angle and the image
after the call.  `GOOD_CONFIDENCE` is the constant `Skew::GOOD_CONFIDENCE`, and
`findSkew` the skew found by `SkewFinder` on the image binarized at 128. -/
def maybe_deskew {Img : Type} (GOOD_CONFIDENCE : ℚ) (findSkew : Img → Skew)
    (transform : Img → ℚ → Nat → Img) (p_dewarped : Img)
    (m_dewarpingOptions : DewarpingOptions) (outside_color : Nat) : ℚ × Img :=
  if m_dewarpingOptions.needPostDeskew = true
      ∧ (m_dewarpingOptions.mode = DewarpingMode.MARGINAL
        ∨ m_dewarpingOptions.mode = DewarpingMode.MANUAL) then
    let skew := findSkew p_dewarped
    if skew.angle ≠ 0 ∧ skew.confidence ≥ GOOD_CONFIDENCE then
      let angle_deg := skew.angle
      (angle_deg, deskew transform p_dewarped angle_deg outside_color)
    else (0, p_dewarped)
  else (0, p_dewarped)

/-! ### SplittingOptions (SplittingOptions.cpp) -/

/-- Qt's `QDomElement`, as far as used here: a tag name and attributes. -/
structure QDomElement where
  tagName : String
  attributes : List (String × String)
  deriving DecidableEq, Repr

/-- Qt's `QDomDocument::createElement`. -/
def QDomElement.create (name : String) : QDomElement := { tagName := name, attributes := [] }

/-- Qt's `QDomElement::setAttribute`: the value replaces an earlier one. -/
def QDomElement.setAttribute (el : QDomElement) (name value : String) : QDomElement :=
  { el with attributes := (name, value) :: el.attributes.filter fun p => p.1 != name }

/-- Qt's `QDomElement::attribute`: the value, or the empty string if absent. -/
def QDomElement.attribute (el : QDomElement) (name : String) : String :=
  match el.attributes.find? fun p => p.1 == name with
  | some p => p.2
  | none => ""

/-- The enumeration `SplittingOptions::ForegroundType`. -/
inductive ForegroundType where
  | BLACK_AND_WHITE_FOREGROUND
  | COLOR_FOREGROUND
  deriving DecidableEq, Repr

/-- The class `SplittingOptions`. -/
structure SplittingOptions where
  splitOutput : Bool
  foregroundType : ForegroundType
  deriving DecidableEq, Repr

/-- The method `SplittingOptions::parseForegroundType`. -/
def SplittingOptions.parseForegroundType (str : String) : ForegroundType :=
  if str = "color" then ForegroundType.COLOR_FOREGROUND
  else ForegroundType.BLACK_AND_WHITE_FOREGROUND

/-- The method `SplittingOptions::formatForegroundType`. -/
def SplittingOptions.formatForegroundType (type : ForegroundType) : String :=
  match type with
  | ForegroundType.BLACK_AND_WHITE_FOREGROUND => "bw"
  | ForegroundType.COLOR_FOREGROUND => "color"

/-- The method `SplittingOptions::toXml`. -/
def SplittingOptions.toXml (s : SplittingOptions) (name : String) : QDomElement :=
  ((QDomElement.create name).setAttribute "splitOutput"
      (if s.splitOutput then "1" else "0")).setAttribute "foregroundType"
    (SplittingOptions.formatForegroundType s.foregroundType)

/-- The constructor `SplittingOptions::SplittingOptions(QDomElement const&)`. -/
def SplittingOptions.fromXml (el : QDomElement) : SplittingOptions :=
  { splitOutput := el.attribute "splitOutput" == "1"
    foregroundType := SplittingOptions.parseForegroundType (el.attribute "foregroundType") }

/-- The operator `SplittingOptions::operator==`. -/
def SplittingOptions.eq (a other : SplittingOptions) : Bool :=
  (a.splitOutput == other.splitOutput) && (a.foregroundType == other.foregroundType)


/-! ### binarize (OutputGenerator.cpp, lines 1977-2066) -/

/-- The enumeration `BlackWhiteOptions::BinarizationMethod`. -/
inductive BinarizationMethod where
  | OTSU
  | SAUVOLA
  | WOLF
  deriving DecidableEq, Repr

/-- The class `BlackWhiteOptions`, as far as the given sources read it; the
`double` coefficients are taken as rationals. -/
structure BlackWhiteOptions where
  thresholdAdjustment : Int
  binarizationMethod : BinarizationMethod
  windowSize : Int
  sauvolaCoef : ℚ
  wolfLowerBound : Int
  wolfUpperBound : Int
  wolfCoef : ℚ
  deriving DecidableEq

/-- A polygon with rational coordinates, standing for `QPolygonF`. -/
structure QPointF where
  xp : ℚ
  yp : ℚ
  deriving DecidableEq

/-- The collaborators of `binarize`, none of them among the given sources, over
a type `Img` of input images. -/
structure Imageproc (Img : Type) where
  /-- The format of the image is `Format_Mono` or `Format_MonoLSB`. -/
  isMono : Img → Bool
  /-- The conversion `BinaryImage(image)` of a 1-bit image. -/
  fromMono : Img → Bitmap
  /-- The threshold `BinaryThreshold::otsuThreshold` of the image histogram. -/
  otsuThreshold : Img → Int
  /-- The conversion `BinaryImage(image, threshold)`. -/
  threshold : Img → Int → Bitmap
  /-- The function `imageproc::toGrayscale`. -/
  toGrayscale : Img → Img
  /-- The method `QImage::invertPixels`, as a function. -/
  invertPixels : Img → Img
  /-- The function `imageproc::binarizeSauvola`. -/
  binarizeSauvola : Img → QSize → ℚ → Bitmap
  /-- The function `imageproc::binarizeWolf`. -/
  binarizeWolf : Img → QSize → Int → Int → ℚ → Bitmap
  /-- The method `QImage::rect`. -/
  rect : Img → QRect
  /-- The test `path.contains(rect)` for the path of a polygon. -/
  pathContains : List QPointF → QRect → Bool
  /-- The black image of the given size with the outside of the polygon filled
  white by `PolygonRasterizer::fillExcept` and then eroded by
  `erodeBrick(.., QSize(3, 3), WHITE)`. -/
  erodedCropMask : QSize → List QPointF → Bitmap

/-- Modelled from the spec: `BinaryImage::invert` of `imageproc/BinaryImage`,
which is not among the given sources; every pixel changes colour. -/
def Bitmap.invert (img : Bitmap) : Bitmap :=
  { img with black := fun x y => !img.black x y }

/-- The method `OutputGenerator::binarize(QImage const&)`; `whiteOnBlackMode` is
`m_outputProcessingParams.isWhiteOnBlackMode()`. -/
def binarize {Img : Type} (ip : Imageproc Img) (blackWhiteOptions : BlackWhiteOptions)
    (whiteOnBlackMode : Bool) (image : Img) : Bitmap :=
  if ip.isMono image then ip.fromMono image
  else
    match blackWhiteOptions.binarizationMethod with
    | BinarizationMethod.OTSU =>
      let bw_thresh := ip.otsuThreshold image
      ip.threshold image (adjustThreshold blackWhiteOptions.thresholdAdjustment bw_thresh)
    | BinarizationMethod.SAUVOLA =>
      let windowsSize : QSize :=
        { wd := blackWhiteOptions.windowSize, ht := blackWhiteOptions.windowSize }
      let sauvolaCoef := blackWhiteOptions.sauvolaCoef
      let imageToBinarize :=
        if whiteOnBlackMode then ip.invertPixels (ip.toGrayscale image) else image
      let binarized := ip.binarizeSauvola imageToBinarize windowsSize sauvolaCoef
      if whiteOnBlackMode then binarized.invert else binarized
    | BinarizationMethod.WOLF =>
      let windowsSize : QSize :=
        { wd := blackWhiteOptions.windowSize, ht := blackWhiteOptions.windowSize }
      let lowerBound := blackWhiteOptions.wolfLowerBound % 256
      let upperBound := blackWhiteOptions.wolfUpperBound % 256
      let wolfCoef := blackWhiteOptions.wolfCoef
      let imageToBinarize :=
        if whiteOnBlackMode then ip.invertPixels (ip.toGrayscale image) else image
      let binarized := ip.binarizeWolf imageToBinarize windowsSize lowerBound upperBound wolfCoef
      if whiteOnBlackMode then binarized.invert else binarized

/-- The method `OutputGenerator::binarize(QImage const&, BinaryImage const&)`. -/
def binarizeMasked {Img : Type} (ip : Imageproc Img) (blackWhiteOptions : BlackWhiteOptions)
    (whiteOnBlackMode : Bool) (image : Img) (mask : Bitmap) : Bitmap :=
  let binarized := binarize ip blackWhiteOptions whiteOnBlackMode image
  rasterOpFull (RopAnd RopSrc RopDst) binarized mask

/-- The method `OutputGenerator::binarize(QImage const&, QPolygonF const&,
BinaryImage const*)`; a null `mask` is `none`. -/
def binarizeCropped {Img : Type} (ip : Imageproc Img) (blackWhiteOptions : BlackWhiteOptions)
    (whiteOnBlackMode : Bool) (image : Img) (crop_area : List QPointF)
    (mask : Option Bitmap) : Bitmap :=
  if ip.pathContains crop_area (ip.rect image) = true ∧ mask.isNone = true then
    let bw_thresh := ip.otsuThreshold image
    ip.threshold image (adjustThreshold blackWhiteOptions.thresholdAdjustment bw_thresh)
  else
    let modified_mask := ip.erodedCropMask (ip.rect image).size crop_area
    let modified_mask :=
      match mask with
      | some m => rasterOpFull (RopAnd RopSrc RopDst) modified_mask m
      | none => modified_mask
    binarizeMasked ip blackWhiteOptions whiteOnBlackMode image modified_mask

/-- Example collaborators over 10x10 images given by their gray levels: the
Otsu threshold is 128, the local methods blacken levels below 64 (Sauvola) and
below 32 (Wolf), and every crop polygon contains the image. -/
def exampleImageproc : Imageproc (Int → Int → Int) :=
  { isMono := fun _ => false
    fromMono := fun _ => { width := 10, height := 10, black := fun _ _ => false }
    otsuThreshold := fun _ => 128
    threshold := fun img t => { width := 10, height := 10, black := fun x y => decide (img x y < t) }
    toGrayscale := fun img => img
    invertPixels := fun img x y => 255 - img x y
    binarizeSauvola := fun img _ _ =>
      { width := 10, height := 10, black := fun x y => decide (img x y < 64) }
    binarizeWolf := fun img _ _ _ _ =>
      { width := 10, height := 10, black := fun x y => decide (img x y < 32) }
    rect := fun _ => { x1 := 0, y1 := 0, x2 := 9, y2 := 9 }
    pathContains := fun _ _ => true
    erodedCropMask := fun _ _ => { width := 10, height := 10, black := fun _ _ => true } }

/-- Example options: the Sauvola method with a window of 200 pixels. -/
def sauvolaOptionsExample : BlackWhiteOptions :=
  { thresholdAdjustment := 0
    binarizationMethod := BinarizationMethod.SAUVOLA
    windowSize := 200
    sauvolaCoef := 0
    wolfLowerBound := 1
    wolfUpperBound := 254
    wolfCoef := 0 }


/-! ### OutputImageParams (OutputImageParams.cpp) -/

/-- Qt's `qFuzzyIsNull(double)`: `qAbs(d) <= 0.000000000001`. -/
def qFuzzyIsNull (d : ℚ) : Bool := decide (|d| ≤ 1 / 1000000000000)

/-- Qt's `operator==` on `QPointF`. -/
def QPointF.eq (p1 p2 : QPointF) : Bool :=
  qFuzzyIsNull (p1.xp - p2.xp) && qFuzzyIsNull (p1.yp - p2.yp)

/-- Qt's `operator==` on `QPolygonF` (a `QVector<QPointF>`): equal sizes and
equal points in order. -/
def QPolygonF.eq : List QPointF → List QPointF → Bool
  | [], [] => true
  | p :: ps, q :: qs => p.eq q && QPolygonF.eq ps qs
  | _, _ => false

/-- Qt's `QTransform`: the nine coefficients of the matrix. -/
structure QTransform where
  m11 : ℚ
  m12 : ℚ
  m13 : ℚ
  m21 : ℚ
  m22 : ℚ
  m23 : ℚ
  m31 : ℚ
  m32 : ℚ
  m33 : ℚ
  deriving DecidableEq

/-- The class `ImageTransformation`, which is not among the given sources, as
far as the constructor of `OutputImageParams` reads it: the value of
`resultingPreCropArea()`, and the value of `transform()` once
`setPostCropArea(QPolygonF())` has reset post-cropping and post-scaling. -/
structure ImageTransformation where
  resultingPreCropArea : List QPointF
  transformWithoutPostCrop : QTransform

/-- The class `Dpi`. -/
structure Dpi where
  horizontal : Int
  vertical : Int
  deriving DecidableEq, Repr

/-- The class `ColorCommonOptions`, as far as the given sources read it. -/
structure ColorCommonOptions where
  fillingColor : FillingColor
  deriving DecidableEq, Repr

/-- The class `ColorParams`. -/
structure ColorParams where
  colorMode : ColorMode
  blackWhiteOptions : BlackWhiteOptions
  colorCommonOptions : ColorCommonOptions
  deriving DecidableEq

/-- The enumeration `PictureShape`. -/
inductive PictureShape where
  | FREE_SHAPE
  | RECTANGULAR_SHAPE
  | QUADRO_SHAPE
  deriving DecidableEq, Repr

/-- The class `PictureShapeOptions`, as far as the given sources read it. -/
structure PictureShapeOptions where
  pictureShape : PictureShape
  sensitivity : Int
  deriving DecidableEq, Repr

/-- The class `OutputProcessingParams`, as far as the given sources read it. -/
structure OutputProcessingParams where
  autoZonesFound : Bool
  whiteOnBlackAutoDetected : Bool
  whiteOnBlackMode : Bool
  deriving DecidableEq, Repr

/-- The class `dewarping::DistortionModel`: the two curves as polylines. -/
structure DistortionModel where
  topCurve : List QPointF
  bottomCurve : List QPointF
  deriving DecidableEq

/-- The class `DepthPerception`; the `double` value is taken as a rational. -/
structure DepthPerception where
  value : ℚ
  deriving DecidableEq

/-- The class `OutputImageParams::PartialXform`; a `double` coefficient is held
as the rational number it stands for. -/
structure PartialXform where
  m_11 : ℚ
  m_12 : ℚ
  m_21 : ℚ
  m_22 : ℚ
  deriving DecidableEq

/-- The constructor `PartialXform::PartialXform(QTransform const&)`. -/
def PartialXform.ofTransform (xform : QTransform) : PartialXform :=
  { m_11 := xform.m11, m_12 := xform.m12, m_21 := xform.m21, m_22 := xform.m22 }

/-- Rounding of a non-negative rational to the nearest natural number, a tie
going to the even one. -/
def roundHalfEven (m : ℚ) : ℕ :=
  let f := ⌊m⌋₊
  if m - f < 1 / 2 then f
  else if 1 / 2 < m - f then f + 1
  else if f % 2 = 0 then f else f + 1

/-- The `double` nearest to a non-negative rational (IEEE 754 binary64, rounding
to nearest, ties to even): 53 significant bits, the unit in the last place
being `2 ^ (e - 52)` for a value in `[2 ^ e, 2 ^ (e + 1))`, with `e` not below
-1022.  A value beyond the largest `double` is kept as a large number, not
turned into infinity. -/
def roundMagnitudeToDouble (a : ℚ) : ℚ :=
  let e := max (Int.log 2 a) (-1022)
  let ulp : ℚ := 2 ^ (e - 52)
  roundHalfEven (a / ulp) * ulp

/-- The `double` nearest to a rational: what an arithmetic operation on `double`
values stores for the exact result given, and what a decimal literal denotes. -/
def roundToDouble (x : ℚ) : ℚ :=
  if x < 0 then -roundMagnitudeToDouble (-x) else roundMagnitudeToDouble x

/-- The method `PartialXform::closeEnough`: `fabs(v1 - v2) < 0.0001`, with the
subtraction and the literal rounded to `double`. -/
def PartialXform.closeEnough (v1 v2 : ℚ) : Bool :=
  decide (|roundToDouble (v1 - v2)| < roundToDouble (1 / 10000))

/-- The method `PartialXform::matches`. -/
def PartialXform.matches (a other : PartialXform) : Bool :=
  PartialXform.closeEnough a.m_11 other.m_11 && PartialXform.closeEnough a.m_12 other.m_12
    && PartialXform.closeEnough a.m_21 other.m_21 && PartialXform.closeEnough a.m_22 other.m_22

/-- The class `OutputImageParams`: its data members. -/
structure OutputImageParams where
  m_size : QSize
  m_contentRect : QRect
  m_cropArea : List QPointF
  m_partialXform : PartialXform
  m_dpi : Dpi
  m_colorParams : ColorParams
  m_splittingOptions : SplittingOptions
  m_pictureShapeOptions : PictureShapeOptions
  m_distortionModel : DistortionModel
  m_depthPerception : DepthPerception
  m_dewarpingOptions : DewarpingOptions
  m_despeckleLevel : DespeckleLevel
  m_outputProcessingParams : OutputProcessingParams

/-- The constructor `OutputImageParams::OutputImageParams` from the generation
arguments (lines 26-53). -/
def OutputImageParams.construct (out_image_size : QSize) (content_rect : QRect)
    (xform : ImageTransformation) (dpi : Dpi) (color_params : ColorParams)
    (splitting_options : SplittingOptions) (dewarping_options : DewarpingOptions)
    (distortion_model : DistortionModel) (depth_perception : DepthPerception)
    (despeckle_level : DespeckleLevel) (picture_shape_options : PictureShapeOptions)
    (output_processing_params : OutputProcessingParams) : OutputImageParams :=
  { m_size := out_image_size
    m_contentRect := content_rect
    m_cropArea := xform.resultingPreCropArea
    m_partialXform := PartialXform.ofTransform xform.transformWithoutPostCrop
    m_dpi := dpi
    m_colorParams := color_params
    m_splittingOptions := splitting_options
    m_pictureShapeOptions := picture_shape_options
    m_distortionModel := distortion_model
    m_depthPerception := depth_perception
    m_dewarpingOptions := dewarping_options
    m_despeckleLevel := despeckle_level
    m_outputProcessingParams := output_processing_params }

/-- The method `OutputImageParams::colorParamsMatch`; the cases of the `switch`
fall through from MIXED to BLACK_AND_WHITE to COLOR_GRAYSCALE. -/
def colorParamsMatch (cp1 : ColorParams) (dl1 : DespeckleLevel) (so1 : SplittingOptions)
    (cp2 : ColorParams) (dl2 : DespeckleLevel) (so2 : SplittingOptions) : Bool :=
  if cp1.colorMode ≠ cp2.colorMode then false
  else
    match cp1.colorMode with
    | ColorMode.MIXED =>
      if so1 ≠ so2 then false
      else if cp1.blackWhiteOptions ≠ cp2.blackWhiteOptions then false
      else if dl1 ≠ dl2 then false
      else if cp1.colorCommonOptions ≠ cp2.colorCommonOptions then false
      else true
    | ColorMode.BLACK_AND_WHITE =>
      if cp1.blackWhiteOptions ≠ cp2.blackWhiteOptions then false
      else if dl1 ≠ dl2 then false
      else if cp1.colorCommonOptions ≠ cp2.colorCommonOptions then false
      else true
    | ColorMode.COLOR_GRAYSCALE =>
      if cp1.colorCommonOptions ≠ cp2.colorCommonOptions then false
      else true

/-- The method `OutputImageParams::matches`.  The argument `modelMatches` is
`DistortionModel::matches`, which is not among the given sources. -/
def OutputImageParams.matches (modelMatches : DistortionModel → DistortionModel → Bool)
    (p other : OutputImageParams) : Bool :=
  if p.m_size ≠ other.m_size then false
  else if p.m_contentRect ≠ other.m_contentRect then false
  else if !(QPolygonF.eq p.m_cropArea other.m_cropArea) then false
  else if !(p.m_partialXform.matches other.m_partialXform) then false
  else if p.m_dpi ≠ other.m_dpi then false
  else if !(colorParamsMatch p.m_colorParams p.m_despeckleLevel p.m_splittingOptions
      other.m_colorParams other.m_despeckleLevel other.m_splittingOptions) then false
  else if p.m_pictureShapeOptions ≠ other.m_pictureShapeOptions then false
  else if p.m_dewarpingOptions ≠ other.m_dewarpingOptions then false
  else if p.m_dewarpingOptions.mode ≠ DewarpingMode.OFF
      ∧ !(modelMatches p.m_distortionModel other.m_distortionModel) then false
  else if p.m_dewarpingOptions.mode ≠ DewarpingMode.OFF
      ∧ p.m_depthPerception.value ≠ other.m_depthPerception.value then false
  else if p.m_outputProcessingParams ≠ other.m_outputProcessingParams then false
  else true

/-- The identity matrix scaled horizontally by `sx`. -/
def QTransform.hscale (sx : ℚ) : QTransform :=
  { m11 := sx, m12 := 0, m13 := 0, m21 := 0, m22 := 1, m23 := 0, m31 := 0, m32 := 0, m33 := 1 }

/-- The transformation of a page whose crop area is the square of side 1000 at
the origin of the source image, under the horizontal scaling by `sx`. -/
def ImageTransformation.hscaleExample (sx : ℚ) : ImageTransformation :=
  { resultingPreCropArea :=
      [{ xp := 0, yp := 0 }, { xp := 1000 * sx, yp := 0 }, { xp := 1000 * sx, yp := 1000 },
        { xp := 0, yp := 1000 }]
    transformWithoutPostCrop := QTransform.hscale sx }

/-- Example parameters: a 1000x1000 colour output without dewarping, built from
the transformation given. -/
def OutputImageParams.forPage (xform : ImageTransformation) : OutputImageParams :=
  OutputImageParams.construct { wd := 1000, ht := 1000 }
    { x1 := 0, y1 := 0, x2 := 999, y2 := 999 } xform { horizontal := 600, vertical := 600 }
    { colorMode := ColorMode.COLOR_GRAYSCALE
      blackWhiteOptions := sauvolaOptionsExample
      colorCommonOptions := { fillingColor := FillingColor.WHITE } }
    { splitOutput := false, foregroundType := ForegroundType.BLACK_AND_WHITE_FOREGROUND }
    { mode := DewarpingMode.OFF, needPostDeskew := false }
    { topCurve := [], bottomCurve := [] } { value := 2 } DespeckleLevel.DESPECKLE_OFF
    { pictureShape := PictureShape.FREE_SHAPE, sensitivity := 100 }
    { autoZonesFound := false, whiteOnBlackAutoDetected := false, whiteOnBlackMode := false }


/-- A transformation with the crop area of the page under the identity and a
matrix scaled horizontally by `sx`. -/
def ImageTransformation.sameCropExample (sx : ℚ) : ImageTransformation :=
  { resultingPreCropArea := (ImageTransformation.hscaleExample 1).resultingPreCropArea
    transformWithoutPostCrop := QTransform.hscale sx }


/-! ### The constructor's assertion (OutputGenerator.cpp, line 268) -/

/-- Qt's `QRect::bottomRight`. -/
def QRect.bottomRight (r : QRect) : QPoint := { x := r.x2, y := r.y2 }

/-- Qt's `QRect::contains(QPoint const&)`, with `proper` false. -/
def QRect.contains (r : QRect) (p : QPoint) : Bool :=
  let l := if r.x2 < r.x1 - 1 then r.x2 else r.x1
  let rr := if r.x2 < r.x1 - 1 then r.x1 else r.x2
  if p.x < l ∨ p.x > rr then false
  else
    let t := if r.y2 < r.y1 - 1 then r.y2 else r.y1
    let b := if r.y2 < r.y1 - 1 then r.y1 else r.y2
    if p.y < t ∨ p.y > b then false
    else true

/-- The condition asserted by the constructor after the intersection:
`m_outRect.contains(m_contentRect.topLeft()) &&
m_outRect.contains(m_contentRect.bottomRight())`. -/
def OutputGenerator.constructorAssertion (g : OutputGenerator) : Bool :=
  g.m_outRect.contains g.m_contentRect.topLeft && g.m_outRect.contains g.m_contentRect.bottomRight

/-! ### calcBinarizationThreshold (OutputGenerator.cpp, lines 1950-1975) -/

/-- The method `OutputGenerator::calcBinarizationThreshold(QImage const&,
BinaryImage const&)`.  The argument `otsuThresholdMasked image mask` is the
collaborator result `BinaryThreshold::otsuThreshold(GrayscaleHistogram(image,
mask))`, the Otsu threshold of the pixels that are black in the mask. -/
def calcBinarizationThresholdMasked {Img : Type} (otsuThresholdMasked : Img → Bitmap → Int)
    (blackWhiteOptions : BlackWhiteOptions) (image : Img) (mask : Bitmap) : Int :=
  adjustThreshold blackWhiteOptions.thresholdAdjustment (otsuThresholdMasked image mask)

/-- The method `OutputGenerator::calcBinarizationThreshold(QImage const&,
QPolygonF const&, BinaryImage const*)`; a null `mask` is `none`. -/
def calcBinarizationThreshold {Img : Type} (ip : Imageproc Img)
    (otsuThresholdMasked : Img → Bitmap → Int) (blackWhiteOptions : BlackWhiteOptions)
    (image : Img) (crop_area : List QPointF) (mask : Option Bitmap) : Int :=
  if ip.pathContains crop_area (ip.rect image) = true then
    adjustThreshold blackWhiteOptions.thresholdAdjustment (ip.otsuThreshold image)
  else
    let modified_mask := ip.erodedCropMask (ip.rect image).size crop_area
    let modified_mask :=
      match mask with
      | some m => rasterOpFull (RopAnd RopSrc RopDst) modified_mask m
      | none => modified_mask
    calcBinarizationThresholdMasked otsuThresholdMasked blackWhiteOptions image modified_mask

/-- The threshold the claim describes: the adjusted Otsu threshold of the pixels
black in the mask and inside the eroded crop area. -/
def maskedThresholdSpec {Img : Type} (ip : Imageproc Img)
    (otsuThresholdMasked : Img → Bitmap → Int) (blackWhiteOptions : BlackWhiteOptions)
    (image : Img) (crop_area : List QPointF) (mask : Bitmap) : Int :=
  adjustThreshold blackWhiteOptions.thresholdAdjustment
    (otsuThresholdMasked image
      (rasterOpFull (RopAnd RopSrc RopDst) (ip.erodedCropMask (ip.rect image).size crop_area)
        mask))

/-- An example masked Otsu collaborator on images given by their gray levels: 90
when the mask leaves out the pixel (0, 0) as picture, 128 otherwise. -/
def otsuThresholdMaskedExample : (Int → Int → Int) → Bitmap → Int :=
  fun _ mask => if mask.black 0 0 then 128 else 90


/-! ### dewarp (OutputGenerator.cpp, lines 1723-1750) -/

/-- Modelled from the spec: `GrayImage(size)` followed by `fill(level)`, of
`imageproc/GrayImage`, which is not among the given sources; an 8-bit image of
the given size with every pixel of the given gray level. -/
def GrayImage.filled (width height level : Nat) : ColorImage :=
  { width := width
    height := height
    depth := 8
    pixelColor := fun _ _ => 0xFF000000 + level * 0x010000 + level * 0x000100 + level }

/-- The method `OutputGenerator::dewarp`.  The collaborators are arguments:
`createDewarper` builds the `CylindricalSurfaceDewarper` and may raise,
`modelDomain` is `distortion_model.modelDomain(dewarper, orig_to_src *
src_to_output, outputContentRect()).toRect()`, and `rasterDewarp` is
`RasterDewarper::dewarp`. -/
def OutputGenerator.dewarp {Model Dewarper : Type} (g : OutputGenerator)
    (createDewarper : Model → Except Exception Dewarper)
    (modelDomain : Model → Dewarper → QRect → QRect)
    (rasterDewarp : ColorImage → QSize → Dewarper → QRect → Nat → ColorImage)
    (src : ColorImage) (distortion_model : Model) (bg_color : Nat) :
    Except Exception ColorImage :=
  match createDewarper distortion_model with
  | Except.error e => Except.error e
  | Except.ok dewarper =>
    let model_domain := modelDomain distortion_model dewarper g.outputContentRect
    if model_domain.isEmpty then
      let out := GrayImage.filled src.width src.height 0xff
      Except.ok out
    else
      Except.ok (rasterDewarp src g.m_outRect.size dewarper model_domain bg_color)

/-- An example generator: a 1000x1500 output rect with the content rect
(100,100)-(899,1399). -/
def dewarpGeneratorExample : OutputGenerator :=
  OutputGenerator.construct ColorMode.COLOR_GRAYSCALE FillingColor.WHITE DewarpingMode.MANUAL
    { x1 := 0, y1 := 0, x2 := 999, y2 := 1499 } { x1 := 100, y1 := 100, x2 := 899, y2 := 1399 }

/-- An example source image: 2000x3000, mid gray. -/
def scanExample : ColorImage :=
  { width := 2000, height := 3000, depth := 8, pixelColor := fun _ _ => 0xFF808080 }

/-- An example raster dewarper: a black image of the requested size. -/
def rasterDewarpExample : ColorImage → QSize → Unit → QRect → Nat → ColorImage :=
  fun _ size _ _ _ =>
    { width := size.wd.toNat, height := size.ht.toNat, depth := 8, pixelColor := fun _ _ => Qt_black }

/-! ### Vertical border skew in AUTO dewarping (OutputGenerator.cpp, lines 1187-1265) -/

/-- The enumeration `PageId::SubPage`. -/
inductive SubPage where
  | SINGLE_PAGE
  | LEFT_PAGE
  | RIGHT_PAGE
  deriving DecidableEq, Repr

/-- The correction of the distortion model for a skewed vertical border, in the
AUTO branch of `processWithDewarping`.  The arguments are the collaborators:
`vert_border_skew_angle` (the angle in degrees, computed with `qAtan`),
`toFloat` (the conversion of a `double` to `float`), and the pre-rotation
`transform` with its inverse.  The result is `none` when a polyline is empty,
where `front()` and `back()` are undefined. -/
def vertBorderSkewCorrection (vert_border_skew_angle : QPointF → QPointF → ℚ)
    (toFloat : ℚ → ℚ) (transform inv_transform : QPointF → QPointF) (subPage : SubPage)
    (distortion_model : DistortionModel) : Option DistortionModel :=
  let top_polyline := distortion_model.topCurve.map transform
  let bottom_polyline := distortion_model.bottomCurve.map transform
  let max_angle : ℚ := 11 / 4
  if subPage = SubPage.SINGLE_PAGE ∨ subPage = SubPage.LEFT_PAGE then
    match top_polyline.head?, bottom_polyline.head? with
    | some top_front, some bottom_front =>
      let vert_skew_angle_left := vert_border_skew_angle top_front bottom_front
      if vert_skew_angle_left > max_angle then
        let top_x := toFloat top_front.xp
        let bottom_x := toFloat bottom_front.xp
        if top_x < bottom_x then
          let pt : QPointF := { xp := top_x, yp := bottom_front.yp }
          let new_bottom_polyline := pt :: bottom_polyline.map inv_transform
          some { distortion_model with bottomCurve := new_bottom_polyline }
        else
          let pt : QPointF := { xp := bottom_x, yp := top_front.yp }
          let new_top_polyline := pt :: top_polyline.map inv_transform
          some { distortion_model with bottomCurve := new_top_polyline }
      else some distortion_model
    | _, _ => none
  else
    match top_polyline.getLast?, bottom_polyline.getLast? with
    | some top_back, some bottom_back =>
      let vert_skew_angle_right := vert_border_skew_angle top_back bottom_back
      if vert_skew_angle_right > max_angle then
        let top_x := toFloat top_back.xp
        let bottom_x := toFloat bottom_back.xp
        if top_x > bottom_x then
          let pt : QPointF := { xp := top_x, yp := bottom_back.yp }
          let new_bottom_polyline := bottom_polyline.map inv_transform ++ [pt]
          some { distortion_model with bottomCurve := new_bottom_polyline }
        else
          let pt : QPointF := { xp := bottom_x, yp := top_back.yp }
          let new_top_polyline := top_polyline.map inv_transform ++ [pt]
          some { distortion_model with bottomCurve := new_top_polyline }
      else some distortion_model
    | _, _ => none

/-- The border angle the correction compares with 2.75: between the first points
of the two transformed polylines for a single or left page, between their last
points for a right page. -/
def borderSkewAngle (vert_border_skew_angle : QPointF → QPointF → ℚ)
    (transform : QPointF → QPointF) (subPage : SubPage)
    (distortion_model : DistortionModel) : Option ℚ :=
  let pick : List QPointF → Option QPointF :=
    if subPage = SubPage.RIGHT_PAGE then List.getLast? else List.head?
  match pick (distortion_model.topCurve.map transform),
      pick (distortion_model.bottomCurve.map transform) with
  | some top, some bottom => some (vert_border_skew_angle top bottom)
  | _, _ => none

/-- An example distortion model: a page whose left border leans by 100 pixels
over a height of 1000. -/
def leaningModelExample : DistortionModel :=
  { topCurve := [{ xp := 0, yp := 0 }, { xp := 1000, yp := 0 }]
    bottomCurve := [{ xp := 100, yp := 1000 }, { xp := 1000, yp := 1000 }] }

/-! ### PropertySet (foundation/PropertySet.h) -/

/-- A property object on the heap: `addr` identifies the object, `dynType` is its
dynamic type. -/
structure Property where
  addr : Nat
  dynType : Nat
  deriving DecidableEq, Repr

/-- The class `PropertySet`: the vector `m_props`, in insertion order. -/
structure PropertySet where
  m_props : List Property
  deriving DecidableEq, Repr

/-- The loop of `PropertySet::locate<T>` from an iterator position: the first
object for which `dynamic_cast<T*>` succeeds.  `castable d T` tells whether an
object of dynamic type `d` can be cast to `T`. -/
def PropertySet.locateFrom (castable : Nat → Nat → Bool) (T : Nat) :
    List Property → Option Property
  | [] => none
  | obj :: rest =>
    if castable obj.dynType T then some obj
    else PropertySet.locateFrom castable T rest

/-- The method `PropertySet::locate<T>`: the pointer returned (`none` for a null
pointer) and the set after the call. -/
def PropertySet.locate (castable : Nat → Nat → Bool) (T : Nat) (s : PropertySet) :
    Option Property × PropertySet :=
  (PropertySet.locateFrom castable T s.m_props, s)

/-- The method `PropertySet::locateOrDefault<T>`; `newT` is the object made by
`new T`. -/
def PropertySet.locateOrDefault (castable : Nat → Nat → Bool) (T : Nat) (newT : Property)
    (s : PropertySet) : Property × PropertySet :=
  match PropertySet.locate castable T s with
  | (some obj, s1) => (obj, s1)
  | (none, s1) => (newT, s1)

/-- The method `PropertySet::locateOrCreate<T>`; `newT` is the object made by
`new T`. -/
def PropertySet.locateOrCreate (castable : Nat → Nat → Bool) (T : Nat) (newT : Property)
    (s : PropertySet) : Property × PropertySet :=
  match PropertySet.locate castable T s with
  | (some obj, s1) => (obj, s1)
  | (none, s1) => (newT, { s1 with m_props := s1.m_props ++ [newT] })


/-- An example angle collaborator: 5 degrees for a leaning border, 0 for a
vertical one. -/
def borderAngleExample : QPointF → QPointF → ℚ :=
  fun top bottom => if top.xp = bottom.xp then 0 else 5


/-! ### Binary output without dewarping (OutputGenerator.cpp, lines 625-685) -/

/-- Qt's `qGray(QRgb)`: `(r * 11 + g * 16 + b * 5) / 32`. -/
def qGray (rgb : Nat) : Nat :=
  (((rgb >>> 16) &&& 0xff) * 11 + ((rgb >>> 8) &&& 0xff) * 16 + (rgb &&& 0xff) * 5) / 32

/-- A fill zone as `applyFillZonesInPlace` reads it: `color` is
`zone.properties().locateOrDefault<FillColorProperty>()->color()` and
`covers x y` tells whether the pixel `(x, y)` lies inside the mapped polygon. -/
structure FillZone where
  color : Nat
  covers : Int → Int → Bool

/-- The method `OutputGenerator::applyFillZonesInPlace(BinaryImage&, ...)`
(lines 2340-2355). -/
def applyFillZonesInPlace (img : Bitmap) (zones : List FillZone) : Bitmap :=
  if zones.isEmpty then img
  else
    zones.foldl
      (fun im zone =>
        let bw_color := if qGray zone.color < 128 then BWColor.BLACK else BWColor.WHITE
        PolygonRasterizer.fill im bw_color zone.covers)
      img

/-- Modelled from the spec: `BinaryImage::fill(color)` of `imageproc/BinaryImage`,
which is not among the given sources; every pixel takes the colour. -/
def Bitmap.fill (img : Bitmap) (color : BWColor) : Bitmap :=
  { img with black := fun _ _ => decide (color = BWColor.BLACK) }

/-- The branch `render_params.binaryOutput()` of `processWithoutDewarping`: the
binary image returned (before `toQImage`) and the speckles image.  The
collaborators `fillMarginsInPlace` and `morphologicalSmoothInPlace` are
arguments, `m_despeckleLevel` is `despeckleLevel`, and `contentRect` and
`normalize_illumination_rect` are the local rectangles of the function. -/
def processWithoutDewarpingBinary {Img : Type} (g : OutputGenerator) (ip : Imageproc Img)
    (blackWhiteOptions : BlackWhiteOptions) (whiteOnBlackMode : Bool)
    (despeckleInPlace : Bitmap → Despeckle.Level → Bitmap)
    (fillMarginsInPlace : Bitmap → List QPointF → BWColor → Bitmap)
    (morphologicalSmoothInPlace : Bitmap → Bitmap) (needMorphologicalSmoothing : Bool)
    (maybe_smoothed : Img) (normalize_illumination_crop_area : List QPointF)
    (outsideBackgroundColorBW : Nat) (contentRect normalize_illumination_rect : QRect)
    (despeckleLevel : DespeckleLevel) (speckles_image : Option Bitmap)
    (fill_zones : List FillZone) : Bitmap × Option Bitmap :=
  let dst := Bitmap.filled (g.m_outRect.size.expandedTo { wd := 1, ht := 1 }) BWColor.WHITE
  let bw_content :=
    binarizeCropped ip blackWhiteOptions whiteOnBlackMode maybe_smoothed
      normalize_illumination_crop_area none
  let fillColor := if outsideBackgroundColorBW = Qt_black then BWColor.BLACK else BWColor.WHITE
  let bw_content :=
    if g.m_fillingColor = FillingColor.BACKGROUND then
      fillMarginsInPlace bw_content normalize_illumination_crop_area fillColor
    else bw_content
  let dst := if g.m_fillingColor = FillingColor.BACKGROUND then dst.fill fillColor else dst
  let bw_content :=
    if needMorphologicalSmoothing then morphologicalSmoothInPlace bw_content else bw_content
  let src_rect :=
    contentRect.translated (-normalize_illumination_rect.topLeft.x)
      (-normalize_illumination_rect.topLeft.y)
  let dst_rect := contentRect
  let dst := rasterOp RopSrc dst dst_rect bw_content src_rect.topLeft
  let despeckled :=
    maybeDespeckleInPlace g despeckleInPlace dst g.m_outRect g.m_outRect despeckleLevel
      speckles_image
  (applyFillZonesInPlace despeckled.1 fill_zones, despeckled.2)

/-- The fill colour the claim describes, as a pixel being black: white for the
fill option WHITE, the detected black-or-white background for BACKGROUND. -/
def configuredFillIsBlack (g : OutputGenerator) (outsideBackgroundColorBW : Nat) : Bool :=
  match g.m_fillingColor with
  | FillingColor.WHITE => false
  | FillingColor.BACKGROUND => decide (outsideBackgroundColorBW = Qt_black)

/-- An example generator: black-and-white output of 100x80 pixels, fill option
BACKGROUND, content rect (10,10)-(89,69). -/
def binaryGeneratorExample : OutputGenerator :=
  OutputGenerator.construct ColorMode.BLACK_AND_WHITE FillingColor.BACKGROUND DewarpingMode.OFF
    { x1 := 0, y1 := 0, x2 := 99, y2 := 79 } { x1 := 10, y1 := 10, x2 := 89, y2 := 69 }


/-! ### Settings writes and cancellation points (OutputGenerator.cpp, lines 493-1665) -/

/-- The entries of the settings store for the page being generated. -/
structure Settings where
  pictureZones : List Zone
  outputProcessingParams : OutputProcessingParams

/-- A stage of a generation call as the settings store and the cancellation
token see it: a `status.throwIfCancelled()`, or a write to the store. -/
inductive Stage where
  | throwIfCancelled
  | setPictureZones (zones : List Zone)
  | setOutputProcessingParams (params : OutputProcessingParams)

/-- The effect of a stage on the settings store. -/
def applyStage (settings : Settings) : Stage → Settings
  | Stage.throwIfCancelled => settings
  | Stage.setPictureZones zones => { settings with pictureZones := zones }
  | Stage.setOutputProcessingParams params => { settings with outputProcessingParams := params }

/-- The cancellation checks of `detectPictures` (lines 1860, 1867, 1875, 1885,
1892, 1901, 1908). -/
def detectPicturesStages : List Stage :=
  [Stage.throwIfCancelled, Stage.throwIfCancelled, Stage.throwIfCancelled,
    Stage.throwIfCancelled, Stage.throwIfCancelled, Stage.throwIfCancelled,
    Stage.throwIfCancelled]

/-- The cancellation checks of `estimateBinarizationMask`: lines 403 and 412,
those of `detectPictures` called at line 415, and line 417. -/
def estimateBinarizationMaskStages : List Stage :=
  [Stage.throwIfCancelled, Stage.throwIfCancelled] ++ detectPicturesStages
    ++ [Stage.throwIfCancelled]

/-- The state after the picture-mask step of mixed output: the mask before the
user zone edits, the picture zones, the member `m_outputProcessingParams`, the
settings store, whether a picture mask was estimated, and the stages run. -/
structure MaskStep where
  bw_mask : Bitmap
  picture_zones : List Zone
  m_outputProcessingParams : OutputProcessingParams
  settings : Settings
  maskEstimated : Bool
  stages : List Stage

/-- The picture-mask step of mixed output (lines 688-739 of
`processWithoutDewarping`, and the same code at lines 1054-1108 of
`processWithDewarping`).  The collaborators are arguments:
`estimateBinarizationMask` is the mask that function returns and
`rectangularizeAreas` the list of areas found in a mask.  Removing the zones of
category RECTANGULAR_OUTLINE is `applyToZoneSet` with `erase`; a zone added for
an area is `Zone(area)` for the area mapped back to the original image. -/
def autoPictureMaskStep (pictureShape : PictureShape) (sensitivity : Int)
    (estimateBinarizationMask : Bitmap) (rectangularizeAreas : Bitmap → Int → List QRect)
    (small_margins_size : QSize) (picture_zones : List Zone)
    (m_outputProcessingParams : OutputProcessingParams) (settings : Settings) : MaskStep :=
  let st0 : MaskStep :=
    { bw_mask := Bitmap.filled small_margins_size BWColor.BLACK
      picture_zones := picture_zones
      m_outputProcessingParams := m_outputProcessingParams
      settings := settings
      maskEstimated := false
      stages := [] }
  let st1 : MaskStep :=
    if pictureShape ≠ PictureShape.RECTANGULAR_SHAPE
        ∨ st0.m_outputProcessingParams.autoZonesFound = false then
      let zones :=
        st0.picture_zones.filter fun zone =>
          !decide (zone.category = ZoneCategory.RECTANGULAR_OUTLINE)
      let params := { st0.m_outputProcessingParams with autoZonesFound := false }
      { bw_mask := estimateBinarizationMask
        picture_zones := zones
        m_outputProcessingParams := params
        settings :=
          applyStage (applyStage st0.settings (Stage.setPictureZones zones))
            (Stage.setOutputProcessingParams params)
        maskEstimated := true
        stages :=
          st0.stages ++ estimateBinarizationMaskStages
            ++ [Stage.setPictureZones zones, Stage.setOutputProcessingParams params] }
    else st0
  if pictureShape = PictureShape.RECTANGULAR_SHAPE
      ∧ st1.m_outputProcessingParams.autoZonesFound = false then
    let areas := rectangularizeAreas st1.bw_mask sensitivity
    let zones := st1.picture_zones ++ areas.map autoPictureZone
    let params := { st1.m_outputProcessingParams with autoZonesFound := true }
    { bw_mask := st1.bw_mask.fill BWColor.BLACK
      picture_zones := zones
      m_outputProcessingParams := params
      settings :=
        applyStage (applyStage st1.settings (Stage.setPictureZones zones))
          (Stage.setOutputProcessingParams params)
      maskEstimated := st1.maskEstimated
      stages :=
        st1.stages ++ [Stage.setPictureZones zones, Stage.setOutputProcessingParams params] }
  else st1

/-- An example settings store of a page not yet generated: no picture zones and
no flag set. -/
def freshSettingsExample : Settings :=
  { pictureZones := []
    outputProcessingParams :=
      { autoZonesFound := false, whiteOnBlackAutoDetected := false, whiteOnBlackMode := false } }

/-- An example settings store of a page generated before: both flags set. -/
def doneSettingsExample : Settings :=
  { pictureZones := []
    outputProcessingParams :=
      { autoZonesFound := true, whiteOnBlackAutoDetected := true, whiteOnBlackMode := false } }

/-- The inner loop of a rotation: the columns `x` of the pattern row `y`.  The
state is the buffer `new_pattern` and the offset of the pointer `p` into
`pattern`; `place x y` is the index `new_y * new_width + new_x`. -/
def rotateLoopRow (pattern : Nat → Char) (pattern_width : Nat) (place : Nat → Nat → Nat)
    (y : Nat) (st : (Nat → Char) × Nat) : (Nat → Char) × Nat :=
  (List.range pattern_width).foldl
    (fun st x => (Function.update st.1 (place x y) (pattern st.2), st.2 + 1)) st

/-- The outer loop of a rotation over the first `rows` rows of the pattern. -/
def rotateLoopRows (pattern : Nat → Char) (pattern_width : Nat) (place : Nat → Nat → Nat)
    (rows : Nat) (st : (Nat → Char) × Nat) : (Nat → Char) × Nat :=
  (List.range rows).foldl (fun st y => rotateLoopRow pattern pattern_width place y st) st

/-- A whole rotation loop: `p = pattern`, then the two nested loops; the result
is the buffer `new_pattern` after them. -/
def rotateLoop (pattern : Nat → Char) (pattern_width pattern_height : Nat)
    (place : Nat → Nat → Nat) (new_pattern : Nat → Char) : Nat → Char :=
  (rotateLoopRows pattern pattern_width place pattern_height (new_pattern, 0)).1

/-- The index written by the first loop ("rotate 90 degrees clockwise"). -/
def rotateClockwisePlace (pattern_width pattern_height x y : Nat) : Nat :=
  let new_width := pattern_height
  let _new_height := pattern_width
  let new_x := pattern_height - 1 - y
  let new_y := x
  new_y * new_width + new_x

/-- The index written by the second loop ("rotate upside down"). -/
def rotateUpsideDownPlace (pattern_width pattern_height x y : Nat) : Nat :=
  let new_width := pattern_width
  let _new_height := pattern_height
  let new_x := pattern_width - 1 - x
  let new_y := pattern_height - 1 - y
  new_y * new_width + new_x

/-- The index written by the third loop ("rotate 90 degrees counter-clockwise"). -/
def rotateCounterClockwisePlace (pattern_width pattern_height x y : Nat) : Nat :=
  let new_width := pattern_height
  let _new_height := pattern_width
  let new_x := y
  let new_y := pattern_width - 1 - x
  new_y * new_width + new_x

/-- A pattern handed to `hitMissReplaceInPlace`: the buffer as it is at the call,
with its width and height. -/
structure PatternCall where
  pattern : Nat → Char
  width : Nat
  height : Nat

/-- The method `OutputGenerator::hitMissReplaceAllDirections`, as the list of the
four patterns it hands to `hitMissReplaceInPlace`, in order.  The buffer
`pattern_data` starts filled with spaces and is reused by the three loops. -/
def hitMissReplaceAllDirections (pattern : Nat → Char) (pattern_width pattern_height : Nat) :
    List PatternCall :=
  let pattern_data : Nat → Char := fun _ => ' '
  let first :=
    rotateLoop pattern pattern_width pattern_height
      (rotateClockwisePlace pattern_width pattern_height) pattern_data
  let second :=
    rotateLoop pattern pattern_width pattern_height
      (rotateUpsideDownPlace pattern_width pattern_height) first
  let third :=
    rotateLoop pattern pattern_width pattern_height
      (rotateCounterClockwisePlace pattern_width pattern_height) second
  [{ pattern := pattern, width := pattern_width, height := pattern_height },
    { pattern := first, width := pattern_height, height := pattern_width },
    { pattern := second, width := pattern_width, height := pattern_height },
    { pattern := third, width := pattern_height, height := pattern_width }]

/-- The cell in row `r`, column `c` of a pattern of the given width. -/
def PatternCall.cell (p : PatternCall) (r c : Nat) : Char := p.pattern (r * p.width + c)

/-- The 90-degree clockwise rotation of a pattern of width `w` and height `h`: the
cell in row `r`, column `c` of the rotated pattern (of width `h`) is the cell
in row `h - 1 - c`, column `r` of the original. -/
def rotatedClockwise (pattern : Nat → Char) (w h r c : Nat) : Char :=
  pattern ((h - 1 - c) * w + r)

/-- The 180-degree rotation: the cell in row `r`, column `c` is the cell in row
`h - 1 - r`, column `w - 1 - c` of the original. -/
def rotatedUpsideDown (pattern : Nat → Char) (w h r c : Nat) : Char :=
  pattern ((h - 1 - r) * w + (w - 1 - c))

/-- The 90-degree counter-clockwise rotation: the cell in row `r`, column `c` of
the rotated pattern is the cell in row `c`, column `w - 1 - r` of the
original. -/
def rotatedCounterClockwise (pattern : Nat → Char) (w _h r c : Nat) : Char :=
  pattern (c * w + (w - 1 - r))

/-- The map `place` sends the cells `(x, y)` of a pattern of width `w` and height
`h` one-to-one onto the indices below `w * h`. -/
def IsReindexing (place : Nat → Nat → Nat) (w h : Nat) : Prop :=
  (∀ x y, x < w → y < h → place x y < w * h)
  ∧ (∀ x y x2 y2, x < w → y < h → x2 < w → y2 < h → place x y = place x2 y2 →
      x = x2 ∧ y = y2)
  ∧ (∀ i, i < w * h → ∃ x y, x < w ∧ y < h ∧ place x y = i)

/-- An example pattern, 3 wide and 2 high: "XXX" over " - ". -/
def patternExample : Nat → Char := fun i => "XXX - ".toList.getD i ' '

end output

/-! ## Theorems -/

namespace output

/-! ### Bit-level lemmas -/

theorem and_mask24 (c : Nat) : c &&& 0x00FFFFFF = c % 16777216 := by
  have := Nat.and_pow_two_sub_one_eq_mod c 24
  simpa using this

theorem and_31 (x : Nat) : x &&& 31 = x % 32 := by
  simpa using Nat.and_pow_two_sub_one_eq_mod x 5

theorem msb_test (w x : Nat) :
    (w &&& (msb >>> (x &&& 31)) ≠ 0) ↔ w.testBit (31 - x % 32) = true := by
  rw [and_31]
  have hk : x % 32 < 32 := Nat.mod_lt _ (by norm_num)
  have hm : msb >>> (x % 32) = 2 ^ (31 - x % 32) := by
    unfold msb wrapU32
    rw [Nat.shiftRight_eq_div_pow]
    have : (1 <<< 31) % 4294967296 = 2 ^ 31 := by rfl
    rw [this, Nat.pow_div (by omega) (by norm_num)]
  rw [hm]
  constructor
  · intro h
    by_contra hb
    apply h
    apply Nat.eq_of_testBit_eq
    intro i
    simp only [Nat.testBit_and, Nat.testBit_two_pow, Nat.zero_testBit]
    by_cases hi : 31 - x % 32 = i
    · subst hi; simp [hb]
    · simp [hi]
  · intro h h0
    have := congrArg (fun v => v.testBit (31 - x % 32)) h0
    simp [h] at this

theorem content_bit (w x : Nat) :
    (w >>> (31 - (x &&& 31))) &&& 1 = if w.testBit (31 - x % 32) then 1 else 0 := by
  rw [and_31, Nat.and_one_is_mod, Nat.shiftRight_eq_div_pow, Nat.testBit_to_div_mod]
  by_cases h : w / 2 ^ (31 - x % 32) % 2 = 1
  · simp [h]
  · have : w / 2 ^ (31 - x % 32) % 2 = 0 := by omega
    simp [this]

/-! ### The loops of combineMixed -/

theorem combineMixedPixel_eq (T : MixedPixel) (c m : BinaryImage) (need : Bool)
    (ml cl kl : Nat) (bits : Nat → Nat) (x : Nat) :
    combineMixedPixel T c m need ml cl kl bits x =
      Function.update bits (ml + x) (combineMixedValue T c m need cl kl x (bits (ml + x))) := by
  have e5 : x >>> 5 = x / 32 := by rw [Nat.shiftRight_eq_div_pow]
  unfold combineMixedPixel combineMixedValue
  simp only [msb_test, content_bit, e5]
  by_cases hm : (m.data (kl + x / 32)).testBit (31 - x % 32) = true
  · rw [if_pos hm, if_pos hm]
    by_cases hc : (c.data (cl + x / 32)).testBit (31 - x % 32) = true
    · rw [if_pos hc, if_pos hc]
      cases T <;> rfl
    · rw [if_neg hc, if_neg hc]
      cases T <;> rfl
  · rw [if_neg hm, if_neg hm]
    cases need
    · simp
    · simp

theorem combineMixedLine_get (T : MixedPixel) (c m : BinaryImage) (need : Bool)
    (ml cl kl : Nat) (bits : Nat → Nat) (w j : Nat) :
    combineMixedLine T c m need w ml cl kl bits j =
      if ml ≤ j ∧ j < ml + w then combineMixedValue T c m need cl kl (j - ml) (bits j)
      else bits j := by
  unfold combineMixedLine
  induction w with
  | zero =>
    have : ¬ (ml ≤ j ∧ j < ml + 0) := by omega
    rw [if_neg this, List.range_zero, List.foldl_nil]
  | succ n ih =>
    rw [List.range_succ, List.foldl_append, List.foldl_cons, List.foldl_nil,
      combineMixedPixel_eq]
    by_cases hj : j = ml + n
    · subst hj
      rw [Function.update_same, ih]
      have h1 : ¬ (ml ≤ ml + n ∧ ml + n < ml + n) := by omega
      have h2 : ml ≤ ml + n ∧ ml + n < ml + (n + 1) := by omega
      rw [if_neg h1, if_pos h2]
      simp
    · rw [Function.update_noteq hj, ih]
      by_cases h : ml ≤ j ∧ j < ml + n
      · have h2 : ml ≤ j ∧ j < ml + (n + 1) := by omega
        rw [if_pos h, if_pos h2]
      · have h2 : ¬ (ml ≤ j ∧ j < ml + (n + 1)) := by omega
        rw [if_neg h, if_neg h2]

theorem combineMixedRows_below (T : MixedPixel) (c m : BinaryImage) (need : Bool)
    (w stride rows : Nat) :
    ∀ (ml cl kl : Nat) (bits : Nat → Nat) (j : Nat), j < ml →
      combineMixedRows T c m need w stride rows ml cl kl bits j = bits j := by
  induction rows with
  | zero => intro ml cl kl bits j _; rfl
  | succ n ih =>
    intro ml cl kl bits j hj
    rw [combineMixedRows, ih _ _ _ _ _ (by omega), combineMixedLine_get]
    have : ¬ (ml ≤ j ∧ j < ml + w) := by omega
    rw [if_neg this]

theorem combineMixedRows_get (T : MixedPixel) (c m : BinaryImage) (need : Bool)
    (w stride : Nat) (hw : w ≤ stride) (rows : Nat) :
    ∀ (ml cl kl : Nat) (bits : Nat → Nat) (x y : Nat), x < w → y < rows →
      combineMixedRows T c m need w stride rows ml cl kl bits (ml + y * stride + x) =
        combineMixedValue T c m need (cl + y * c.wordsPerLine) (kl + y * m.wordsPerLine) x
          (bits (ml + y * stride + x)) := by
  induction rows with
  | zero => intro ml cl kl bits x y _ hy; omega
  | succ n ih =>
    intro ml cl kl bits x y hx hy
    rw [combineMixedRows]
    cases y with
    | zero =>
      have hb := combineMixedRows_below T c m need w stride n (ml + stride)
        (cl + c.wordsPerLine) (kl + m.wordsPerLine)
        (combineMixedLine T c m need w ml cl kl bits) (ml + 0 * stride + x) (by omega)
      rw [hb, combineMixedLine_get]
      have : ml ≤ ml + 0 * stride + x ∧ ml + 0 * stride + x < ml + w := by omega
      rw [if_pos this]
      have e : ml + 0 * stride + x - ml = x := by omega
      rw [e]
      simp
    | succ y =>
      have e : ml + (y + 1) * stride + x = (ml + stride) + y * stride + x := by
        rw [Nat.succ_mul]; omega
      have ec : cl + (y + 1) * c.wordsPerLine = (cl + c.wordsPerLine) + y * c.wordsPerLine := by
        rw [Nat.succ_mul]; omega
      have em : kl + (y + 1) * m.wordsPerLine = (kl + m.wordsPerLine) + y * m.wordsPerLine := by
        rw [Nat.succ_mul]; omega
      rw [e, ec, em, ih _ _ _ _ x y hx (by omega), combineMixedLine_get]
      have hn : ¬ (ml ≤ ml + stride + y * stride + x
          ∧ ml + stride + y * stride + x < ml + w) := by omega
      rw [if_neg hn]

/-- Claim C1: `combineMixed` partitions the pixels by the mask.  At a pixel whose
mask bit is black the result is opaque pure black or white according to the
content bit; at a pixel whose mask bit is white the result is the input pixel,
passed through `reserveBlackAndWhite` exactly when that is requested, and
the content image plays no part. -/
theorem combineMixed_partitions (T : MixedPixel) (mixed : QImage)
    (bw_content bw_mask : BinaryImage) (need : Bool)
    (hstride : mixed.width ≤ mixed.stride)
    (x y : Nat) (hx : x < mixed.width) (hy : y < mixed.height) :
    (combineMixed T mixed bw_content bw_mask need).pixel x y =
      if bw_mask.isBlack x y then
        (if bw_content.isBlack x y then T.opaqueBlack else T.opaqueWhite)
      else if need then reserveBlackAndWhite T (mixed.pixel x y)
      else mixed.pixel x y := by
  have h := combineMixedRows_get T bw_content bw_mask need mixed.width mixed.stride hstride
    mixed.height 0 0 0 mixed.bits x y hx hy
  simp only [Nat.zero_add] at h
  unfold combineMixed QImage.pixel
  simp only [h, combineMixedValue, BinaryImage.isBlack]

end output

namespace output

/-- Claim C1, at a concrete input: a 2x2 32-bit image combined with a content
and a mask whose words are all ones. -/
theorem combineMixed_partitions_witness :
    (2 : Nat) ≤ 2 ∧ (1 : Nat) < 2 ∧ (0 : Nat) < 2 ∧
    (combineMixed MixedPixel.uint32 ⟨2, 2, 2, fun _ => 7⟩ ⟨2, 2, 1, fun _ => 0xFFFFFFFF⟩
        ⟨2, 2, 1, fun _ => 0xFFFFFFFF⟩ true).pixel 1 0 =
      if (BinaryImage.mk 2 2 1 (fun _ => 0xFFFFFFFF)).isBlack 1 0 then
        (if (BinaryImage.mk 2 2 1 (fun _ => 0xFFFFFFFF)).isBlack 1 0
          then MixedPixel.uint32.opaqueBlack else MixedPixel.uint32.opaqueWhite)
      else if true then
        reserveBlackAndWhite MixedPixel.uint32 ((QImage.mk 2 2 2 (fun _ => 7)).pixel 1 0)
      else (QImage.mk 2 2 2 (fun _ => 7)).pixel 1 0 :=
  ⟨by decide, by decide, by decide,
    combineMixed_partitions MixedPixel.uint32 ⟨2, 2, 2, fun _ => 7⟩
      ⟨2, 2, 1, fun _ => 0xFFFFFFFF⟩ ⟨2, 2, 1, fun _ => 0xFFFFFFFF⟩ true
      (by decide) 1 0 (by decide) (by decide)⟩

/-! ### reserveBlackAndWhite -/

/-- Claim C2: the RGB part (low 24 bits) of `reserveBlackAndWhite` of a 32-bit
pixel is never 0x000000 or 0xFFFFFF; RGB 0x000000 becomes 0x010101, RGB
0xFFFFFF becomes 0xFEFEFE and any other pixel is returned unchanged.  Likewise
the 8-bit result is never 0x00 or 0xFF; 0x00 becomes 0x01, 0xFF becomes 0xFE
and any other value is returned unchanged. -/
theorem reserveBlackAndWhite_never_pure (c : Nat) :
    (reserveBlackAndWhite_uint32 c % 16777216 ≠ 0x000000
      ∧ reserveBlackAndWhite_uint32 c % 16777216 ≠ 0xFFFFFF
      ∧ reserveBlackAndWhite_uint32 c % 16777216 =
          (if c % 16777216 = 0x000000 then 0x010101
           else if c % 16777216 = 0xFFFFFF then 0xFEFEFE else c % 16777216)
      ∧ (c % 16777216 = 0x000000 ∨ c % 16777216 = 0xFFFFFF
          ∨ reserveBlackAndWhite_uint32 c = c))
    ∧ (reserveBlackAndWhite_uint8 c ≠ 0x00
      ∧ reserveBlackAndWhite_uint8 c ≠ 0xFF
      ∧ reserveBlackAndWhite_uint8 0x00 = 0x01
      ∧ reserveBlackAndWhite_uint8 0xFF = 0xFE
      ∧ (c = 0x00 ∨ c = 0xFF ∨ reserveBlackAndWhite_uint8 c = c)) := by
  unfold reserveBlackAndWhite_uint32 reserveBlackAndWhite_uint8
  simp only [and_mask24]
  refine ⟨⟨?_, ?_, ?_, ?_⟩, ?_, ?_, ?_, ?_, ?_⟩
  · split_ifs <;> omega
  · split_ifs <;> omega
  · split_ifs <;> rfl
  · split_ifs <;> omega
  · split_ifs <;> omega
  · split_ifs <;> omega
  · rfl
  · rfl
  · split_ifs <;> omega

/-! ### RaiseAboveBackground -/

theorem quotient_eq (src dst : Nat) (hs : src < 256) (hd : dst < 256) :
    RaiseAboveBackground.quotient src dst = (src * 255 + dst / 2) / dst := by
  unfold RaiseAboveBackground.quotient wrapU32
  have h1 : src * 255 ≤ 255 * 255 := Nat.mul_le_mul_right 255 (by omega)
  have e1 : src * 255 % 4294967296 = src * 255 := Nat.mod_eq_of_lt (by omega)
  rw [e1, Nat.mod_eq_of_lt (by omega)]

theorem quotient_le (src dst : Nat) (hd : dst < 256) (h : src < dst) :
    (src * 255 + dst / 2) / dst ≤ 254 := by
  have hpos : 0 < dst := by omega
  rw [← Nat.lt_succ_iff, Nat.div_lt_iff_lt_mul hpos]
  have : src * 255 ≤ (dst - 1) * 255 := Nat.mul_le_mul_right 255 (by omega)
  omega

theorem quotient_ge (src dst : Nat) (hd : dst < 256) (h : src < dst) :
    src ≤ (src * 255 + dst / 2) / dst := by
  have hpos : 0 < dst := by omega
  rw [Nat.le_div_iff_mul_le hpos]
  have : src * dst ≤ src * 255 := Nat.mul_le_mul_left src (by omega)
  omega

theorem floor_half_up_eq (n d : Nat) (hd : 0 < d) :
    ⌊((n : ℚ) / (d : ℚ)) + 1 / 2⌋ = (((n + d / 2) / d : Nat) : Int) := by
  rw [Int.floor_eq_iff]
  have hdq : (0 : ℚ) < d := by exact_mod_cast hd
  set q := (n + d / 2) / d with hq
  have h1 : q * d ≤ n + d / 2 := Nat.div_mul_le_self _ _
  have h2 : n + d / 2 < (q + 1) * d := by
    rw [hq]
    exact (Nat.div_lt_iff_lt_mul hd).1 (Nat.lt_succ_self _)
  have e1 : 2 * (q * d) ≤ 2 * n + d := by omega
  have e2 : 2 * n + d + 1 ≤ 2 * ((q + 1) * d) := by omega
  have e1q : (2 : ℚ) * (q * d) ≤ 2 * n + d := by exact_mod_cast e1
  have e2q : (2 : ℚ) * n + d + 1 ≤ 2 * ((q + 1) * d) := by exact_mod_cast e2
  constructor
  · rw [div_add_div _ _ (ne_of_gt hdq) (by norm_num), le_div_iff₀ (by positivity)]
    push_cast
    nlinarith
  · rw [div_add_div _ _ (ne_of_gt hdq) (by norm_num), div_lt_iff₀ (by positivity)]
    push_cast
    nlinarith

theorem transform_eq (src dst : Nat) (hs : src < 256) (hd : dst < 256) :
    RaiseAboveBackground.transform src dst =
      some (if dst ≤ src then 0xFF else (src * 255 + dst / 2) / dst) := by
  unfold RaiseAboveBackground.transform
  by_cases h : dst ≤ src
  · have h1 : (dst : Int) - (src : Int) < 1 := by omega
    rw [if_pos h1, if_pos h]
  · have h1 : ¬ ((dst : Int) - (src : Int) < 1) := by omega
    have h0 : dst ≠ 0 := by omega
    have hq := quotient_le src dst hd (by omega)
    rw [if_neg h1, if_neg h0, if_neg h, quotient_eq src dst hs hd, Nat.mod_eq_of_lt (by omega)]

/-- Claim C3: on 8-bit inputs `RaiseAboveBackground::transform` returns 0xFF when
`dst <= src` and otherwise the integer quotient `(src*255 + dst/2) / dst`,
which is `src*255/dst` rounded to the nearest integer with ties upward, that
is the floor of `src*255/dst + 1/2` over the rationals. -/
theorem transform_rounds_to_nearest (src dst : Nat) (hs : src < 256) (hd : dst < 256) :
    RaiseAboveBackground.transform src dst =
      some (if dst ≤ src then 0xFF else (src * 255 + dst / 2) / dst)
    ∧ (src < dst →
        (((src * 255 + dst / 2) / dst : Nat) : Int)
          = ⌊((src * 255 : Nat) : ℚ) / (dst : ℚ) + 1 / 2⌋) := by
  refine ⟨transform_eq src dst hs hd, fun h => ?_⟩
  exact (floor_half_up_eq (src * 255) dst (by omega)).symm

/-- Claim C3, at the input `src = 100`, `dst = 200`. -/
theorem transform_rounds_to_nearest_witness :
    (100 : Nat) < 256 ∧ (200 : Nat) < 256 ∧ (100 : Nat) < 200
    ∧ RaiseAboveBackground.transform 100 200 =
        some (if 200 ≤ 100 then 0xFF else (100 * 255 + 200 / 2) / 200)
    ∧ (((100 * 255 + 200 / 2) / 200 : Nat) : Int)
        = ⌊((100 * 255 : Nat) : ℚ) / ((200 : Nat) : ℚ) + 1 / 2⌋ :=
  ⟨by decide, by decide, by decide,
    (transform_rounds_to_nearest 100 200 (by decide) (by decide)).1,
    (transform_rounds_to_nearest 100 200 (by decide) (by decide)).2 (by decide)⟩

/-- Claim C4: on 8-bit inputs the result of `RaiseAboveBackground::transform` is
at least `src`, and under a fully bright background (`dst = 255`) it is
exactly `src`. -/
theorem transform_only_raises (src dst : Nat) (hs : src < 256) (hd : dst < 256) :
    (∃ r, RaiseAboveBackground.transform src dst = some r ∧ src ≤ r)
    ∧ RaiseAboveBackground.transform src 255 = some src := by
  constructor
  · refine ⟨_, transform_eq src dst hs hd, ?_⟩
    by_cases h : dst ≤ src
    · rw [if_pos h]; omega
    · rw [if_neg h]; exact quotient_ge src dst hd (by omega)
  · rw [transform_eq src 255 hs (by norm_num)]
    by_cases h : 255 ≤ src
    · rw [if_pos h]
      have : src = 255 := by omega
      rw [this]
    · rw [if_neg h]
      congr 1
      omega

/-- Claim C4, at the input `src = 100`, `dst = 200`. -/
theorem transform_only_raises_witness :
    (100 : Nat) < 256 ∧ (200 : Nat) < 256 ∧
    ((∃ r, RaiseAboveBackground.transform 100 200 = some r ∧ 100 ≤ r)
    ∧ RaiseAboveBackground.transform 100 255 = some 100) :=
  ⟨by decide, by decide, transform_only_raises 100 200 (by decide) (by decide)⟩

/-- Claim C5: on 8-bit inputs `RaiseAboveBackground::transform` always returns a
value (no division by zero); the division branch is entered only with
`dst >= 1` and `src < dst`, the unsigned arithmetic does not wrap, and the
quotient is at most 254, so the cast to `uint8_t` does not change it. -/
theorem transform_total_lossless (src dst : Nat) (hs : src < 256) (hd : dst < 256) :
    (RaiseAboveBackground.transform src dst).isSome = true
    ∧ (¬ ((dst : Int) - (src : Int) < 1) →
        1 ≤ dst ∧ src < dst
        ∧ RaiseAboveBackground.quotient src dst = (src * 255 + dst / 2) / dst
        ∧ RaiseAboveBackground.quotient src dst ≤ 254
        ∧ RaiseAboveBackground.quotient src dst % 256
            = RaiseAboveBackground.quotient src dst) := by
  constructor
  · rw [transform_eq src dst hs hd]; rfl
  · intro h
    have hlt : src < dst := by omega
    have hq := quotient_le src dst hd hlt
    have he := quotient_eq src dst hs hd
    refine ⟨by omega, hlt, he, by omega, ?_⟩
    rw [he, Nat.mod_eq_of_lt (by omega)]

/-- Claim C5, at the input `src = 254`, `dst = 255`. -/
theorem transform_total_lossless_witness :
    (254 : Nat) < 256 ∧ (255 : Nat) < 256
    ∧ ¬ (((255 : Nat) : Int) - ((254 : Nat) : Int) < 1)
    ∧ (RaiseAboveBackground.transform 254 255).isSome = true
    ∧ (1 ≤ 255 ∧ 254 < 255
        ∧ RaiseAboveBackground.quotient 254 255 = (254 * 255 + 255 / 2) / 255
        ∧ RaiseAboveBackground.quotient 254 255 ≤ 254
        ∧ RaiseAboveBackground.quotient 254 255 % 256
            = RaiseAboveBackground.quotient 254 255) :=
  ⟨by decide, by decide, by decide,
    (transform_total_lossless 254 255 (by decide) (by decide)).1,
    (transform_total_lossless 254 255 (by decide) (by decide)).2 (by decide)⟩

end output

namespace output

/-! ### adjustThreshold -/

theorem wrapI32_eq (v : Int) (h1 : -2147483648 ≤ v) (h2 : v ≤ 2147483647) :
    wrapI32 v = v := by
  unfold wrapI32
  omega

theorem qBound_eq (v : Int) :
    qBound 30 v 225 = if v < 30 then 30 else if 225 < v then 225 else v := by
  unfold qBound qMax qMin
  split_ifs <;> omega

/-- Claim C6: the adjusted threshold always lies in the closed range 30..225,
and whenever the sum `t + a` is representable as an `int` it equals `t + a`
clamped to that range. -/
theorem adjustThreshold_clamped (a t : Int) :
    (30 ≤ adjustThreshold a t ∧ adjustThreshold a t ≤ 225)
    ∧ (-2147483648 ≤ t + a → t + a ≤ 2147483647 →
        adjustThreshold a t
          = if t + a < 30 then 30 else if 225 < t + a then 225 else t + a) := by
  constructor
  · unfold adjustThreshold
    simp only [qBound_eq]
    split_ifs <;> omega
  · intro h1 h2
    unfold adjustThreshold
    simp only [wrapI32_eq _ h1 h2, qBound_eq]

/-- Claim C6, at the Otsu threshold 128 with adjustment 20: the result is 148. -/
theorem adjustThreshold_clamped_witness :
    (-2147483648 : Int) ≤ 128 + 20 ∧ (128 : Int) + 20 ≤ 2147483647
    ∧ (30 ≤ adjustThreshold 20 128 ∧ adjustThreshold 20 128 ≤ 225)
    ∧ adjustThreshold 20 128
        = (if (128 : Int) + 20 < 30 then 30
           else if 225 < (128 : Int) + 20 then 225 else 128 + 20) :=
  ⟨by decide, by decide, (adjustThreshold_clamped 20 128).1,
    (adjustThreshold_clamped 20 128).2 (by decide) (by decide)⟩

/-- Claim C7 as stated fails: with base threshold 10, raising the bias from 0 to
5 neither raises the threshold nor holds it at the 225 clamp; both results are
the lower clamp 30. -/
theorem adjustThreshold_strict_counterexample :
    (0 : Int) < 5
    ∧ ¬ (adjustThreshold 0 10 < adjustThreshold 5 10
        ∨ (adjustThreshold 0 10 = 225 ∧ adjustThreshold 5 10 = 225)) := by
  decide

/-- Claim C7, amended: for a base threshold `t` and biases `a1 < a2` whose sums
with `t` are representable as an `int`, the threshold with bias `a2` is
strictly larger than with bias `a1`, or else both thresholds are equal and sit
at one of the two clamps, 30 or 225.  Read from `a2` to `a1` this is the
statement for a decreasing bias. -/
theorem adjustThreshold_monotone (t a1 a2 : Int) (h : a1 < a2)
    (hlo : -2147483648 ≤ t + a1) (hhi : t + a2 ≤ 2147483647) :
    adjustThreshold a1 t < adjustThreshold a2 t
    ∨ (adjustThreshold a1 t = adjustThreshold a2 t
        ∧ (adjustThreshold a2 t = 30 ∨ adjustThreshold a2 t = 225)) := by
  unfold adjustThreshold
  simp only [wrapI32_eq (t + a1) hlo (by omega), wrapI32_eq (t + a2) (by omega) hhi, qBound_eq]
  split_ifs <;> omega

/-- Claim C7 amended, at base threshold 128 with biases 0 and 5. -/
theorem adjustThreshold_monotone_witness :
    (0 : Int) < 5 ∧ (-2147483648 : Int) ≤ 128 + 0 ∧ (128 : Int) + 5 ≤ 2147483647
    ∧ (adjustThreshold 0 128 < adjustThreshold 5 128
      ∨ (adjustThreshold 0 128 = adjustThreshold 5 128
          ∧ (adjustThreshold 5 128 = 30 ∨ adjustThreshold 5 128 = 225))) :=
  ⟨by decide, by decide, by decide,
    adjustThreshold_monotone 128 0 5 (by decide) (by decide) (by decide)⟩

/-! ### Entry selection -/

/-- Claim C8: `processImpl` takes the dewarping path exactly when the mode is
AUTO, or MARGINAL, or MANUAL with a valid distortion model, and takes the path
without dewarping exactly in the remaining cases: mode OFF, or MANUAL with an
invalid model. -/
theorem processImpl_path_selection (mode : DewarpingMode) (modelValid : Bool) :
    (processImplPath mode modelValid = ProcessPath.processWithDewarping
      ↔ (mode = DewarpingMode.AUTO ∨ mode = DewarpingMode.MARGINAL
          ∨ (mode = DewarpingMode.MANUAL ∧ modelValid = true)))
    ∧ (processImplPath mode modelValid = ProcessPath.processWithoutDewarping
      ↔ (mode = DewarpingMode.OFF
          ∨ (mode = DewarpingMode.MANUAL ∧ modelValid = false))) := by
  cases mode <;> cases modelValid <;> decide

end output

namespace output

/-! ### Empty content rect -/

theorem filled_white_toQImage_uniformly (size : QSize) :
    (BinaryImage.filled size BWColor.WHITE).toQImage.uniformly Qt_white := by
  intro x y _ _
  simp [BinaryImage.toQImage, BinaryImage.isBlack, BinaryImage.filled]

theorem processWithoutDewarping_empty (g : OutputGenerator) (splitOutput : Bool)
    (rest : ProcessResult) (h : g.m_contentRect.isEmpty = true) :
    (processWithoutDewarping g splitOutput rest).uniformly Qt_white := by
  unfold processWithoutDewarping
  simp only [h, if_true]
  cases splitOutput
  · exact filled_white_toQImage_uniformly _
  · exact ⟨filled_white_toQImage_uniformly _, filled_white_toQImage_uniformly _⟩

theorem processWithDewarping_empty (g : OutputGenerator) (splitOutput : Bool)
    (rest : ProcessResult) (h : g.m_contentRect.isEmpty = true) :
    (processWithDewarping g splitOutput rest).uniformly Qt_white := by
  unfold processWithDewarping
  simp only [h, if_true]
  cases splitOutput
  · exact filled_white_toQImage_uniformly _
  · exact ⟨filled_white_toQImage_uniformly _, filled_white_toQImage_uniformly _⟩

/-- Claim C9 as stated fails: in colour mode with fill option BACKGROUND, a page
whose detected background colours are grey 0xFFC8C8C8 and black, and an empty
content rect, the output is not uniformly the fill colour of the canvas; its
pixel (0, 0) is white. -/
theorem emptyContent_fillColor_counterexample :
    emptyContentExample.m_contentRect.isEmpty = true
    ∧ emptyContentExample.m_colorMode = ColorMode.COLOR_GRAYSCALE
    ∧ ¬ (processImpl emptyContentExample false false noImage noImage).uniformly
          (canvasFillColor emptyContentExample.m_fillingColor false 0xFFC8C8C8 Qt_black) := by
  refine ⟨by decide, by decide, ?_⟩
  intro h
  have h0 := h 0 0 (by decide) (by decide)
  revert h0
  decide

/-- Claim C9, amended: if the content rect is empty, the generated output is
uniformly white in every colour mode and whatever the fill option, on the
dewarping path and on the path without dewarping: a 1-bit all-white image
`emptyImage` of the output size expanded to at least 1x1, which is the
returned image, or, for split output, the foreground layer, with its
conversion to 8 bits (same size, all white) as the background layer. -/
theorem emptyContent_output_white (g : OutputGenerator) (modelValid splitOutput : Bool)
    (restWithDewarping restWithoutDewarping : ProcessResult)
    (h : g.m_contentRect.isEmpty = true) :
    ∃ emptyImage background : ColorImage,
      (emptyImage.width : Int) = qMax g.outputImageSize.wd 1
      ∧ (emptyImage.height : Int) = qMax g.outputImageSize.ht 1
      ∧ 1 ≤ emptyImage.width ∧ 1 ≤ emptyImage.height
      ∧ emptyImage.depth = 1
      ∧ emptyImage.uniformly Qt_white
      ∧ background = emptyImage.convertToIndexed8
      ∧ background.width = emptyImage.width ∧ background.height = emptyImage.height
      ∧ background.depth = 8
      ∧ background.uniformly Qt_white
      ∧ processImpl g modelValid splitOutput restWithDewarping restWithoutDewarping
        = (if splitOutput then ProcessResult.splitLayers emptyImage background
          else ProcessResult.image emptyImage)
      ∧ processWithDewarping g splitOutput restWithDewarping
        = (if splitOutput then ProcessResult.splitLayers emptyImage background
          else ProcessResult.image emptyImage)
      ∧ processWithoutDewarping g splitOutput restWithoutDewarping
        = (if splitOutput then ProcessResult.splitLayers emptyImage background
          else ProcessResult.image emptyImage)
      ∧ (processImpl g modelValid splitOutput restWithDewarping
          restWithoutDewarping).uniformly Qt_white
      ∧ (processWithDewarping g splitOutput restWithDewarping).uniformly Qt_white
      ∧ (processWithoutDewarping g splitOutput restWithoutDewarping).uniformly Qt_white := by
  have hw : (1 : Int) ≤ qMax g.outputImageSize.wd 1 := by
    unfold qMax; split_ifs <;> omega
  have hh : (1 : Int) ≤ qMax g.outputImageSize.ht 1 := by
    unfold qMax; split_ifs <;> omega
  have hwith : processWithDewarping g splitOutput restWithDewarping
      = (if splitOutput then
          ProcessResult.splitLayers
            (BinaryImage.filled (g.m_outRect.size.expandedTo { wd := 1, ht := 1 })
              BWColor.WHITE).toQImage
            (BinaryImage.filled (g.m_outRect.size.expandedTo { wd := 1, ht := 1 })
              BWColor.WHITE).toQImage.convertToIndexed8
        else
          ProcessResult.image
            (BinaryImage.filled (g.m_outRect.size.expandedTo { wd := 1, ht := 1 })
              BWColor.WHITE).toQImage) := by
    unfold processWithDewarping
    simp only [h, if_true]
    cases splitOutput <;> rfl
  have hwithout : processWithoutDewarping g splitOutput restWithoutDewarping
      = (if splitOutput then
          ProcessResult.splitLayers
            (BinaryImage.filled (g.m_outRect.size.expandedTo { wd := 1, ht := 1 })
              BWColor.WHITE).toQImage
            (BinaryImage.filled (g.m_outRect.size.expandedTo { wd := 1, ht := 1 })
              BWColor.WHITE).toQImage.convertToIndexed8
        else
          ProcessResult.image
            (BinaryImage.filled (g.m_outRect.size.expandedTo { wd := 1, ht := 1 })
              BWColor.WHITE).toQImage) := by
    unfold processWithoutDewarping
    simp only [h, if_true]
    cases splitOutput <;> rfl
  have himpl : (processImpl g modelValid splitOutput restWithDewarping
      restWithoutDewarping).uniformly Qt_white := by
    unfold processImpl
    cases processImplPath g.m_dewarpingMode modelValid
    · exact processWithDewarping_empty g splitOutput _ h
    · exact processWithoutDewarping_empty g splitOutput _ h
  refine ⟨(BinaryImage.filled (g.m_outRect.size.expandedTo { wd := 1, ht := 1 })
      BWColor.WHITE).toQImage, _, ?_, ?_, ?_, ?_, rfl, filled_white_toQImage_uniformly _, rfl,
    rfl, rfl, rfl, filled_white_toQImage_uniformly _, ?_, hwith, hwithout, himpl,
    processWithDewarping_empty g splitOutput _ h,
    processWithoutDewarping_empty g splitOutput _ h⟩
  · show ((qMax g.m_outRect.size.wd 1).toNat : Int) = qMax g.outputImageSize.wd 1
    exact Int.toNat_of_nonneg (by unfold OutputGenerator.outputImageSize at hw; omega)
  · show ((qMax g.m_outRect.size.ht 1).toNat : Int) = qMax g.outputImageSize.ht 1
    exact Int.toNat_of_nonneg (by unfold OutputGenerator.outputImageSize at hh; omega)
  · show 1 ≤ (qMax g.m_outRect.size.wd 1).toNat
    unfold OutputGenerator.outputImageSize at hw; omega
  · show 1 ≤ (qMax g.m_outRect.size.ht 1).toNat
    unfold OutputGenerator.outputImageSize at hh; omega
  · unfold processImpl
    cases processImplPath g.m_dewarpingMode modelValid
    · exact hwith
    · exact hwithout

/-- Claim C9 amended, at the example generator with a 10x10 output rect and an
empty content rect, for split output: the foreground layer is a 1-bit white
image 10 wide and 10 high, the background layer the same at 8 bits. -/
theorem emptyContent_output_white_witness :
    emptyContentExample.m_contentRect.isEmpty = true
    ∧ ∃ emptyImage background : ColorImage,
      emptyImage.width = 10 ∧ emptyImage.height = 10 ∧ emptyImage.depth = 1
      ∧ emptyImage.uniformly Qt_white
      ∧ background.width = 10 ∧ background.height = 10 ∧ background.depth = 8
      ∧ background.uniformly Qt_white
      ∧ processImpl emptyContentExample false true noImage noImage
        = ProcessResult.splitLayers emptyImage background
      ∧ processWithDewarping emptyContentExample true noImage
        = ProcessResult.splitLayers emptyImage background
      ∧ processWithoutDewarping emptyContentExample true noImage
        = ProcessResult.splitLayers emptyImage background :=
  ⟨by decide,
    match emptyContent_output_white emptyContentExample false true noImage noImage
      (by decide) with
    | ⟨emptyImage, background, hw, hh, _, _, hd, hu, _, bw, bh, bd, bu, h1, h2, h3, _⟩ =>
      ⟨emptyImage, background,
        Int.ofNat_inj.mp (hw.trans (by decide)), Int.ofNat_inj.mp (hh.trans (by decide)),
        hd, hu, bw.trans (Int.ofNat_inj.mp (hw.trans (by decide))),
        bh.trans (Int.ofNat_inj.mp (hh.trans (by decide))), bd, bu, h1, h2, h3⟩⟩

/-! ### The content rect after construction -/

theorem QRect.intersected_within (a r : QRect) (ha : a.isEmpty = false)
    (hw : 0 ≤ r.width) (hh : 0 ≤ r.height) :
    (a.intersected r).isEmpty = true
    ∨ (r.x1 ≤ (a.intersected r).x1 ∧ (a.intersected r).x2 ≤ r.x2
        ∧ r.y1 ≤ (a.intersected r).y1 ∧ (a.intersected r).y2 ≤ r.y2) := by
  obtain ⟨a1, b1, a2, b2⟩ := a
  obtain ⟨c1, d1, c2, d2⟩ := r
  simp only [QRect.width, QRect.height] at hw hh
  have ha2 : a1 ≤ a2 ∧ b1 ≤ b2 := by
    simp only [QRect.isEmpty, Bool.or_eq_false_iff, decide_eq_false_iff_not] at ha
    omega
  unfold QRect.intersected
  by_cases hn : ((QRect.mk a1 b1 a2 b2).isNull || (QRect.mk c1 d1 c2 d2).isNull) = true
  · rw [if_pos hn]; left; rfl
  · rw [if_neg hn]
    have e1 : ¬ (a2 - a1 + 1 < 0) := by omega
    have e2 : ¬ (c2 - c1 + 1 < 0) := by omega
    have e3 : ¬ (b2 - b1 + 1 < 0) := by omega
    have e4 : ¬ (d2 - d1 + 1 < 0) := by omega
    simp only [e1, e2, e3, e4, if_false]
    by_cases hxo : a1 > c2 ∨ c1 > a2
    · rw [if_pos hxo]; left; rfl
    · rw [if_neg hxo]
      by_cases hyo : b1 > d2 ∨ d1 > b2
      · rw [if_pos hyo]; left; rfl
      · rw [if_neg hyo]
        right
        simp only [qMax, qMin]
        refine ⟨?_, ?_, ?_, ?_⟩ <;> split_ifs <;> omega

/-- Claim C10: after construction from an output rect with its top-left corner at
the origin and a non-negative size, the content rect is empty or every pixel
of it lies inside the rectangle at the origin of size `outputImageSize()`. -/
theorem contentRect_within_outRect (colorMode : ColorMode) (fillingColor : FillingColor)
    (dewarpingMode : DewarpingMode) (outRect contentRect : QRect)
    (hx : outRect.x1 = 0) (hy : outRect.y1 = 0)
    (hw : 0 ≤ outRect.width) (hh : 0 ≤ outRect.height) :
    (OutputGenerator.construct colorMode fillingColor dewarpingMode outRect
        contentRect).outputContentRect.isEmpty = true
    ∨ ∀ px py : Int,
        (OutputGenerator.construct colorMode fillingColor dewarpingMode outRect
            contentRect).outputContentRect.hasPixel px py →
        (OutputGenerator.construct colorMode fillingColor dewarpingMode outRect
            contentRect).outputImageSize.hasPixel px py := by
  by_cases he : contentRect.isEmpty = true
  · left
    simp [OutputGenerator.construct, OutputGenerator.outputContentRect, he]
  · have he2 : contentRect.isEmpty = false := by simpa using he
    rcases QRect.intersected_within contentRect outRect he2 hw hh with h | h
    · left
      simp [OutputGenerator.construct, OutputGenerator.outputContentRect, he2, h]
    · right
      intro px py hp
      simp only [OutputGenerator.construct, OutputGenerator.outputContentRect, he2,
        Bool.not_false, if_true, QRect.hasPixel] at hp
      simp only [OutputGenerator.construct, OutputGenerator.outputImageSize, QRect.size,
        QRect.width, QRect.height, QSize.hasPixel]
      omega

/-- Claim C10, at a 100x80 output rect and a mapped content rect overhanging it
by one pixel on the right and at the bottom. -/
theorem contentRect_within_outRect_witness :
    (QRect.mk 0 0 99 79).x1 = 0 ∧ (QRect.mk 0 0 99 79).y1 = 0
    ∧ 0 ≤ (QRect.mk 0 0 99 79).width ∧ 0 ≤ (QRect.mk 0 0 99 79).height
    ∧ ((OutputGenerator.construct ColorMode.MIXED FillingColor.WHITE DewarpingMode.OFF
          (QRect.mk 0 0 99 79) (QRect.mk 10 10 100 80)).outputContentRect.isEmpty = true
      ∨ ∀ px py : Int,
          (OutputGenerator.construct ColorMode.MIXED FillingColor.WHITE DewarpingMode.OFF
              (QRect.mk 0 0 99 79) (QRect.mk 10 10 100 80)).outputContentRect.hasPixel px py →
          (OutputGenerator.construct ColorMode.MIXED FillingColor.WHITE DewarpingMode.OFF
              (QRect.mk 0 0 99 79) (QRect.mk 10 10 100 80)).outputImageSize.hasPixel px py) :=
  ⟨by decide, by decide, by decide, by decide,
    contentRect_within_outRect ColorMode.MIXED FillingColor.WHITE DewarpingMode.OFF
      (QRect.mk 0 0 99 79) (QRect.mk 10 10 100 80) (by decide) (by decide) (by decide)
      (by decide)⟩

end output

namespace output

/-! ### Despeckling and the speckles image -/

/-- Claim C11: when `maybeDespeckleInPlace` is given a speckles image and the
despeckle collaborator only removes black pixels, then at every pixel of
`mask_rect` the speckles image is the image before minus the image after, and
the union of the speckles image and the image after is the image before. -/
theorem despeckle_round_trip (g : OutputGenerator)
    (despeckleInPlace : Bitmap → Despeckle.Level → Bitmap)
    (image : Bitmap) (image_rect mask_rect : QRect) (level : DespeckleLevel)
    (speckles_img : Bitmap)
    (hremove : ∀ img lvl x y, (despeckleInPlace img lvl).black x y = true → img.black x y = true)
    (px py : Int) (hp : mask_rect.hasPixel px py) :
    ∃ speckles,
      (maybeDespeckleInPlace g despeckleInPlace image image_rect mask_rect level
          (some speckles_img)).2 = some speckles
      ∧ speckles.black px py
          = (image.black (px - image_rect.x1) (py - image_rect.y1)
            && !((maybeDespeckleInPlace g despeckleInPlace image image_rect mask_rect level
                (some speckles_img)).1.black (px - image_rect.x1) (py - image_rect.y1)))
      ∧ (speckles.black px py
          || (maybeDespeckleInPlace g despeckleInPlace image image_rect mask_rect level
                (some speckles_img)).1.black (px - image_rect.x1) (py - image_rect.y1))
          = image.black (px - image_rect.x1) (py - image_rect.y1) := by
  have hne : mask_rect.isEmpty = false := by
    unfold QRect.hasPixel at hp
    simp only [QRect.isEmpty, Bool.or_eq_false_iff, decide_eq_false_iff_not]
    omega
  have hin : mask_rect.x1 ≤ px ∧ px ≤ mask_rect.x2 ∧ mask_rect.y1 ≤ py ∧ py ≤ mask_rect.y2 := hp
  have e1 : px - mask_rect.x1 + (mask_rect.x1 + -image_rect.x1) = px - image_rect.x1 := by omega
  have e2 : py - mask_rect.y1 + (mask_rect.y1 + -image_rect.y1) = py - image_rect.y1 := by omega
  refine ⟨_, rfl, ?_, ?_⟩
  · simp only [maybeDespeckleInPlace, Option.map_some', hne, Bool.not_false, if_true, rasterOp,
      hin, and_self, RopSubtract, RopDst, RopSrc, QRect.translated, QRect.topLeft, e1, e2]
  · simp only [maybeDespeckleInPlace, Option.map_some', hne, Bool.not_false, if_true, rasterOp,
      hin, and_self, RopSubtract, RopDst, RopSrc, QRect.translated, QRect.topLeft, e1, e2]
    by_cases hl : level = DespeckleLevel.DESPECKLE_OFF
    · simp [hl]
    · simp only [hl, ne_eq, not_false_eq_true, if_true]
      have := hremove image (despeckleLevelFor level) (px - image_rect.x1) (py - image_rect.y1)
      cases h1 : (despeckleInPlace image (despeckleLevelFor level)).black (px - image_rect.x1)
          (py - image_rect.y1)
      · simp
      · simp [this h1]

end output

namespace output

/-- Claim C11, at a 10x10 all-black image, a despeckler removing every black
pixel, and the pixel (3, 4) of the mask rect (0,0)-(9,9). -/
theorem despeckle_round_trip_witness :
    (∀ img lvl x y, (removeAllBlack img lvl).black x y = true → img.black x y = true)
    ∧ (QRect.mk 0 0 9 9).hasPixel 3 4
    ∧ ∃ speckles,
      (maybeDespeckleInPlace emptyContentExample removeAllBlack allBlackExample
          (QRect.mk 0 0 9 9) (QRect.mk 0 0 9 9) DespeckleLevel.DESPECKLE_NORMAL
          (some allBlackExample)).2 = some speckles
      ∧ speckles.black 3 4
          = (allBlackExample.black (3 - (QRect.mk 0 0 9 9).x1) (4 - (QRect.mk 0 0 9 9).y1)
            && !((maybeDespeckleInPlace emptyContentExample removeAllBlack allBlackExample
                (QRect.mk 0 0 9 9) (QRect.mk 0 0 9 9) DespeckleLevel.DESPECKLE_NORMAL
                (some allBlackExample)).1.black (3 - (QRect.mk 0 0 9 9).x1)
                  (4 - (QRect.mk 0 0 9 9).y1)))
      ∧ (speckles.black 3 4
          || (maybeDespeckleInPlace emptyContentExample removeAllBlack allBlackExample
                (QRect.mk 0 0 9 9) (QRect.mk 0 0 9 9) DespeckleLevel.DESPECKLE_NORMAL
                (some allBlackExample)).1.black (3 - (QRect.mk 0 0 9 9).x1)
                  (4 - (QRect.mk 0 0 9 9).y1))
          = allBlackExample.black (3 - (QRect.mk 0 0 9 9).x1) (4 - (QRect.mk 0 0 9 9).y1) :=
  ⟨by intro _ _ _ _ h; simp [removeAllBlack] at h, by unfold QRect.hasPixel; decide,
    despeckle_round_trip emptyContentExample removeAllBlack allBlackExample
      (QRect.mk 0 0 9 9) (QRect.mk 0 0 9 9) DespeckleLevel.DESPECKLE_NORMAL allBlackExample
      (by intro _ _ _ _ h; simp [removeAllBlack] at h) 3 4
      (by unfold QRect.hasPixel; decide)⟩

/-! ### The three passes of modifyBinarizationMask -/

theorem modifyBinarizationMaskPass_get (layer : PictureLayer) (color : BWColor)
    (zones : List Zone) (x y : Int) :
    ∀ bw_mask : Bitmap,
      (modifyBinarizationMaskPass layer color zones bw_mask).black x y
        = if coveredBy zones layer x y = true then decide (color = BWColor.BLACK)
          else bw_mask.black x y := by
  induction zones with
  | nil => intro m; rfl
  | cons z zs ih =>
    intro m
    unfold modifyBinarizationMaskPass at ih ⊢
    rw [List.foldl_cons, ih]
    simp only [coveredBy, List.any_cons]
    by_cases hz : z.layer = layer
    · by_cases hc : z.covers x y = true
      · simp [hz, hc, PolygonRasterizer.fill]
      · simp [hz, hc, PolygonRasterizer.fill]
    · simp [hz]

/-- Claim C12: after `modifyBinarizationMask` a pixel inside some ERASER3 zone is
black; otherwise a pixel inside some PAINTER2 zone is white; otherwise a pixel
inside some ERASER1 zone is black; and a pixel inside no zone of these three
layers keeps its value. -/
theorem modifyBinarizationMask_layers (bw_mask : Bitmap) (zones : List Zone) (x y : Int) :
    (modifyBinarizationMask bw_mask zones).black x y
      = if coveredBy zones PictureLayer.ERASER3 x y = true then true
        else if coveredBy zones PictureLayer.PAINTER2 x y = true then false
        else if coveredBy zones PictureLayer.ERASER1 x y = true then true
        else bw_mask.black x y := by
  unfold modifyBinarizationMask
  simp only [modifyBinarizationMaskPass_get]
  split_ifs <;> simp

end output

namespace output

/-- Claim C13 as stated fails: with an auto-detected picture zone over (2,2)-(5,5)
and an ERASER1 zone over (0,0)-(9,9) covering it, the pixel (3, 3) lies inside
the eraser zone and yet ends white in the mask: the picture zone is painted in
the second pass, after the ERASER1 pass. -/
theorem eraser1_over_picture_counterexample :
    (QRect.mk 0 0 9 9).covers 3 3 = true
    ∧ (QRect.mk 2 2 5 5).covers 3 3 = true
    ∧ (modifyBinarizationMask allBlackExample eraser1OverPictureExample).black 3 3 = false := by
  decide

/-- Claim C13, amended: for a zone set made of an auto-detected rectangular
picture zone and one eraser zone (covering it or not), whatever the mask held
before, a pixel inside the eraser zone ends black when the eraser layer is
ERASER3; when the eraser layer is ERASER1 it ends black outside the picture
zone and white inside it. -/
theorem eraser_over_picture_zone (bw_mask : Bitmap) (picture eraser : QRect)
    (role : PictureLayer) (hrole : role = PictureLayer.ERASER1 ∨ role = PictureLayer.ERASER3)
    (zones : List Zone)
    (hz : zones = [autoPictureZone picture, userZone role eraser]
      ∨ zones = [userZone role eraser, autoPictureZone picture])
    (x y : Int) (hp : eraser.covers x y = true) :
    (modifyBinarizationMask bw_mask zones).black x y
      = (decide (role = PictureLayer.ERASER3) || !picture.covers x y) := by
  unfold modifyBinarizationMask
  simp only [modifyBinarizationMaskPass_get]
  rcases hrole with h | h <;> rcases hz with hz | hz <;> subst h <;> subst hz <;>
    cases hc : picture.covers x y <;>
    simp [coveredBy, autoPictureZone, userZone, hp, hc]

/-- Claim C13 amended, at the picture zone (2,2)-(5,5), an ERASER3 zone over
(0,0)-(9,9) and the pixel (3, 3). -/
theorem eraser_over_picture_zone_witness :
    (PictureLayer.ERASER3 = PictureLayer.ERASER1 ∨ PictureLayer.ERASER3 = PictureLayer.ERASER3)
    ∧ (QRect.mk 0 0 9 9).covers 3 3 = true
    ∧ (modifyBinarizationMask allBlackExample
          [autoPictureZone (QRect.mk 2 2 5 5),
            userZone PictureLayer.ERASER3 (QRect.mk 0 0 9 9)]).black 3 3
        = (decide (PictureLayer.ERASER3 = PictureLayer.ERASER3)
            || !(QRect.mk 2 2 5 5).covers 3 3) :=
  ⟨by decide, by decide,
    eraser_over_picture_zone allBlackExample (QRect.mk 2 2 5 5) (QRect.mk 0 0 9 9)
      PictureLayer.ERASER3 (by decide) _ (Or.inl rfl) 3 3 (by decide)⟩

end output

namespace output

/-! ### The dewarp fallback -/

/-- Claim C14: if the dewarp of the normalized original raises a runtime error,
the distortion model is replaced by the trivial model and `dewarp` is called
exactly once more, on the trivial model; the outcome of the block is the
outcome of that second call, so the first error does not leave the block and
an error of the retry leaves it without a further call. -/
theorem dewarp_fallback_once {Model Img : Type} (dewarp : Model → Except Exception Img)
    (setupTrivialDistortionModel : Model → Model) (distortion_model : Model)
    (h : dewarp distortion_model = Except.error Exception.runtime_error) :
    (dewarpWithFallback dewarp setupTrivialDistortionModel distortion_model []).2.2
        = [distortion_model, setupTrivialDistortionModel distortion_model]
    ∧ (dewarpWithFallback dewarp setupTrivialDistortionModel distortion_model []).2.1
        = setupTrivialDistortionModel distortion_model
    ∧ (dewarpWithFallback dewarp setupTrivialDistortionModel distortion_model []).1
        = dewarp (setupTrivialDistortionModel distortion_model) := by
  simp [dewarpWithFallback, dewarpLogged, h]

/-- Claim C14, at the example collaborator with the impossible model 0 and the
trivial model 1: two calls, on 0 and on 1, and the image of the second. -/
theorem dewarp_fallback_once_witness :
    dewarpExample 0 = Except.error Exception.runtime_error
    ∧ (dewarpWithFallback dewarpExample (fun _ => 1) 0 []).2.2 = [0, (fun _ => 1) 0]
    ∧ (dewarpWithFallback dewarpExample (fun _ => 1) 0 []).2.1 = (fun _ => 1) 0
    ∧ (dewarpWithFallback dewarpExample (fun _ => 1) 0 []).1 = dewarpExample ((fun _ => 1) 0) :=
  ⟨rfl, dewarp_fallback_once dewarpExample (fun _ => 1) 0 rfl⟩

/-! ### SplittingOptions and XML -/

/-- Claim C17: the object read back from `s.toXml(...)` equals `s` under
`operator==`, for either flag and either foreground type, and
`parseForegroundType(formatForegroundType(t)) = t`. -/
theorem splittingOptions_xml_round_trip (s : SplittingOptions) (name : String)
    (t : ForegroundType) :
    (SplittingOptions.fromXml (s.toXml name)).eq s = true
    ∧ SplittingOptions.fromXml (s.toXml name) = s
    ∧ SplittingOptions.parseForegroundType (SplittingOptions.formatForegroundType t) = t := by
  obtain ⟨so, ft⟩ := s
  refine ⟨?_, ?_, ?_⟩
  · cases so <;> cases ft <;> rfl
  · cases so <;> cases ft <;> rfl
  · cases t <;> rfl

/-! ### Deskew -/

/-- Claim C20: `maybe_deskew` returns the detected skew angle and rotates the
image by it exactly when post-deskew is enabled, the mode is MARGINAL or
MANUAL, the detected angle is non-zero and the confidence is at least
`Skew::GOOD_CONFIDENCE`; in every other case it returns 0 and leaves the image
unchanged; and `deskew` with angle 0 is the identity. -/
theorem maybe_deskew_spec {Img : Type} (GOOD_CONFIDENCE : ℚ) (findSkew : Img → Skew)
    (transform : Img → ℚ → Nat → Img) (p_dewarped : Img)
    (m_dewarpingOptions : DewarpingOptions) (outside_color : Nat) :
    maybe_deskew GOOD_CONFIDENCE findSkew transform p_dewarped m_dewarpingOptions outside_color
      = (if m_dewarpingOptions.needPostDeskew = true
            ∧ (m_dewarpingOptions.mode = DewarpingMode.MARGINAL
              ∨ m_dewarpingOptions.mode = DewarpingMode.MANUAL)
            ∧ (findSkew p_dewarped).angle ≠ 0
            ∧ GOOD_CONFIDENCE ≤ (findSkew p_dewarped).confidence then
          ((findSkew p_dewarped).angle,
            transform p_dewarped (findSkew p_dewarped).angle outside_color)
        else (0, p_dewarped))
    ∧ deskew transform p_dewarped 0 outside_color = p_dewarped := by
  constructor
  · unfold maybe_deskew deskew
    by_cases h1 : m_dewarpingOptions.needPostDeskew = true
        ∧ (m_dewarpingOptions.mode = DewarpingMode.MARGINAL
          ∨ m_dewarpingOptions.mode = DewarpingMode.MANUAL)
    · by_cases h2 : (findSkew p_dewarped).angle ≠ 0
          ∧ (findSkew p_dewarped).confidence ≥ GOOD_CONFIDENCE
      · have h3 : m_dewarpingOptions.needPostDeskew = true
            ∧ (m_dewarpingOptions.mode = DewarpingMode.MARGINAL
              ∨ m_dewarpingOptions.mode = DewarpingMode.MANUAL)
            ∧ (findSkew p_dewarped).angle ≠ 0
            ∧ GOOD_CONFIDENCE ≤ (findSkew p_dewarped).confidence :=
          ⟨h1.1, h1.2, h2.1, h2.2⟩
        rw [if_pos h1, if_pos h3]
        simp only [if_pos h2, if_neg h2.1]
      · have h3 : ¬ (m_dewarpingOptions.needPostDeskew = true
            ∧ (m_dewarpingOptions.mode = DewarpingMode.MARGINAL
              ∨ m_dewarpingOptions.mode = DewarpingMode.MANUAL)
            ∧ (findSkew p_dewarped).angle ≠ 0
            ∧ GOOD_CONFIDENCE ≤ (findSkew p_dewarped).confidence) :=
          fun h => h2 ⟨h.2.2.1, h.2.2.2⟩
        rw [if_pos h1, if_neg h3]
        simp only [if_neg h2]
    · have h3 : ¬ (m_dewarpingOptions.needPostDeskew = true
          ∧ (m_dewarpingOptions.mode = DewarpingMode.MARGINAL
            ∨ m_dewarpingOptions.mode = DewarpingMode.MANUAL)
          ∧ (findSkew p_dewarped).angle ≠ 0
          ∧ GOOD_CONFIDENCE ≤ (findSkew p_dewarped).confidence) :=
        fun h => h1 ⟨h.1, h.2.1⟩
      rw [if_neg h1, if_neg h3]
  · unfold deskew
    rw [if_pos rfl]

end output

namespace output

/-! ### binarize -/

/-- Claim C18, the behaviour of the code: when the crop polygon contains the
whole image rectangle and no mask is given, `binarize(image, crop_area)` returns
the image thresholded at the adjusted Otsu threshold, whatever binarization
method is configured. -/
theorem binarizeCropped_fast_path_is_otsu {Img : Type} (ip : Imageproc Img)
    (blackWhiteOptions : BlackWhiteOptions) (whiteOnBlackMode : Bool) (image : Img)
    (crop_area : List QPointF)
    (hcontains : ip.pathContains crop_area (ip.rect image) = true) :
    binarizeCropped ip blackWhiteOptions whiteOnBlackMode image crop_area none
      = ip.threshold image
          (adjustThreshold blackWhiteOptions.thresholdAdjustment (ip.otsuThreshold image)) := by
  unfold binarizeCropped
  rw [if_pos ⟨hcontains, rfl⟩]

/-- Claim C18, at the example collaborators with the Sauvola method configured
and a uniform image of gray level 100: `binarize(image, crop_area)` gives the
Otsu result, with pixel (0, 0) black, while the configured method gives it
white. -/
theorem binarizeCropped_fast_path_is_otsu_witness :
    exampleImageproc.pathContains [] (exampleImageproc.rect (fun _ _ => 100)) = true
    ∧ binarizeCropped exampleImageproc sauvolaOptionsExample false (fun _ _ => 100) [] none
        = exampleImageproc.threshold (fun _ _ => 100)
            (adjustThreshold sauvolaOptionsExample.thresholdAdjustment
              (exampleImageproc.otsuThreshold (fun _ _ => 100)))
    ∧ (binarizeCropped exampleImageproc sauvolaOptionsExample false (fun _ _ => 100) []
          none).black 0 0 = true
    ∧ (binarize exampleImageproc sauvolaOptionsExample false (fun _ _ => 100)).black 0 0
        = false :=
  ⟨rfl,
    binarizeCropped_fast_path_is_otsu exampleImageproc sauvolaOptionsExample false
      (fun _ _ => 100) [] rfl,
    by decide, by decide⟩

/-- Claim C19: for every image, every mask and each of the three methods, a pixel
of `binarize(image, mask)` is black exactly when it is black in
`binarize(image)` and black in the mask; a white mask pixel gives a white
pixel. -/
theorem binarizeMasked_is_and {Img : Type} (ip : Imageproc Img)
    (blackWhiteOptions : BlackWhiteOptions) (whiteOnBlackMode : Bool) (image : Img)
    (mask : Bitmap) (x y : Int)
    (hx : 0 ≤ x ∧ x < (binarize ip blackWhiteOptions whiteOnBlackMode image).width)
    (hy : 0 ≤ y ∧ y < (binarize ip blackWhiteOptions whiteOnBlackMode image).height) :
    (binarizeMasked ip blackWhiteOptions whiteOnBlackMode image mask).black x y
        = ((binarize ip blackWhiteOptions whiteOnBlackMode image).black x y && mask.black x y)
    ∧ (mask.black x y = false →
        (binarizeMasked ip blackWhiteOptions whiteOnBlackMode image mask).black x y = false) := by
  have hin : (0 : Int) ≤ x
      ∧ x ≤ (binarize ip blackWhiteOptions whiteOnBlackMode image).width - 1
      ∧ (0 : Int) ≤ y
      ∧ y ≤ (binarize ip blackWhiteOptions whiteOnBlackMode image).height - 1 := by omega
  have e : (binarizeMasked ip blackWhiteOptions whiteOnBlackMode image mask).black x y
      = ((binarize ip blackWhiteOptions whiteOnBlackMode image).black x y
          && mask.black x y) := by
    simp only [binarizeMasked, rasterOpFull, rasterOp, hin, and_self, if_true, RopAnd, RopSrc,
      RopDst, sub_zero, add_zero]
    exact Bool.and_comm _ _
  refine ⟨e, fun hm => ?_⟩
  rw [e, hm, Bool.and_false]

/-- Claim C19, at the example collaborators with the Sauvola method, a uniform
image of gray level 10, an all-white mask and the pixel (2, 3). -/
theorem binarizeMasked_is_and_witness :
    ((0 : Int) ≤ 2
      ∧ (2 : Int) < (binarize exampleImageproc sauvolaOptionsExample false
          (fun _ _ => 10)).width)
    ∧ ((0 : Int) ≤ 3
      ∧ (3 : Int) < (binarize exampleImageproc sauvolaOptionsExample false
          (fun _ _ => 10)).height)
    ∧ (Bitmap.mk 10 10 (fun _ _ => false)).black 2 3 = false
    ∧ (binarizeMasked exampleImageproc sauvolaOptionsExample false (fun _ _ => 10)
          (Bitmap.mk 10 10 (fun _ _ => false))).black 2 3
        = ((binarize exampleImageproc sauvolaOptionsExample false (fun _ _ => 10)).black 2 3
            && (Bitmap.mk 10 10 (fun _ _ => false)).black 2 3)
    ∧ (binarizeMasked exampleImageproc sauvolaOptionsExample false (fun _ _ => 10)
          (Bitmap.mk 10 10 (fun _ _ => false))).black 2 3 = false :=
  ⟨by decide, by decide, rfl,
    (binarizeMasked_is_and exampleImageproc sauvolaOptionsExample false (fun _ _ => 10)
      (Bitmap.mk 10 10 (fun _ _ => false)) 2 3 (by decide) (by decide)).1,
    (binarizeMasked_is_and exampleImageproc sauvolaOptionsExample false (fun _ _ => 10)
      (Bitmap.mk 10 10 (fun _ _ => false)) 2 3 (by decide) (by decide)).2 rfl⟩

end output

namespace output

/-! ### OutputImageParams::matches -/

theorem qFuzzyIsNull_zero : qFuzzyIsNull 0 = true := by
  unfold qFuzzyIsNull
  simp

theorem pointEq_self (p : QPointF) : p.eq p = true := by
  unfold QPointF.eq
  simp [qFuzzyIsNull_zero]

theorem polygonEq_self (poly : List QPointF) : QPolygonF.eq poly poly = true := by
  induction poly with
  | nil => rfl
  | cons p ps ih => simp [QPolygonF.eq, pointEq_self, ih]

/-! ### Rounding to double -/

theorem roundHalfEven_natCast (n : ℕ) : roundHalfEven (n : ℚ) = n := by
  unfold roundHalfEven
  simp

theorem roundHalfEven_le_succ (m : ℚ) : roundHalfEven m ≤ ⌊m⌋₊ + 1 := by
  unfold roundHalfEven
  simp only
  split_ifs <;> omega

theorem floor_le_roundHalfEven (m : ℚ) : ⌊m⌋₊ ≤ roundHalfEven m := by
  unfold roundHalfEven
  simp only
  split_ifs <;> omega

theorem roundHalfEven_mono (a b : ℚ) (hab : a ≤ b) :
    roundHalfEven a ≤ roundHalfEven b := by
  have hf : ⌊a⌋₊ ≤ ⌊b⌋₊ := Nat.floor_mono hab
  rcases Nat.lt_or_ge ⌊a⌋₊ ⌊b⌋₊ with hlt | hge
  · calc roundHalfEven a ≤ ⌊a⌋₊ + 1 := roundHalfEven_le_succ a
      _ ≤ ⌊b⌋₊ := hlt
      _ ≤ roundHalfEven b := floor_le_roundHalfEven b
  · have heq : ⌊a⌋₊ = ⌊b⌋₊ := le_antisymm hf hge
    unfold roundHalfEven
    simp only [heq]
    split_ifs <;> first | omega | linarith

theorem roundMagnitudeToDouble_nonneg (a : ℚ) : 0 ≤ roundMagnitudeToDouble a := by
  unfold roundMagnitudeToDouble
  positivity

theorem roundMagnitudeToDouble_zero : roundMagnitudeToDouble 0 = 0 := by
  unfold roundMagnitudeToDouble
  simp [roundHalfEven]

theorem natPow_mul_zpow (k : ℕ) (e f : ℤ) (h : e + k = f) :
    ((2 ^ k : ℕ) : ℚ) * 2 ^ e = 2 ^ f := by
  rw [Nat.cast_pow, Nat.cast_ofNat, ← zpow_natCast, ← zpow_add₀ (by norm_num), add_comm, h]

theorem roundMagnitudeToDouble_le_pow (a : ℚ) :
    roundMagnitudeToDouble a ≤ 2 ^ (max (Int.log 2 a) (-1022) + 1) := by
  unfold roundMagnitudeToDouble
  simp only
  set e := max (Int.log 2 a) (-1022) with he
  have hulp : (0 : ℚ) < 2 ^ (e - 52) := by positivity
  have h1 : a < 2 ^ (Int.log 2 a + 1) := Int.lt_zpow_succ_log_self (by norm_num) a
  have h2 : (2 : ℚ) ^ (Int.log 2 a + 1) ≤ 2 ^ (e + 1) :=
    zpow_le_zpow_right₀ (by norm_num) (by have := le_max_left (Int.log 2 a) (-1022); omega)
  have h3 : a / 2 ^ (e - 52) ≤ ((2 ^ 53 : ℕ) : ℚ) := by
    rw [div_le_iff₀ hulp]
    have : (((2 ^ 53 : ℕ) : ℚ)) * 2 ^ (e - 52) = 2 ^ (e + 1) :=
      natPow_mul_zpow 53 (e - 52) (e + 1) (by push_cast; ring)
    rw [this]
    linarith
  have h4 := roundHalfEven_mono _ _ h3
  rw [roundHalfEven_natCast] at h4
  have h5 : ((roundHalfEven (a / 2 ^ (e - 52)) : ℕ) : ℚ) ≤ ((2 ^ 53 : ℕ) : ℚ) := by
    exact_mod_cast h4
  calc ((roundHalfEven (a / 2 ^ (e - 52)) : ℕ) : ℚ) * 2 ^ (e - 52)
      ≤ ((2 ^ 53 : ℕ) : ℚ) * 2 ^ (e - 52) := mul_le_mul_of_nonneg_right h5 hulp.le
    _ = 2 ^ (e + 1) := natPow_mul_zpow 53 (e - 52) (e + 1) (by push_cast; ring)

theorem pow_le_roundMagnitudeToDouble (a : ℚ) (ha : 0 < a) (hnormal : -1022 ≤ Int.log 2 a) :
    2 ^ (Int.log 2 a) ≤ roundMagnitudeToDouble a := by
  unfold roundMagnitudeToDouble
  simp only
  rw [max_eq_left hnormal]
  set e := Int.log 2 a with he
  have hulp : (0 : ℚ) < 2 ^ (e - 52) := by positivity
  have h1 : (2 : ℚ) ^ e ≤ a := Int.zpow_log_le_self (by norm_num) ha
  have hmul : (((2 ^ 52 : ℕ) : ℚ)) * 2 ^ (e - 52) = 2 ^ e :=
    natPow_mul_zpow 52 (e - 52) e (by push_cast; ring)
  have h3 : ((2 ^ 52 : ℕ) : ℚ) ≤ a / 2 ^ (e - 52) := by
    rw [le_div_iff₀ hulp, hmul]
    exact h1
  have h4 := roundHalfEven_mono _ _ h3
  rw [roundHalfEven_natCast] at h4
  have h5 : ((2 ^ 52 : ℕ) : ℚ) ≤ ((roundHalfEven (a / 2 ^ (e - 52)) : ℕ) : ℚ) := by
    exact_mod_cast h4
  calc (2 : ℚ) ^ e = ((2 ^ 52 : ℕ) : ℚ) * 2 ^ (e - 52) := hmul.symm
    _ ≤ _ := mul_le_mul_of_nonneg_right h5 hulp.le

theorem roundMagnitudeToDouble_mono (a b : ℚ) (ha : 0 ≤ a) (hab : a ≤ b) :
    roundMagnitudeToDouble a ≤ roundMagnitudeToDouble b := by
  rcases eq_or_lt_of_le ha with h0 | hpos
  · rw [← h0, roundMagnitudeToDouble_zero]
    exact roundMagnitudeToDouble_nonneg b
  · have hb : 0 < b := lt_of_lt_of_le hpos hab
    have hlog : Int.log 2 a ≤ Int.log 2 b := Int.log_mono_right hpos hab
    have hmax : max (Int.log 2 a) (-1022) ≤ max (Int.log 2 b) (-1022) :=
      max_le_max hlog (le_refl _)
    rcases eq_or_lt_of_le hmax with heq | hlt
    · unfold roundMagnitudeToDouble
      simp only [heq]
      have hulp : (0 : ℚ) < 2 ^ (max (Int.log 2 b) (-1022) - 52) := by positivity
      have hdiv : a / 2 ^ (max (Int.log 2 b) (-1022) - 52)
          ≤ b / 2 ^ (max (Int.log 2 b) (-1022) - 52) :=
        div_le_div_of_nonneg_right hab hulp.le
      have := roundHalfEven_mono _ _ hdiv
      exact mul_le_mul_of_nonneg_right (by exact_mod_cast this) hulp.le
    · have hnormal : -1022 ≤ Int.log 2 b := by
        by_contra hcon
        push_neg at hcon
        rw [max_eq_right hcon.le] at hlt
        have := le_max_right (Int.log 2 a) (-1022)
        omega
      have hb2 : max (Int.log 2 b) (-1022) = Int.log 2 b := max_eq_left hnormal
      rw [hb2] at hlt
      calc roundMagnitudeToDouble a ≤ 2 ^ (max (Int.log 2 a) (-1022) + 1) :=
            roundMagnitudeToDouble_le_pow a
        _ ≤ 2 ^ (Int.log 2 b) := zpow_le_zpow_right₀ (by norm_num) (by omega)
        _ ≤ roundMagnitudeToDouble b := pow_le_roundMagnitudeToDouble b hb hnormal

theorem abs_roundToDouble (x : ℚ) : |roundToDouble x| = roundMagnitudeToDouble |x| := by
  unfold roundToDouble
  split_ifs with h
  · rw [abs_neg, abs_of_nonneg (roundMagnitudeToDouble_nonneg _), abs_of_neg h]
  · push_neg at h
    rw [abs_of_nonneg (roundMagnitudeToDouble_nonneg _), abs_of_nonneg h]

theorem log_tolerance (a : ℚ) (h1 : 1 / 16384 ≤ a) (h2 : a < 1 / 8192) : Int.log 2 a = -14 := by
  have hpos : 0 < a := lt_of_lt_of_le (by norm_num) h1
  apply le_antisymm
  · have : Int.log 2 a < -13 := by
      rw [← Int.lt_zpow_iff_log_lt (by norm_num) hpos]
      norm_num
      linarith
    omega
  · rw [← Int.zpow_le_iff_le_log (by norm_num) hpos]
    norm_num
    linarith

theorem roundMagnitudeToDouble_tolerance (a : ℚ) (n : ℕ) (h1 : 1 / 16384 ≤ a)
    (h2 : a < 1 / 8192) (hn : roundHalfEven (a * 2 ^ 66) = n) :
    roundMagnitudeToDouble a = n / 2 ^ 66 := by
  unfold roundMagnitudeToDouble
  simp only
  rw [log_tolerance a h1 h2]
  have hulp : (2 : ℚ) ^ (max (-14 : ℤ) (-1022) - 52) = 1 / 2 ^ 66 := by
    norm_num [zpow_neg]
  rw [hulp]
  have : a / (1 / 2 ^ 66) = a * 2 ^ 66 := by field_simp
  rw [this, hn]
  ring

theorem roundHalfEven_of_floor (m : ℚ) (n : ℕ) (h1 : (n : ℚ) ≤ m) (h2 : m < n + 1) :
    ⌊m⌋₊ = n := by
  rw [Nat.floor_eq_iff (le_trans (Nat.cast_nonneg n) h1)]
  exact ⟨h1, h2⟩

theorem roundToDouble_tolerance : roundToDouble (1 / 10000) = 7378697629483821 / 2 ^ 66 := by
  unfold roundToDouble
  rw [if_neg (by norm_num)]
  have h := roundMagnitudeToDouble_tolerance (1 / 10000) 7378697629483821 (by norm_num)
    (by norm_num) (by
      have hf : ⌊(1 / 10000 : ℚ) * 2 ^ 66⌋₊ = 7378697629483820 :=
        roundHalfEven_of_floor _ _ (by norm_num) (by norm_num)
      unfold roundHalfEven
      simp only [hf]
      norm_num)
  rw [h]
  norm_num

theorem roundMagnitudeToDouble_below_tolerance :
    roundMagnitudeToDouble (7378697629483820 / 2 ^ 66) = 7378697629483820 / 2 ^ 66 := by
  have h := roundMagnitudeToDouble_tolerance (7378697629483820 / 2 ^ 66) 7378697629483820
    (by norm_num) (by norm_num) (by
      have : (7378697629483820 / 2 ^ 66 : ℚ) * 2 ^ 66 = ((7378697629483820 : ℕ) : ℚ) := by
        norm_num
      rw [this, roundHalfEven_natCast])
  rw [h]
  norm_num

theorem closeEnough_of_le (v1 v2 : ℚ) (h : |v1 - v2| ≤ 7378697629483820 / 2 ^ 66) :
    PartialXform.closeEnough v1 v2 = true := by
  unfold PartialXform.closeEnough
  rw [decide_eq_true_eq, abs_roundToDouble, roundToDouble_tolerance]
  have h1 := roundMagnitudeToDouble_mono _ _ (abs_nonneg (v1 - v2)) h
  rw [roundMagnitudeToDouble_below_tolerance] at h1
  refine lt_of_le_of_lt h1 ?_
  norm_num

theorem closeEnough_self (v : ℚ) : PartialXform.closeEnough v v = true := by
  apply closeEnough_of_le
  rw [sub_self, abs_zero]
  positivity

/-- The subtraction can round up to the constant: the values `0.0001` (as a
`double`) and `3 / 2 ^ 69` differ by less than 1e-4, and `closeEnough` is
false for them. -/
theorem closeEnough_rounds_up :
    |(7378697629483821 / 2 ^ 66 : ℚ) - 3 / 2 ^ 69| < 1 / 10000
    ∧ PartialXform.closeEnough (7378697629483821 / 2 ^ 66) (3 / 2 ^ 69) = false := by
  refine ⟨by norm_num [abs_lt], ?_⟩
  unfold PartialXform.closeEnough
  rw [decide_eq_false_iff_not, abs_roundToDouble, roundToDouble_tolerance, not_lt]
  have habs : |(7378697629483821 / 2 ^ 66 : ℚ) - 3 / 2 ^ 69| = 59029581035870565 / 2 ^ 69 := by
    rw [abs_of_nonneg (by norm_num)]
    norm_num
  rw [habs]
  have h := roundMagnitudeToDouble_tolerance (59029581035870565 / 2 ^ 69) 7378697629483821
    (by norm_num) (by norm_num) (by
      have hf : ⌊(59029581035870565 / 2 ^ 69 : ℚ) * 2 ^ 66⌋₊ = 7378697629483820 :=
        roundHalfEven_of_floor _ _ (by norm_num) (by norm_num)
      unfold roundHalfEven
      simp only [hf]
      norm_num)
  rw [h]
  norm_num

theorem colorParamsMatch_self (cp : ColorParams) (dl : DespeckleLevel) (so : SplittingOptions) :
    colorParamsMatch cp dl so cp dl so = true := by
  unfold colorParamsMatch
  cases cp.colorMode <;> simp

theorem matches_of_parts (modelMatches : DistortionModel → DistortionModel → Bool)
    (hrefl : ∀ m, modelMatches m m = true) (p q : OutputImageParams)
    (h1 : p.m_size = q.m_size) (h2 : p.m_contentRect = q.m_contentRect)
    (h3 : QPolygonF.eq p.m_cropArea q.m_cropArea = true)
    (h4 : p.m_partialXform.matches q.m_partialXform = true)
    (h5 : p.m_dpi = q.m_dpi) (h6 : p.m_colorParams = q.m_colorParams)
    (h7 : p.m_despeckleLevel = q.m_despeckleLevel)
    (h8 : p.m_splittingOptions = q.m_splittingOptions)
    (h9 : p.m_pictureShapeOptions = q.m_pictureShapeOptions)
    (h10 : p.m_dewarpingOptions = q.m_dewarpingOptions)
    (h11 : p.m_distortionModel = q.m_distortionModel)
    (h12 : p.m_depthPerception = q.m_depthPerception)
    (h13 : p.m_outputProcessingParams = q.m_outputProcessingParams) :
    OutputImageParams.matches modelMatches p q = true := by
  unfold OutputImageParams.matches
  simp [h1, h2, h3, h4, h5, h6, h7, h8, h9, h10, h11, h12, h13, hrefl, colorParamsMatch_self]

/-- Claim C15: `OutputImageParams::matches` is reflexive, for every parameter set
with finite numeric fields (taken as rationals) and with
`DistortionModel::matches` reflexive. -/
theorem matches_reflexive (modelMatches : DistortionModel → DistortionModel → Bool)
    (hrefl : ∀ m, modelMatches m m = true) (p : OutputImageParams) :
    OutputImageParams.matches modelMatches p p = true := by
  apply matches_of_parts modelMatches hrefl p p <;> first
    | rfl
    | exact polygonEq_self _
    | simp [PartialXform.matches, closeEnough_self]

/-- Claim C15, at the example parameters of a page under the identity, with
equality of distortion models as their `matches`. -/
theorem matches_reflexive_witness :
    (∀ m : DistortionModel, (fun a b => decide (a = b)) m m = true)
    ∧ OutputImageParams.matches (fun a b => decide (a = b))
        (OutputImageParams.forPage (ImageTransformation.hscaleExample 1))
        (OutputImageParams.forPage (ImageTransformation.hscaleExample 1)) = true :=
  ⟨fun m => by simp,
    matches_reflexive (fun a b => decide (a = b)) (fun m => by simp)
      (OutputImageParams.forPage (ImageTransformation.hscaleExample 1))⟩

end output

namespace output

/-- Claim C16 as stated fails: the parameters of the same page built from the
identity and from the horizontal scaling by 1.00005, whose matrices differ only
in `m11` and by less than 1e-4, do not match, because the crop areas stored
from the two transformations differ (1000 against 1000.05 in `x`). -/
theorem matches_tolerance_counterexample :
    |(QTransform.hscale 1).m11 - (QTransform.hscale (20001 / 20000)).m11| < 1 / 10000
    ∧ (QTransform.hscale 1).m12 = (QTransform.hscale (20001 / 20000)).m12
    ∧ (QTransform.hscale 1).m13 = (QTransform.hscale (20001 / 20000)).m13
    ∧ (QTransform.hscale 1).m21 = (QTransform.hscale (20001 / 20000)).m21
    ∧ (QTransform.hscale 1).m22 = (QTransform.hscale (20001 / 20000)).m22
    ∧ (QTransform.hscale 1).m23 = (QTransform.hscale (20001 / 20000)).m23
    ∧ (QTransform.hscale 1).m31 = (QTransform.hscale (20001 / 20000)).m31
    ∧ (QTransform.hscale 1).m32 = (QTransform.hscale (20001 / 20000)).m32
    ∧ (QTransform.hscale 1).m33 = (QTransform.hscale (20001 / 20000)).m33
    ∧ OutputImageParams.matches (fun a b => decide (a = b))
        (OutputImageParams.forPage (ImageTransformation.hscaleExample 1))
        (OutputImageParams.forPage (ImageTransformation.hscaleExample (20001 / 20000)))
      = false := by
  refine ⟨?_, rfl, rfl, rfl, rfl, rfl, rfl, rfl, rfl, ?_⟩
  · simp only [QTransform.hscale]
    norm_num [abs_lt]
  · have hcrop : QPolygonF.eq
        (OutputImageParams.forPage (ImageTransformation.hscaleExample 1)).m_cropArea
        (OutputImageParams.forPage
          (ImageTransformation.hscaleExample (20001 / 20000))).m_cropArea = false := by
      simp only [OutputImageParams.forPage, OutputImageParams.construct,
        ImageTransformation.hscaleExample, QPolygonF.eq, QPointF.eq, qFuzzyIsNull]
      norm_num [abs_le]
    unfold OutputImageParams.matches
    rw [hcrop]
    simp [OutputImageParams.forPage, OutputImageParams.construct]

/-- Claim C16, amended: two parameter sets constructed with all other arguments
equal, from transformations whose matrix coefficients `m11`, `m12`, `m21`,
`m22` each differ, as exact numbers, by at most `7378697629483820 / 2 ^ 66`
(the largest `double` below the constant `0.0001`, so by any amount up to
0.00009999999999999999) and whose crop areas `resultingPreCropArea()` are
equal, match, the subtraction in `closeEnough` being rounded to `double`
(`DistortionModel::matches` reflexive). -/
theorem matches_tolerant (modelMatches : DistortionModel → DistortionModel → Bool)
    (hrefl : ∀ m, modelMatches m m = true)
    (out_image_size : QSize) (content_rect : QRect) (xform1 xform2 : ImageTransformation)
    (dpi : Dpi) (color_params : ColorParams) (splitting_options : SplittingOptions)
    (dewarping_options : DewarpingOptions) (distortion_model : DistortionModel)
    (depth_perception : DepthPerception) (despeckle_level : DespeckleLevel)
    (picture_shape_options : PictureShapeOptions)
    (output_processing_params : OutputProcessingParams)
    (h11 : |xform1.transformWithoutPostCrop.m11 - xform2.transformWithoutPostCrop.m11|
      ≤ 7378697629483820 / 2 ^ 66)
    (h12 : |xform1.transformWithoutPostCrop.m12 - xform2.transformWithoutPostCrop.m12|
      ≤ 7378697629483820 / 2 ^ 66)
    (h21 : |xform1.transformWithoutPostCrop.m21 - xform2.transformWithoutPostCrop.m21|
      ≤ 7378697629483820 / 2 ^ 66)
    (h22 : |xform1.transformWithoutPostCrop.m22 - xform2.transformWithoutPostCrop.m22|
      ≤ 7378697629483820 / 2 ^ 66)
    (hcrop : QPolygonF.eq xform1.resultingPreCropArea xform2.resultingPreCropArea = true) :
    OutputImageParams.matches modelMatches
      (OutputImageParams.construct out_image_size content_rect xform1 dpi color_params
        splitting_options dewarping_options distortion_model depth_perception despeckle_level
        picture_shape_options output_processing_params)
      (OutputImageParams.construct out_image_size content_rect xform2 dpi color_params
        splitting_options dewarping_options distortion_model depth_perception despeckle_level
        picture_shape_options output_processing_params) = true := by
  apply matches_of_parts modelMatches hrefl <;> first
    | rfl
    | exact hcrop
    | simp [OutputImageParams.construct, PartialXform.matches, PartialXform.ofTransform,
        closeEnough_of_le _ _ h11, closeEnough_of_le _ _ h12, closeEnough_of_le _ _ h21,
        closeEnough_of_le _ _ h22]

/-- Claim C16 amended, at the example page with the crop area kept and the
matrix scaled horizontally by 1.00005: `m11` differs by 0.00005, the other
coefficients not at all. -/
theorem matches_tolerant_witness :
    (∀ m : DistortionModel, (fun a b => decide (a = b)) m m = true)
    ∧ |(ImageTransformation.sameCropExample 1).transformWithoutPostCrop.m11
        - (ImageTransformation.sameCropExample (20001 / 20000)).transformWithoutPostCrop.m11|
      ≤ 7378697629483820 / 2 ^ 66
    ∧ (99999 / 1000000000 : ℚ) ≤ 7378697629483820 / 2 ^ 66
    ∧ QPolygonF.eq (ImageTransformation.sameCropExample 1).resultingPreCropArea
        (ImageTransformation.sameCropExample (20001 / 20000)).resultingPreCropArea = true
    ∧ OutputImageParams.matches (fun a b => decide (a = b))
        (OutputImageParams.forPage (ImageTransformation.sameCropExample 1))
        (OutputImageParams.forPage (ImageTransformation.sameCropExample (20001 / 20000)))
      = true :=
  have hm11 : |(ImageTransformation.sameCropExample 1).transformWithoutPostCrop.m11
      - (ImageTransformation.sameCropExample (20001 / 20000)).transformWithoutPostCrop.m11|
      ≤ 7378697629483820 / 2 ^ 66 := by
    simp only [ImageTransformation.sameCropExample, QTransform.hscale]
    norm_num [abs_le]
  have hzero : |(0 : ℚ) - 0| ≤ 7378697629483820 / 2 ^ 66 := by norm_num
  have hone : |(1 : ℚ) - 1| ≤ 7378697629483820 / 2 ^ 66 := by norm_num
  ⟨fun m => by simp, hm11, by norm_num, polygonEq_self _,
    matches_tolerant (fun a b => decide (a = b)) (fun m => by simp)
      { wd := 1000, ht := 1000 } { x1 := 0, y1 := 0, x2 := 999, y2 := 999 }
      (ImageTransformation.sameCropExample 1)
      (ImageTransformation.sameCropExample (20001 / 20000))
      { horizontal := 600, vertical := 600 }
      { colorMode := ColorMode.COLOR_GRAYSCALE
        blackWhiteOptions := sauvolaOptionsExample
        colorCommonOptions := { fillingColor := FillingColor.WHITE } }
      { splitOutput := false, foregroundType := ForegroundType.BLACK_AND_WHITE_FOREGROUND }
      { mode := DewarpingMode.OFF, needPostDeskew := false }
      { topCurve := [], bottomCurve := [] } { value := 2 } DespeckleLevel.DESPECKLE_OFF
      { pictureShape := PictureShape.FREE_SHAPE, sensitivity := 100 }
      { autoZonesFound := false, whiteOnBlackAutoDetected := false, whiteOnBlackMode := false }
      hm11 hzero hzero hone (polygonEq_self _)⟩

end output

namespace output

/-! ### colorParamsMatch by colour mode -/

end output

namespace output

/-- Claim C29, the behaviour of the code: for the output rect (0,0)-(99,99) and the
non-empty mapped content rect (200,200)-(250,250), which lies outside it, the
intersection stored in `m_contentRect` is the null rect (0,0)-(-1,-1); the
output rect does not contain its bottom-right corner (-1,-1), so the asserted
condition is false. -/
theorem constructorAssertion_fails_when_disjoint :
    (QRect.mk 0 0 99 99).topLeft = QPoint.mk 0 0
    ∧ (QRect.mk 200 200 250 250).isEmpty = false
    ∧ (OutputGenerator.construct ColorMode.MIXED FillingColor.WHITE DewarpingMode.OFF
        (QRect.mk 0 0 99 99) (QRect.mk 200 200 250 250)).m_contentRect = QRect.null
    ∧ (QRect.mk 0 0 99 99).contains QRect.null.bottomRight = false
    ∧ (OutputGenerator.construct ColorMode.MIXED FillingColor.WHITE DewarpingMode.OFF
        (QRect.mk 0 0 99 99) (QRect.mk 200 200 250 250)).constructorAssertion = false := by
  decide

/-! ### calcBinarizationThreshold -/

/-- Claim C28, the behaviour of the code: when the crop area contains the whole
image rectangle, `calcBinarizationThreshold(image, crop_area, mask)` is the
adjusted Otsu threshold of the whole image, whatever mask is given. -/
theorem calcBinarizationThreshold_ignores_mask {Img : Type} (ip : Imageproc Img)
    (otsuThresholdMasked : Img → Bitmap → Int) (blackWhiteOptions : BlackWhiteOptions)
    (image : Img) (crop_area : List QPointF) (mask : Option Bitmap)
    (hcontains : ip.pathContains crop_area (ip.rect image) = true) :
    calcBinarizationThreshold ip otsuThresholdMasked blackWhiteOptions image crop_area mask
      = adjustThreshold blackWhiteOptions.thresholdAdjustment (ip.otsuThreshold image) := by
  unfold calcBinarizationThreshold
  rw [if_pos hcontains]

/-- Claim C28, at the example collaborators, a uniform image of gray level 100 and
an all-white mask (everything is picture): the code gives the threshold 128 of
the whole image, while the threshold of the pixels black in the mask is 90. -/
theorem calcBinarizationThreshold_ignores_mask_witness :
    exampleImageproc.pathContains [] (exampleImageproc.rect (fun _ _ => 100)) = true
    ∧ calcBinarizationThreshold exampleImageproc otsuThresholdMaskedExample
        sauvolaOptionsExample (fun _ _ => 100) []
        (some { width := 10, height := 10, black := fun _ _ => false })
      = adjustThreshold sauvolaOptionsExample.thresholdAdjustment
          (exampleImageproc.otsuThreshold (fun _ _ => 100))
    ∧ calcBinarizationThreshold exampleImageproc otsuThresholdMaskedExample
        sauvolaOptionsExample (fun _ _ => 100) []
        (some { width := 10, height := 10, black := fun _ _ => false }) = 128
    ∧ maskedThresholdSpec exampleImageproc otsuThresholdMaskedExample sauvolaOptionsExample
        (fun _ _ => 100) [] { width := 10, height := 10, black := fun _ _ => false } = 90 :=
  ⟨rfl,
    calcBinarizationThreshold_ignores_mask exampleImageproc otsuThresholdMaskedExample
      sauvolaOptionsExample (fun _ _ => 100) []
      (some { width := 10, height := 10, black := fun _ _ => false }) rfl,
    by decide, by decide⟩

end output

namespace output

/-! ### dewarp with an empty model domain -/

/-- Claim C25, the behaviour of the code: when the model domain is empty, `dewarp`
returns an image of the size of `src`, not of `m_outRect.size()`, with every
pixel white, whatever `bg_color` is. -/
theorem dewarp_empty_domain_has_src_size {Model Dewarper : Type} (g : OutputGenerator)
    (createDewarper : Model → Except Exception Dewarper)
    (modelDomain : Model → Dewarper → QRect → QRect)
    (rasterDewarp : ColorImage → QSize → Dewarper → QRect → Nat → ColorImage)
    (src : ColorImage) (distortion_model : Model) (bg_color : Nat) (dewarper : Dewarper)
    (hcreate : createDewarper distortion_model = Except.ok dewarper)
    (hempty : (modelDomain distortion_model dewarper g.outputContentRect).isEmpty = true) :
    ∃ out,
      g.dewarp createDewarper modelDomain rasterDewarp src distortion_model bg_color
        = Except.ok out
      ∧ out.width = src.width ∧ out.height = src.height ∧ out.uniformly Qt_white := by
  refine ⟨GrayImage.filled src.width src.height 0xff, ?_, rfl, rfl, ?_⟩
  · unfold OutputGenerator.dewarp
    rw [hcreate]
    simp only [hempty, if_true]
  · intro x y _ _
    rfl

/-- Claim C25, at a 2000x3000 source image, a 1000x1500 output rect and an empty
model domain: the image returned is 2000 wide, while the output image size is
1000 wide, the width returned for a non-empty domain. -/
theorem dewarp_empty_domain_has_src_size_witness :
    (fun (_ : Nat) => (Except.ok () : Except Exception Unit)) 0 = Except.ok ()
    ∧ ((fun (_ : Nat) (_ : Unit) (_ : QRect) => QRect.null) 0 ()
        dewarpGeneratorExample.outputContentRect).isEmpty = true
    ∧ (∃ out,
        dewarpGeneratorExample.dewarp (fun (_ : Nat) => (Except.ok () : Except Exception Unit))
            (fun _ _ _ => QRect.null) rasterDewarpExample scanExample 0 0xFF112233
          = Except.ok out
        ∧ out.width = scanExample.width ∧ out.height = scanExample.height
        ∧ out.uniformly Qt_white)
    ∧ scanExample.width = 2000
    ∧ dewarpGeneratorExample.outputImageSize.wd = 1000
    ∧ (rasterDewarpExample scanExample dewarpGeneratorExample.m_outRect.size ()
        (QRect.mk 0 0 9 9) 0xFF112233).width = 1000 :=
  ⟨rfl, by decide,
    dewarp_empty_domain_has_src_size dewarpGeneratorExample
      (fun (_ : Nat) => (Except.ok () : Except Exception Unit)) (fun _ _ _ => QRect.null)
      rasterDewarpExample scanExample 0 0xFF112233 () rfl (by decide),
    rfl, by decide, by decide⟩

end output

namespace output

/-! ### Vertical border skew correction -/

/-- Claim C27: in the vertical border skew correction of AUTO dewarping the top
curve of the distortion model is never modified, for every page side and every
order of the end-point `x` coordinates: when the border angle exceeds 2.75 the
bottom curve alone is replaced, by a polyline built from the bottom polyline
or from the top polyline with one point added, and when the angle is at most
2.75 the model is unchanged. -/
theorem vertBorderSkew_keeps_top_curve (vert_border_skew_angle : QPointF → QPointF → ℚ)
    (toFloat : ℚ → ℚ) (transform inv_transform : QPointF → QPointF) (subPage : SubPage)
    (distortion_model : DistortionModel) (angle : ℚ)
    (hangle : borderSkewAngle vert_border_skew_angle transform subPage distortion_model
      = some angle) :
    ∃ m,
      vertBorderSkewCorrection vert_border_skew_angle toFloat transform inv_transform subPage
          distortion_model = some m
      ∧ m.topCurve = distortion_model.topCurve
      ∧ (angle ≤ 11 / 4 → m = distortion_model)
      ∧ (11 / 4 < angle → ∃ pt,
          m.bottomCurve = pt :: (distortion_model.bottomCurve.map transform).map inv_transform
          ∨ m.bottomCurve = pt :: (distortion_model.topCurve.map transform).map inv_transform
          ∨ m.bottomCurve
              = (distortion_model.bottomCurve.map transform).map inv_transform ++ [pt]
          ∨ m.bottomCurve
              = (distortion_model.topCurve.map transform).map inv_transform ++ [pt]) := by
  unfold borderSkewAngle at hangle
  unfold vertBorderSkewCorrection
  cases subPage
  · simp only [reduceCtorEq, if_false] at hangle
    simp only [true_or, if_true]
    cases ht : (distortion_model.topCurve.map transform).head? with
    | none => simp [ht] at hangle
    | some tf =>
      cases hb : (distortion_model.bottomCurve.map transform).head? with
      | none => simp [ht, hb] at hangle
      | some bf =>
        simp only [ht, hb, Option.some.injEq] at hangle
        subst hangle
        simp only
        by_cases ha : vert_border_skew_angle tf bf > 11 / 4
        · rw [if_pos ha]
          by_cases hx : toFloat tf.xp < toFloat bf.xp
          · rw [if_pos hx]
            exact ⟨_, rfl, rfl, fun h => absurd ha (not_lt.mpr h), fun _ => ⟨_, Or.inl rfl⟩⟩
          · rw [if_neg hx]
            exact ⟨_, rfl, rfl, fun h => absurd ha (not_lt.mpr h),
              fun _ => ⟨_, Or.inr (Or.inl rfl)⟩⟩
        · rw [if_neg ha]
          exact ⟨_, rfl, rfl, fun _ => rfl, fun h => absurd h ha⟩
  · simp only [reduceCtorEq, if_false] at hangle
    simp only [or_true, if_true]
    cases ht : (distortion_model.topCurve.map transform).head? with
    | none => simp [ht] at hangle
    | some tf =>
      cases hb : (distortion_model.bottomCurve.map transform).head? with
      | none => simp [ht, hb] at hangle
      | some bf =>
        simp only [ht, hb, Option.some.injEq] at hangle
        subst hangle
        simp only
        by_cases ha : vert_border_skew_angle tf bf > 11 / 4
        · rw [if_pos ha]
          by_cases hx : toFloat tf.xp < toFloat bf.xp
          · rw [if_pos hx]
            exact ⟨_, rfl, rfl, fun h => absurd ha (not_lt.mpr h), fun _ => ⟨_, Or.inl rfl⟩⟩
          · rw [if_neg hx]
            exact ⟨_, rfl, rfl, fun h => absurd ha (not_lt.mpr h),
              fun _ => ⟨_, Or.inr (Or.inl rfl)⟩⟩
        · rw [if_neg ha]
          exact ⟨_, rfl, rfl, fun _ => rfl, fun h => absurd h ha⟩
  · simp only [if_true] at hangle
    simp only [reduceCtorEq, or_self, if_false]
    cases ht : (distortion_model.topCurve.map transform).getLast? with
    | none => simp [ht] at hangle
    | some tf =>
      cases hb : (distortion_model.bottomCurve.map transform).getLast? with
      | none => simp [ht, hb] at hangle
      | some bf =>
        simp only [ht, hb, Option.some.injEq] at hangle
        subst hangle
        simp only
        by_cases ha : vert_border_skew_angle tf bf > 11 / 4
        · rw [if_pos ha]
          by_cases hx : toFloat tf.xp > toFloat bf.xp
          · rw [if_pos hx]
            exact ⟨_, rfl, rfl, fun h => absurd ha (not_lt.mpr h),
              fun _ => ⟨_, Or.inr (Or.inr (Or.inl rfl))⟩⟩
          · rw [if_neg hx]
            exact ⟨_, rfl, rfl, fun h => absurd ha (not_lt.mpr h),
              fun _ => ⟨_, Or.inr (Or.inr (Or.inr rfl))⟩⟩
        · rw [if_neg ha]
          exact ⟨_, rfl, rfl, fun _ => rfl, fun h => absurd h ha⟩

end output

namespace output

/-- Claim C27, at the example model of a left page whose border leans: the angle
is 5, above 2.75; the correction returns a model with the same top curve and a
bottom curve with one point added. -/
theorem vertBorderSkew_keeps_top_curve_witness :
    borderSkewAngle borderAngleExample id SubPage.LEFT_PAGE leaningModelExample = some 5
    ∧ ∃ m,
      vertBorderSkewCorrection borderAngleExample id id id SubPage.LEFT_PAGE
          leaningModelExample = some m
      ∧ m.topCurve = leaningModelExample.topCurve
      ∧ ∃ pt,
          m.bottomCurve = pt :: (leaningModelExample.bottomCurve.map id).map id
          ∨ m.bottomCurve = pt :: (leaningModelExample.topCurve.map id).map id
          ∨ m.bottomCurve = (leaningModelExample.bottomCurve.map id).map id ++ [pt]
          ∨ m.bottomCurve = (leaningModelExample.topCurve.map id).map id ++ [pt] :=
  ⟨by decide,
    match vertBorderSkew_keeps_top_curve borderAngleExample id id id SubPage.LEFT_PAGE
        leaningModelExample 5 (by decide) with
    | ⟨m, h1, h2, _, h4⟩ => ⟨m, h1, h2, h4 (by norm_num)⟩⟩

/-! ### PropertySet -/

theorem locateFrom_some_split (castable : Nat → Nat → Bool) (T : Nat) (props : List Property)
    (obj : Property) (h : PropertySet.locateFrom castable T props = some obj) :
    castable obj.dynType T = true
    ∧ ∃ before after, props = before ++ obj :: after
        ∧ ∀ q ∈ before, castable q.dynType T = false := by
  induction props with
  | nil => simp [PropertySet.locateFrom] at h
  | cons p rest ih =>
    unfold PropertySet.locateFrom at h
    by_cases hp : castable p.dynType T = true
    · rw [if_pos hp] at h
      cases h
      exact ⟨hp, [], rest, rfl, by simp⟩
    · rw [if_neg hp] at h
      obtain ⟨hc, before, after, hsplit, hbefore⟩ := ih h
      refine ⟨hc, p :: before, after, by rw [hsplit]; rfl, ?_⟩
      intro q hq
      rcases List.mem_cons.mp hq with hq | hq
      · subst hq; simpa using hp
      · exact hbefore q hq

theorem locateFrom_append_new (castable : Nat → Nat → Bool) (T : Nat) (props : List Property)
    (newT : Property) (hnew : castable newT.dynType T = true)
    (h : PropertySet.locateFrom castable T props = none) :
    PropertySet.locateFrom castable T (props ++ [newT]) = some newT := by
  induction props with
  | nil => simp [PropertySet.locateFrom, hnew]
  | cons p rest ih =>
    unfold PropertySet.locateFrom at h
    by_cases hp : castable p.dynType T = true
    · rw [if_pos hp] at h; cases h
    · rw [if_neg hp] at h
      rw [List.cons_append]
      unfold PropertySet.locateFrom
      rw [if_neg hp]
      exact ih h

/-- Claim C23: `locateOrCreate<T>` returns the first stored property of type `T`
in insertion order and leaves the set unchanged if there is one; otherwise it
appends exactly one new `T` and returns it.  After the call `locate<T>`
returns that same object, a second `locateOrCreate<T>` returns it again
without growing the set, and `locate<T>` and `locateOrDefault<T>` leave the
set as it was. -/
theorem locateOrCreate_finds_or_inserts (castable : Nat → Nat → Bool) (T : Nat)
    (newT newT2 : Property) (s : PropertySet)
    (hnew : castable newT.dynType T = true) :
    (match (PropertySet.locate castable T s).1 with
      | some obj =>
        PropertySet.locateOrCreate castable T newT s = (obj, s)
        ∧ ∃ before after, s.m_props = before ++ obj :: after
            ∧ ∀ q ∈ before, castable q.dynType T = false
      | none =>
        PropertySet.locateOrCreate castable T newT s
          = (newT, { m_props := s.m_props ++ [newT] }))
    ∧ (PropertySet.locate castable T (PropertySet.locateOrCreate castable T newT s).2).1
        = some (PropertySet.locateOrCreate castable T newT s).1
    ∧ PropertySet.locateOrCreate castable T newT2
          (PropertySet.locateOrCreate castable T newT s).2
        = PropertySet.locateOrCreate castable T newT s
    ∧ (PropertySet.locate castable T s).2 = s
    ∧ (PropertySet.locateOrDefault castable T newT s).2 = s := by
  cases h : PropertySet.locateFrom castable T s.m_props with
  | none =>
    have h2 := locateFrom_append_new castable T s.m_props newT hnew h
    simp only [PropertySet.locate, PropertySet.locateOrCreate, PropertySet.locateOrDefault, h,
      h2, and_self]
  | some obj =>
    have h2 := locateFrom_some_split castable T s.m_props obj h
    simp only [PropertySet.locate, PropertySet.locateOrCreate, PropertySet.locateOrDefault, h,
      and_self, true_and]
    exact ⟨h2.2, trivial⟩

/-- Claim C23, at a set holding properties of types 1 and 2, asked for type 3: one
object is appended. -/
theorem locateOrCreate_finds_or_inserts_witness :
    (fun a b => decide (a = b)) (Property.mk 30 3).dynType 3 = true
    ∧ PropertySet.locateOrCreate (fun a b => decide (a = b)) 3 (Property.mk 30 3)
        { m_props := [Property.mk 10 1, Property.mk 20 2] }
      = (Property.mk 30 3, { m_props := [Property.mk 10 1, Property.mk 20 2, Property.mk 30 3] })
    ∧ PropertySet.locateOrCreate (fun a b => decide (a = b)) 3 (Property.mk 40 3)
        (PropertySet.locateOrCreate (fun a b => decide (a = b)) 3 (Property.mk 30 3)
          { m_props := [Property.mk 10 1, Property.mk 20 2] }).2
      = PropertySet.locateOrCreate (fun a b => decide (a = b)) 3 (Property.mk 30 3)
          { m_props := [Property.mk 10 1, Property.mk 20 2] } :=
  ⟨by decide, by decide,
    (locateOrCreate_finds_or_inserts (fun a b => decide (a = b)) 3 (Property.mk 30 3)
      (Property.mk 40 3) { m_props := [Property.mk 10 1, Property.mk 20 2] } (by decide)).2.2.1⟩

end output

namespace output

/-! ### Binary output without dewarping -/

/-- Claim C24: in black-and-white mode without dewarping, with despeckling off and
no fill zones, the image returned has the size of the output rect expanded to
at least 1x1, and every pixel of it outside the content rectangle copied into
it has the configured fill colour: white for the fill option WHITE, the
detected black-or-white background colour for BACKGROUND. -/
theorem binary_output_margin_fill {Img : Type} (g : OutputGenerator) (ip : Imageproc Img)
    (blackWhiteOptions : BlackWhiteOptions) (whiteOnBlackMode : Bool)
    (despeckleInPlace : Bitmap → Despeckle.Level → Bitmap)
    (fillMarginsInPlace : Bitmap → List QPointF → BWColor → Bitmap)
    (morphologicalSmoothInPlace : Bitmap → Bitmap) (needMorphologicalSmoothing : Bool)
    (maybe_smoothed : Img) (normalize_illumination_crop_area : List QPointF)
    (outsideBackgroundColorBW : Nat) (contentRect normalize_illumination_rect : QRect)
    (despeckleLevel : DespeckleLevel) (speckles_image : Option Bitmap)
    (fill_zones : List FillZone)
    (hlevel : despeckleLevel = DespeckleLevel.DESPECKLE_OFF) (hzones : fill_zones = [])
    (x y : Int) (hout : ¬ contentRect.hasPixel x y) :
    (processWithoutDewarpingBinary g ip blackWhiteOptions whiteOnBlackMode despeckleInPlace
        fillMarginsInPlace morphologicalSmoothInPlace needMorphologicalSmoothing maybe_smoothed
        normalize_illumination_crop_area outsideBackgroundColorBW contentRect
        normalize_illumination_rect despeckleLevel speckles_image fill_zones).1.width
      = (g.m_outRect.size.expandedTo { wd := 1, ht := 1 }).wd
    ∧ (processWithoutDewarpingBinary g ip blackWhiteOptions whiteOnBlackMode despeckleInPlace
        fillMarginsInPlace morphologicalSmoothInPlace needMorphologicalSmoothing maybe_smoothed
        normalize_illumination_crop_area outsideBackgroundColorBW contentRect
        normalize_illumination_rect despeckleLevel speckles_image fill_zones).1.height
      = (g.m_outRect.size.expandedTo { wd := 1, ht := 1 }).ht
    ∧ (processWithoutDewarpingBinary g ip blackWhiteOptions whiteOnBlackMode despeckleInPlace
        fillMarginsInPlace morphologicalSmoothInPlace needMorphologicalSmoothing maybe_smoothed
        normalize_illumination_crop_area outsideBackgroundColorBW contentRect
        normalize_illumination_rect despeckleLevel speckles_image fill_zones).1.black x y
      = configuredFillIsBlack g outsideBackgroundColorBW := by
  subst hlevel hzones
  have hout2 : ¬ (contentRect.x1 ≤ x ∧ x ≤ contentRect.x2 ∧ contentRect.y1 ≤ y
      ∧ y ≤ contentRect.y2) := hout
  cases hf : g.m_fillingColor <;>
    simp [processWithoutDewarpingBinary, maybeDespeckleInPlace, applyFillZonesInPlace, rasterOp,
      Bitmap.filled, Bitmap.fill, configuredFillIsBlack, hf, hout2]

end output

namespace output

/-- Claim C24, at the example generator with fill option BACKGROUND, a black
detected background and the pixel (0, 0) outside the content rectangle
(10,10)-(89,69): the pixel is black. -/
theorem binary_output_margin_fill_witness :
    DespeckleLevel.DESPECKLE_OFF = DespeckleLevel.DESPECKLE_OFF
    ∧ ([] : List FillZone) = []
    ∧ ¬ (QRect.mk 10 10 89 69).hasPixel 0 0
    ∧ (processWithoutDewarpingBinary binaryGeneratorExample exampleImageproc
          sauvolaOptionsExample false removeAllBlack (fun img _ _ => img) (fun img => img) false
          (fun _ _ => 100) [] Qt_black (QRect.mk 10 10 89 69) (QRect.mk 5 5 94 74)
          DespeckleLevel.DESPECKLE_OFF none []).1.width
        = (binaryGeneratorExample.m_outRect.size.expandedTo { wd := 1, ht := 1 }).wd
    ∧ (processWithoutDewarpingBinary binaryGeneratorExample exampleImageproc
          sauvolaOptionsExample false removeAllBlack (fun img _ _ => img) (fun img => img) false
          (fun _ _ => 100) [] Qt_black (QRect.mk 10 10 89 69) (QRect.mk 5 5 94 74)
          DespeckleLevel.DESPECKLE_OFF none []).1.height
        = (binaryGeneratorExample.m_outRect.size.expandedTo { wd := 1, ht := 1 }).ht
    ∧ (processWithoutDewarpingBinary binaryGeneratorExample exampleImageproc
          sauvolaOptionsExample false removeAllBlack (fun img _ _ => img) (fun img => img) false
          (fun _ _ => 100) [] Qt_black (QRect.mk 10 10 89 69) (QRect.mk 5 5 94 74)
          DespeckleLevel.DESPECKLE_OFF none []).1.black 0 0
        = configuredFillIsBlack binaryGeneratorExample Qt_black :=
  ⟨rfl, rfl, by unfold QRect.hasPixel; decide,
    binary_output_margin_fill binaryGeneratorExample exampleImageproc sauvolaOptionsExample
      false removeAllBlack (fun img _ _ => img) (fun img => img) false (fun _ _ => 100) []
      Qt_black (QRect.mk 10 10 89 69) (QRect.mk 5 5 94 74) DespeckleLevel.DESPECKLE_OFF none []
      rfl rfl 0 0 (by unfold QRect.hasPixel; decide)⟩

end output

namespace output

/-! ### Auto picture zones -/

/-- Claim C22: in the picture-mask step of mixed output with the RECTANGULAR picture
shape, if `isAutoZonesFound` is true on entry no picture mask is estimated, the
picture zones and the settings store are left as they were and the mask before
the user zone edits is all black; if it is false on entry the zones of
category RECTANGULAR_OUTLINE are removed, one zone per rectangularized area is
added and the flag is true on exit, in the member and in the store.  With any
other picture shape the flag is false on exit. -/
theorem autoZones_found_once (pictureShape : PictureShape) (sensitivity : Int)
    (estimateBinarizationMask : Bitmap) (rectangularizeAreas : Bitmap → Int → List QRect)
    (small_margins_size : QSize) (picture_zones : List Zone)
    (params : OutputProcessingParams) (settings : Settings) :
    (params.autoZonesFound = true →
      (autoPictureMaskStep PictureShape.RECTANGULAR_SHAPE sensitivity estimateBinarizationMask
          rectangularizeAreas small_margins_size picture_zones params settings).maskEstimated
        = false
      ∧ (autoPictureMaskStep PictureShape.RECTANGULAR_SHAPE sensitivity estimateBinarizationMask
          rectangularizeAreas small_margins_size picture_zones params settings).picture_zones
        = picture_zones
      ∧ (autoPictureMaskStep PictureShape.RECTANGULAR_SHAPE sensitivity estimateBinarizationMask
          rectangularizeAreas small_margins_size picture_zones params settings).settings
        = settings
      ∧ (autoPictureMaskStep PictureShape.RECTANGULAR_SHAPE sensitivity estimateBinarizationMask
          rectangularizeAreas small_margins_size picture_zones params settings).stages = []
      ∧ ∀ x y,
        (autoPictureMaskStep PictureShape.RECTANGULAR_SHAPE sensitivity estimateBinarizationMask
          rectangularizeAreas small_margins_size picture_zones params settings).bw_mask.black x y
          = true)
    ∧ (params.autoZonesFound = false →
      (autoPictureMaskStep PictureShape.RECTANGULAR_SHAPE sensitivity estimateBinarizationMask
          rectangularizeAreas small_margins_size picture_zones params settings).picture_zones
        = (picture_zones.filter fun zone =>
              !decide (zone.category = ZoneCategory.RECTANGULAR_OUTLINE))
            ++ (rectangularizeAreas estimateBinarizationMask sensitivity).map autoPictureZone
      ∧ (autoPictureMaskStep PictureShape.RECTANGULAR_SHAPE sensitivity estimateBinarizationMask
          rectangularizeAreas small_margins_size picture_zones params
          settings).m_outputProcessingParams.autoZonesFound = true
      ∧ (autoPictureMaskStep PictureShape.RECTANGULAR_SHAPE sensitivity estimateBinarizationMask
          rectangularizeAreas small_margins_size picture_zones params
          settings).settings.outputProcessingParams.autoZonesFound = true)
    ∧ (pictureShape ≠ PictureShape.RECTANGULAR_SHAPE →
      (autoPictureMaskStep pictureShape sensitivity estimateBinarizationMask
          rectangularizeAreas small_margins_size picture_zones params
          settings).m_outputProcessingParams.autoZonesFound = false) := by
  refine ⟨fun h => ?_, fun h => ?_, fun h => ?_⟩
  · simp [autoPictureMaskStep, h, Bitmap.filled]
  · simp [autoPictureMaskStep, h, applyStage]
  · simp [autoPictureMaskStep, h]

/-- Claim C22, at three inputs: the flag set on entry; the flag clear on entry with
one old outline zone and two areas found; and the free picture shape. -/
theorem autoZones_found_once_witness :
    doneSettingsExample.outputProcessingParams.autoZonesFound = true
    ∧ (autoPictureMaskStep PictureShape.RECTANGULAR_SHAPE 100 allBlackExample
          (fun _ _ => [QRect.mk 1 1 3 3, QRect.mk 5 5 8 8]) { wd := 10, ht := 10 } []
          doneSettingsExample.outputProcessingParams doneSettingsExample).maskEstimated = false
    ∧ freshSettingsExample.outputProcessingParams.autoZonesFound = false
    ∧ (autoPictureMaskStep PictureShape.RECTANGULAR_SHAPE 100 allBlackExample
          (fun _ _ => [QRect.mk 1 1 3 3, QRect.mk 5 5 8 8]) { wd := 10, ht := 10 }
          [autoPictureZone (QRect.mk 0 0 1 1)]
          freshSettingsExample.outputProcessingParams
          freshSettingsExample).m_outputProcessingParams.autoZonesFound = true
    ∧ PictureShape.FREE_SHAPE ≠ PictureShape.RECTANGULAR_SHAPE
    ∧ (autoPictureMaskStep PictureShape.FREE_SHAPE 100 allBlackExample
          (fun _ _ => [QRect.mk 1 1 3 3, QRect.mk 5 5 8 8]) { wd := 10, ht := 10 } []
          doneSettingsExample.outputProcessingParams
          doneSettingsExample).m_outputProcessingParams.autoZonesFound = false :=
  ⟨rfl,
    ((autoZones_found_once PictureShape.RECTANGULAR_SHAPE 100 allBlackExample
      (fun _ _ => [QRect.mk 1 1 3 3, QRect.mk 5 5 8 8]) { wd := 10, ht := 10 } []
      doneSettingsExample.outputProcessingParams doneSettingsExample).1 rfl).1,
    rfl,
    ((autoZones_found_once PictureShape.RECTANGULAR_SHAPE 100 allBlackExample
      (fun _ _ => [QRect.mk 1 1 3 3, QRect.mk 5 5 8 8]) { wd := 10, ht := 10 }
      [autoPictureZone (QRect.mk 0 0 1 1)] freshSettingsExample.outputProcessingParams
      freshSettingsExample).2.1 rfl).2.1,
    by decide,
    (autoZones_found_once PictureShape.FREE_SHAPE 100 allBlackExample
      (fun _ _ => [QRect.mk 1 1 3 3, QRect.mk 5 5 8 8]) { wd := 10, ht := 10 } []
      doneSettingsExample.outputProcessingParams doneSettingsExample).2.2 (by decide)⟩

/-! ### Cancellation and the settings store -/

end output

namespace output

/-! ### The rotation loops of hitMissReplaceAllDirections -/

theorem rotateLoopRow_spec (pattern : Nat → Char) (place : Nat → Nat → Nat) (y W : Nat)
    (hinj : ∀ x x2, x < W → x2 < W → place x y = place x2 y → x = x2) (n : Nat) :
    n ≤ W → ∀ st : (Nat → Char) × Nat,
      (rotateLoopRow pattern n place y st).2 = st.2 + n
      ∧ (∀ x, x < n → (rotateLoopRow pattern n place y st).1 (place x y) = pattern (st.2 + x))
      ∧ (∀ j, (∀ x, x < n → place x y ≠ j) →
          (rotateLoopRow pattern n place y st).1 j = st.1 j) := by
  induction n with
  | zero =>
    intro _ st
    refine ⟨rfl, fun x hx => absurd hx (Nat.not_lt_zero x), fun j _ => rfl⟩
  | succ n ih =>
    intro hn st
    obtain ⟨h1, h2, h3⟩ := ih (by omega) st
    have hstep : rotateLoopRow pattern (n + 1) place y st
        = (Function.update (rotateLoopRow pattern n place y st).1 (place n y)
            (pattern (rotateLoopRow pattern n place y st).2),
          (rotateLoopRow pattern n place y st).2 + 1) := by
      unfold rotateLoopRow
      rw [List.range_succ, List.foldl_append, List.foldl_cons, List.foldl_nil]
    rw [hstep]
    refine ⟨by simp only [h1]; omega, fun x hx => ?_, fun j hj => ?_⟩
    · by_cases hxn : x = n
      · subst hxn
        simp only [Function.update_same, h1]
      · have hne : place x y ≠ place n y := fun h => hxn (hinj x n (by omega) (by omega) h)
        simp only [Function.update_noteq hne]
        exact h2 x (by omega)
    · have hne : j ≠ place n y := fun h => hj n (by omega) h.symm
      simp only [Function.update_noteq hne]
      exact h3 j (fun x hx => hj x (by omega))

theorem rotateLoopRows_spec (pattern : Nat → Char) (place : Nat → Nat → Nat) (W H : Nat)
    (hinj : ∀ x y x2 y2, x < W → y < H → x2 < W → y2 < H → place x y = place x2 y2 →
      x = x2 ∧ y = y2) (m : Nat) :
    m ≤ H → ∀ st : (Nat → Char) × Nat,
      (rotateLoopRows pattern W place m st).2 = st.2 + m * W
      ∧ (∀ x y, x < W → y < m →
          (rotateLoopRows pattern W place m st).1 (place x y) = pattern (st.2 + y * W + x))
      ∧ (∀ j, (∀ x y, x < W → y < m → place x y ≠ j) →
          (rotateLoopRows pattern W place m st).1 j = st.1 j) := by
  induction m with
  | zero =>
    intro _ st
    refine ⟨by simp [rotateLoopRows], fun x y _ hy => absurd hy (Nat.not_lt_zero y),
      fun j _ => rfl⟩
  | succ m ih =>
    intro hm st
    obtain ⟨h1, h2, h3⟩ := ih (by omega) st
    have hstep : rotateLoopRows pattern W place (m + 1) st
        = rotateLoopRow pattern W place m (rotateLoopRows pattern W place m st) := by
      unfold rotateLoopRows
      rw [List.range_succ, List.foldl_append, List.foldl_cons, List.foldl_nil]
    obtain ⟨r1, r2, r3⟩ := rotateLoopRow_spec pattern place m W
      (fun x x2 hx hx2 h => (hinj x m x2 m hx (by omega) hx2 (by omega) h).1) W (le_refl W)
      (rotateLoopRows pattern W place m st)
    rw [hstep]
    refine ⟨?_, fun x y hx hy => ?_, fun j hj => ?_⟩
    · rw [r1, h1, Nat.succ_mul]; omega
    · by_cases hym : y = m
      · subst hym
        rw [r2 x hx, h1]
      · have hother : ∀ x2, x2 < W → place x2 m ≠ place x y := fun x2 hx2 h =>
          hym (hinj x2 m x y hx2 (by omega) hx (by omega) h).2.symm
        rw [r3 _ hother]
        exact h2 x y hx (by omega)
    · rw [r3 j (fun x hx => hj x m hx (by omega))]
      exact h3 j (fun x y hx hy => hj x y hx (by omega))

theorem rotateLoop_get (pattern : Nat → Char) (place : Nat → Nat → Nat) (W H : Nat)
    (hinj : ∀ x y x2 y2, x < W → y < H → x2 < W → y2 < H → place x y = place x2 y2 →
      x = x2 ∧ y = y2)
    (new_pattern : Nat → Char) (x y : Nat) (hx : x < W) (hy : y < H) :
    rotateLoop pattern W H place new_pattern (place x y) = pattern (y * W + x) := by
  unfold rotateLoop
  have h := (rotateLoopRows_spec pattern place W H hinj H (le_refl H) (new_pattern, 0)).2.1
    x y hx hy
  simpa using h

theorem mul_add_lt (a b n m : Nat) (ha : a < m) (hb : b < n) : a * n + b < m * n := by
  have h1 : (a + 1) * n ≤ m * n := Nat.mul_le_mul_right n ha
  rw [Nat.succ_mul] at h1
  omega

theorem mul_add_inj (a b a2 b2 n : Nat) (hb : b < n) (hb2 : b2 < n)
    (h : a * n + b = a2 * n + b2) : a = a2 ∧ b = b2 := by
  rcases Nat.lt_trichotomy a a2 with hlt | heq | hgt
  · have h1 : (a + 1) * n ≤ a2 * n := Nat.mul_le_mul_right n hlt
    rw [Nat.succ_mul] at h1
    omega
  · subst heq
    exact ⟨rfl, by omega⟩
  · have h1 : (a2 + 1) * n ≤ a * n := Nat.mul_le_mul_right n hgt
    rw [Nat.succ_mul] at h1
    omega

theorem index_split (i n m : Nat) (hi : i < m * n) :
    ∃ q r, q < m ∧ r < n ∧ q * n + r = i := by
  have hn : 0 < n := by
    rcases Nat.eq_zero_or_pos n with h | h
    · subst h; simp at hi
    · exact h
  refine ⟨i / n, i % n, ?_, Nat.mod_lt _ hn, Nat.div_add_mod' i n⟩
  rw [Nat.div_lt_iff_lt_mul hn]
  exact hi

end output

namespace output

theorem rotateClockwisePlace_reindexing (w h : Nat) :
    IsReindexing (rotateClockwisePlace w h) w h := by
  refine ⟨fun x y hx hy => ?_, fun x y x2 y2 hx hy hx2 hy2 heq => ?_, fun i hi => ?_⟩
  · exact mul_add_lt x (h - 1 - y) h w hx (by omega)
  · have := mul_add_inj x (h - 1 - y) x2 (h - 1 - y2) h (by omega) (by omega) heq
    omega
  · obtain ⟨q, r, h1, h2, h3⟩ := index_split i h w hi
    refine ⟨q, h - 1 - r, h1, by omega, ?_⟩
    show q * h + (h - 1 - (h - 1 - r)) = i
    have e1 : h - 1 - (h - 1 - r) = r := by omega
    rw [e1]; exact h3

theorem rotateUpsideDownPlace_reindexing (w h : Nat) :
    IsReindexing (rotateUpsideDownPlace w h) w h := by
  refine ⟨fun x y hx hy => ?_, fun x y x2 y2 hx hy hx2 hy2 heq => ?_, fun i hi => ?_⟩
  · have := mul_add_lt (h - 1 - y) (w - 1 - x) w h (by omega) (by omega)
    rw [Nat.mul_comm w h]; exact this
  · have := mul_add_inj (h - 1 - y) (w - 1 - x) (h - 1 - y2) (w - 1 - x2) w
      (by omega) (by omega) heq
    omega
  · obtain ⟨q, r, h1, h2, h3⟩ := index_split i w h (by rw [Nat.mul_comm h w]; exact hi)
    refine ⟨w - 1 - r, h - 1 - q, by omega, by omega, ?_⟩
    show (h - 1 - (h - 1 - q)) * w + (w - 1 - (w - 1 - r)) = i
    have e1 : h - 1 - (h - 1 - q) = q := by omega
    have e2 : w - 1 - (w - 1 - r) = r := by omega
    rw [e1, e2]; exact h3

theorem rotateCounterClockwisePlace_reindexing (w h : Nat) :
    IsReindexing (rotateCounterClockwisePlace w h) w h := by
  refine ⟨fun x y hx hy => ?_, fun x y x2 y2 hx hy hx2 hy2 heq => ?_, fun i hi => ?_⟩
  · exact mul_add_lt (w - 1 - x) y h w (by omega) hy
  · have := mul_add_inj (w - 1 - x) y (w - 1 - x2) y2 h hy hy2 heq
    omega
  · obtain ⟨q, r, h1, h2, h3⟩ := index_split i h w hi
    refine ⟨w - 1 - q, r, by omega, h2, ?_⟩
    show (w - 1 - (w - 1 - q)) * h + r = i
    have e1 : w - 1 - (w - 1 - q) = q := by omega
    rw [e1]; exact h3

theorem rotateLoop_clockwise (pattern new_pattern : Nat → Char) (w h r c : Nat)
    (hr : r < w) (hc : c < h) :
    rotateLoop pattern w h (rotateClockwisePlace w h) new_pattern (r * h + c)
      = rotatedClockwise pattern w h r c := by
  have hget := rotateLoop_get pattern (rotateClockwisePlace w h) w h
    (rotateClockwisePlace_reindexing w h).2.1 new_pattern r (h - 1 - c) hr (by omega)
  have hplace : rotateClockwisePlace w h r (h - 1 - c) = r * h + c := by
    show r * h + (h - 1 - (h - 1 - c)) = r * h + c
    have : h - 1 - (h - 1 - c) = c := by omega
    rw [this]
  rw [hplace] at hget
  exact hget

theorem rotateLoop_upsideDown (pattern new_pattern : Nat → Char) (w h r c : Nat)
    (hr : r < h) (hc : c < w) :
    rotateLoop pattern w h (rotateUpsideDownPlace w h) new_pattern (r * w + c)
      = rotatedUpsideDown pattern w h r c := by
  have hget := rotateLoop_get pattern (rotateUpsideDownPlace w h) w h
    (rotateUpsideDownPlace_reindexing w h).2.1 new_pattern (w - 1 - c) (h - 1 - r)
    (by omega) (by omega)
  have hplace : rotateUpsideDownPlace w h (w - 1 - c) (h - 1 - r) = r * w + c := by
    show (h - 1 - (h - 1 - r)) * w + (w - 1 - (w - 1 - c)) = r * w + c
    have e1 : h - 1 - (h - 1 - r) = r := by omega
    have e2 : w - 1 - (w - 1 - c) = c := by omega
    rw [e1, e2]
  rw [hplace] at hget
  exact hget

theorem rotateLoop_counterClockwise (pattern new_pattern : Nat → Char) (w h r c : Nat)
    (hr : r < w) (hc : c < h) :
    rotateLoop pattern w h (rotateCounterClockwisePlace w h) new_pattern (r * h + c)
      = rotatedCounterClockwise pattern w h r c := by
  have hget := rotateLoop_get pattern (rotateCounterClockwisePlace w h) w h
    (rotateCounterClockwisePlace_reindexing w h).2.1 new_pattern (w - 1 - r) c
    (by omega) hc
  have hplace : rotateCounterClockwisePlace w h (w - 1 - r) c = r * h + c := by
    show (w - 1 - (w - 1 - r)) * h + c = r * h + c
    have e1 : w - 1 - (w - 1 - r) = r := by omega
    rw [e1]
  rw [hplace] at hget
  exact hget

/-- Claim C26: `hitMissReplaceAllDirections` hands four patterns to
`hitMissReplaceInPlace`: the original one, then its rotation by 90 degrees
clockwise (width `h`, height `w`), its rotation by 180 degrees (width `w`,
height `h`) and its rotation by 90 degrees counter-clockwise (width `h`,
height `w`), each read cell by cell from the buffer at the time of the call;
and the index written by each of the three loops is a one-to-one map of the
cells of the pattern onto the `w * h` cells of the buffer, so every cell of a
rotated pattern is written exactly once. -/
theorem hitMissReplaceAllDirections_rotations (pattern : Nat → Char) (w h : Nat) :
    ∃ first second third : PatternCall,
      hitMissReplaceAllDirections pattern w h
        = [{ pattern := pattern, width := w, height := h }, first, second, third]
      ∧ (first.width = h ∧ first.height = w
        ∧ ∀ r c, r < w → c < h → first.cell r c = rotatedClockwise pattern w h r c)
      ∧ (second.width = w ∧ second.height = h
        ∧ ∀ r c, r < h → c < w → second.cell r c = rotatedUpsideDown pattern w h r c)
      ∧ (third.width = h ∧ third.height = w
        ∧ ∀ r c, r < w → c < h → third.cell r c = rotatedCounterClockwise pattern w h r c)
      ∧ IsReindexing (rotateClockwisePlace w h) w h
      ∧ IsReindexing (rotateUpsideDownPlace w h) w h
      ∧ IsReindexing (rotateCounterClockwisePlace w h) w h := by
  refine ⟨_, _, _, rfl, ⟨rfl, rfl, fun r c hr hc => ?_⟩, ⟨rfl, rfl, fun r c hr hc => ?_⟩,
    ⟨rfl, rfl, fun r c hr hc => ?_⟩, rotateClockwisePlace_reindexing w h,
    rotateUpsideDownPlace_reindexing w h, rotateCounterClockwisePlace_reindexing w h⟩
  · exact rotateLoop_clockwise pattern _ w h r c hr hc
  · exact rotateLoop_upsideDown pattern _ w h r c hr hc
  · exact rotateLoop_counterClockwise pattern _ w h r c hr hc

/-- Witness for C26 on the pattern "XXX" over " - " (3 wide, 2 high): the cell in
row 1, column 1 of the clockwise rotation, in row 0, column 1 of the
upside-down one and in row 1, column 0 of the counter-clockwise one is the
middle cell of the bottom row of the original. -/
theorem hitMissReplaceAllDirections_rotations_witness :
    ∃ first second third : PatternCall,
      hitMissReplaceAllDirections patternExample 3 2
        = [{ pattern := patternExample, width := 3, height := 2 }, first, second, third]
      ∧ first.cell 1 1 = rotatedClockwise patternExample 3 2 1 1
      ∧ second.cell 0 1 = rotatedUpsideDown patternExample 3 2 0 1
      ∧ third.cell 1 0 = rotatedCounterClockwise patternExample 3 2 1 0
      ∧ rotatedClockwise patternExample 3 2 1 1 = 'X'
      ∧ rotatedUpsideDown patternExample 3 2 0 1 = '-'
      ∧ rotatedCounterClockwise patternExample 3 2 1 0 = 'X' :=
  match hitMissReplaceAllDirections_rotations patternExample 3 2 with
  | ⟨first, second, third, hlist, ⟨_, _, h1⟩, ⟨_, _, h2⟩, ⟨_, _, h3⟩, _⟩ =>
    ⟨first, second, third, hlist, h1 1 1 (by decide) (by decide),
      h2 0 1 (by decide) (by decide), h3 1 0 (by decide) (by decide),
      by decide, by decide, by decide⟩

end output
